import Mathlib

/-!
# LitePythonInterpreter: object model and statement evaluator

A shallow embedding of `object.h`, `object.cpp` and `statement.cpp`.

* Runtime values are `ObjectHolder`s.  Strings, numbers, booleans and classes are
  immutable, so a handle to one of them is modelled by the value itself.  A
  `ClassInstance` is mutable and aliased (`ObjectHolder::Share(*this)`), so
  instances live in a heap and a handle to one is its address.
* `Execute` threads a `State` (the `Closure&` argument, the heap of instances and
  the text written to `Print::output`) and returns a `Result`: a value, a thrown
  C++ exception, undefined behaviour (a null or dangling pointer is dereferenced, a
  quotient is not an `int`), or exhaustion of the recursion fuel.
* The header `object_holder.h` is not among the sources; the handle follows the
  specification: a value outlives every handle that points at it, and copying a handle
  does not copy the value.  So an instance a handle of the state points at is never
  reclaimed in the model.  Two places of the code fall outside that contract: the
  stack-local `instance` of `NewInstance::Execute`, whose lifetime ends when the function
  returns (its cell of the heap becomes `none`, and a handle kept to it dangles), and the
  raw pointer `cls_instance` of `MethodCall::Execute`, which is good for the call only
  while the state still holds the instance.
-/

namespace LitePython

/-! ## Syntax tree and classes -/

/-- Modelled from the spec: the payload of a literal node (`Literal(5)`,
`String("a")`, `Number(2)`); the literal node classes are declared in `statement.h`. -/
inductive Constant where
  | none
  | number (value : Int)
  | string (value : String)
  | bool (value : Bool)

mutual
/-- The node kinds of `namespace Ast`.  `Literal` stands for the literal node classes, which
return their constant; `Comparison` holds its comparator as an index into a table of
comparators, `FieldAssignment` holds the dotted identifiers of its `VariableValue object`,
and a null `else_body` is `none`. -/
inductive Statement where
  | Literal (value : Constant)
  | Assignment (var_name : String) (right_value : Statement)
  | VariableValue (dotted_ids : List String)
  | Print (args : List Statement)
  | MethodCall (object : Statement) (method : String) (args : List Statement)
  | Stringify (argument : Statement)
  | Add (lhs rhs : Statement)
  | Sub (lhs rhs : Statement)
  | Mult (lhs rhs : Statement)
  | Div (lhs rhs : Statement)
  | Compound (statements : List Statement)
  | Return (statement : Statement)
  | ClassDefinition (cls : Class)
  | FieldAssignment (object : List String) (field_name : String) (right_value : Statement)
  | IfElse (condition if_body : Statement) (else_body : Option Statement)
  | Or (lhs rhs : Statement)
  | And (lhs rhs : Statement)
  | Not (argument : Statement)
  | Comparison (comparator : Nat) (left right : Statement)
  | NewInstance (class_ : Class) (args : List Statement)
/-- The `struct Method` of `object.h`. -/
inductive Method where
  | mk (name : String) (formal_params : List String) (body : Statement)
/-- The `class Class` of `object.h`: its name, the vector of methods handed to the
constructor and the parent pointer (`none` is the null pointer). -/
inductive Class where
  | mk (name : String) (methods : List Method) (parent : Option Class)
end

/-- The member `Method::name`. -/
def Method.name : Method → String
  | .mk name _ _ => name

/-- The member `Method::formal_params`. -/
def Method.formal_params : Method → List String
  | .mk _ formal_params _ => formal_params

/-- The member `Method::body`. -/
def Method.body : Method → Statement
  | .mk _ _ body => body

/-- The accessor `Class::GetName`. -/
def Class.GetName : Class → String
  | .mk name _ _ => name

/-- The vector of methods a class was constructed from. -/
def Class.methodList : Class → List Method
  | .mk _ methods _ => methods

/-- The member `Class::parent`. -/
def Class.parent : Class → Option Class
  | .mk _ _ parent => parent

/-- The lookup `methods.at(name)` in the table the constructor `Class::Class` fills with
`this->methods[method.name] = std::move(method)`: of several methods of one name the
last of the vector stays. -/
def methodsAt (name : String) : List Method → Option Method
  | [] => none
  | method :: rest =>
    match methodsAt name rest with
    | some later => some later
    | none => if method.name = name then some method else none

/-- The table lookup of a class: `methods.count(name)` holds iff this is `some`. -/
def Class.ownMethod (c : Class) (name : String) : Option Method :=
  methodsAt name c.methodList

/-- The lookup `Class::GetMethod`: the own table first, then the parent chain; `none` is
the null pointer. -/
def Class.GetMethod (name : String) : Class → Option Method
  | .mk _ methods parent =>
    match methodsAt name methods with
    | some method => some method
    | none =>
      match parent with
      | some p => Class.GetMethod name p
      | none => none

/-! ## Values, scopes and the machine state -/

/-- Modelled from the spec: the value handle `ObjectHolder` of `object_holder.h`, which is
not among the sources.  A handle is empty, or points at a string, number, boolean, class, or
at the instance stored at an address of the heap; copying it copies no value. -/
inductive ObjectHolder where
  | None
  | string (value : String)
  | number (value : Int)
  | bool (value : Bool)
  | cls (c : Class)
  | inst (addr : Nat)

/-- The test `ObjectHolder::Get() != nullptr` (also the boolean conversion). -/
def ObjectHolder.Get : ObjectHolder → Bool
  | .None => false
  | _ => true

/-- A `Runtime::Closure`: a map from names to handles, kept as an association list. -/
abbrev Closure := List (String × ObjectHolder)

/-- The lookup `closure.find(name)`. -/
def Closure.find : Closure → String → Option ObjectHolder
  | [], _ => none
  | (key, value) :: rest, name => if key = name then some value else Closure.find rest name

/-- The test `closure.count(name)`. -/
def Closure.count (closure : Closure) (name : String) : Bool :=
  (Closure.find closure name).isSome

/-- The store `closure[name] = value`. -/
def Closure.set : Closure → String → ObjectHolder → Closure
  | [], name, value => [(name, value)]
  | (key, old) :: rest, name, value =>
    if key = name then (key, value) :: rest else (key, old) :: Closure.set rest name value

/-- The `class ClassInstance` of `object.h`. -/
structure ClassInstance where
  cls : Class
  fields : Closure

/-- The memory holding the instances: a cell is `none` once the lifetime of its object
has ended. -/
abbrev Heap := List (Option ClassInstance)

/-- The object at an address, if there is a live one. -/
def Heap.deref (heap : Heap) (addr : Nat) : Option ClassInstance :=
  match heap.get? addr with
  | some cell => cell
  | none => none

/-- What `Execute` reads and writes: the closure it is handed, the instances, and the
text written so far to `Print::output`. -/
structure State where
  closure : Closure
  heap : Heap
  output : String

/-- The write `*output << text`. -/
def State.write (st : State) (text : String) : State :=
  { st with output := st.output ++ text }

/-- The exceptions the code throws. -/
inductive Exception where
  | runtime_error (what : String)
  | invalid_argument (what : String)
  | out_of_range

/-- How a call ends: with a value, with an exception, in undefined behaviour, or without
an answer because the fuel ran out. -/
inductive Result (α : Type) where
  | ok (value : α) (st : State)
  | throw (e : Exception) (st : State)
  | undefined
  | timeout

/-- Sequencing: anything but a value ends the computation. -/
def Result.bind {α β : Type} (r : Result α) (f : α → State → Result β) : Result β :=
  match r with
  | .ok value st => f value st
  | .throw e st => .throw e st
  | .undefined => .undefined
  | .timeout => .timeout

/-- Leaving a method body: the closure of the caller is current again. -/
def Result.leave {α : Type} (caller : Closure) : Result α → Result α
  | .ok value st => .ok value { st with closure := caller }
  | .throw e st => .throw e { st with closure := caller }
  | .undefined => .undefined
  | .timeout => .timeout

/-- The value a literal node returns. -/
def Constant.toObject : Constant → ObjectHolder
  | .none => .None
  | .number n => .number n
  | .string s => .string s
  | .bool b => .bool b

/-- Modelled from the spec: `Runtime::IsTrue`, which `statement.cpp` calls and neither
`object.h` nor `object.cpp` holds.  A boolean is true iff its value is, a number iff it
is not zero, the empty handle is false, any other value is true. -/
def IsTrue : ObjectHolder → Bool
  | .None => false
  | .bool b => b
  | .number n => n != 0
  | _ => true

/-- The values of a 32-bit signed `int`. -/
def representable (x : Int) : Prop :=
  -2147483648 ≤ x ∧ x ≤ 2147483647

instance (x : Int) : Decidable (representable x) :=
  inferInstanceAs (Decidable (-2147483648 ≤ x ∧ x ≤ 2147483647))

/-- The value of an `int` sum, difference or product whose mathematical value is `x`: the
identity on the 32-bit signed values.  Signed overflow is undefined in C++; for `+`, `-`
and `*` the model takes the two's complement wrap-around the machine computes. -/
def wrapInt (x : Int) : Int :=
  (x + 2147483648) % 4294967296 - 2147483648

/-- The text `os << this` writes for an instance; the format is implementation defined,
here the address in hexadecimal. -/
def pointerText (addr : Nat) : String :=
  "0x" ++ String.mk (Nat.toDigits 16 addr)

/-- What `Comparison::Execute` depends on and the sources do not fix: the comparators a
node can hold, by index (functions from two handles to a boolean), and the order in which
the two arguments of the call `comparator(left->Execute(closure), right->Execute(closure))`
are evaluated, which C++ leaves to the compiler. -/
structure Comparators where
  compare : Nat → ObjectHolder → ObjectHolder → Bool
  rightFirst : Bool

/-! ## The object model -/

/-- The test `ClassInstance::HasMethod`. -/
def ClassInstance.HasMethod (self : ClassInstance) (method_name : String)
    (argument_count : Nat) : Bool :=
  match self.cls.GetMethod method_name with
  | some method => method.formal_params.length == argument_count
  | none => false

/-- The loop of `ClassInstance::Call` that stores `actual_args[i]` under
`formal_params[i]`. -/
def bindArgs : List String → List ObjectHolder → Closure → Closure
  | param :: params, arg :: actual_args, closure =>
    bindArgs params actual_args (Closure.set closure param arg)
  | _, _, closure => closure

/-- The closure `ClassInstance::Call` builds for a method body. -/
def callClosure (self : Nat) (method : Method) (actual_args : List ObjectHolder) : Closure :=
  bindArgs method.formal_params actual_args (Closure.set [] "self" (.inst self))

/-- The call `ClassInstance::Call` on the instance at address `self`; `exec` executes
the method body. -/
def ClassInstance.Call (exec : Statement → State → Result ObjectHolder) (self : Nat)
    (method_name : String) (actual_args : List ObjectHolder) (st : State) :
    Result ObjectHolder :=
  match Heap.deref st.heap self with
  | none => .undefined
  | some instance_ =>
    if instance_.HasMethod method_name actual_args.length then
      match instance_.cls.GetMethod method_name with
      | none => .undefined
      | some method =>
        Result.leave st.closure
          (exec method.body { st with closure := callClosure self method actual_args })
    else .throw (.runtime_error "no such method") st

/-- The virtual `Object::Print` on a non-null pointer: the text it writes to `os`.  An
instance with a zero-argument `__str__` prints what that call returns. -/
def ObjectPrint (exec : Statement → State → Result ObjectHolder) :
    Nat → ObjectHolder → State → Result String
  | _, .None, _ => .undefined
  | _, .string value, st => .ok value st
  | _, .number value, st => .ok (toString value) st
  | _, .bool value, st => .ok (if value then "True" else "False") st
  | _, .cls c, st => .ok c.GetName st
  | 0, .inst _, _ => .timeout
  | fuel + 1, .inst addr, st =>
    match Heap.deref st.heap addr with
    | none => .undefined
    | some instance_ =>
      if instance_.HasMethod "__str__" 0 then
        (ClassInstance.Call exec addr "__str__" [] st).bind fun res st1 =>
          ObjectPrint exec fuel res st1
      else .ok (pointerText addr) st

/-! ## The evaluator -/

/-- The handle points at the instance at `addr`. -/
def ObjectHolder.pointsAt (addr : Nat) : ObjectHolder → Bool
  | .inst a => a == addr
  | _ => false

/-- The handle leads to the instance at `addr`: it points at it, or at a live instance one
of whose fields leads to it, through at most `depth` instances on the way. -/
def Heap.leadsTo (heap : Heap) (addr : Nat) : Nat → ObjectHolder → Bool
  | 0, value => value.pointsAt addr
  | depth + 1, value =>
    value.pointsAt addr ||
      match value with
      | .inst a =>
        match Heap.deref heap a with
        | some instance_ => instance_.fields.any fun p => Heap.leadsTo heap addr depth p.2
        | none => false
      | _ => false

/-- The state holds the instance at `addr`: a variable of the closure leads to it, directly
or through fields of live instances.  Such an instance is alive whatever became of the
handles the code had in temporaries.  The closures and temporaries of the callers are not
part of the state: an instance only they hold counts as not held. -/
def State.holds (st : State) (addr : Nat) : Bool :=
  st.closure.any fun p => Heap.leadsTo st.heap addr st.heap.length p.2

/-- The loops `actual_args[i] = args[i]->Execute(closure)`. -/
def ExecuteArgs (exec : Statement → State → Result ObjectHolder) :
    List Statement → State → Result (List ObjectHolder)
  | [], st => .ok [] st
  | arg :: rest, st =>
    (exec arg st).bind fun value st1 =>
      (ExecuteArgs exec rest st1).bind fun values st2 => .ok (value :: values) st2

/-- The fold of `VariableValue::Execute` over the identifiers after the first. -/
def accumulateFields : List String → ObjectHolder → State → Result ObjectHolder
  | [], parent, st => .ok parent st
  | name :: rest, parent, st =>
    match parent with
    | .inst addr =>
      match Heap.deref st.heap addr with
      | none => .undefined
      | some instance_ =>
        match Closure.find instance_.fields name with
        | none => .throw .out_of_range st
        | some value => accumulateFields rest value st
    | _ => .undefined

/-- The body of `VariableValue::Execute`. -/
def VariableValueExecute (dotted_ids : List String) (st : State) : Result ObjectHolder :=
  match dotted_ids with
  | [] => .undefined
  | var_name :: rest =>
    match Closure.find st.closure var_name with
    | none => .throw (.runtime_error ("unknown variable " ++ var_name)) st
    | some value => accumulateFields rest value st

/-- The loop of `Print::Execute`. -/
def PrintArgs (exec : Statement → State → Result ObjectHolder) (fuel : Nat) :
    List Statement → Bool → State → Result Unit
  | [], _, st => .ok () st
  | arg :: rest, first, st =>
    (exec arg (if first then st else st.write " ")).bind fun obj st1 =>
      match obj with
      | .None => PrintArgs exec fuel rest false (st1.write "None")
      | _ =>
        (ObjectPrint exec fuel obj st1).bind fun text st2 =>
          PrintArgs exec fuel rest false (st2.write text)

/-- The test `check_for_return` of `Compound::Execute`: the three `dynamic_cast`s. -/
def Statement.checkForReturn : Statement → Bool
  | .Return _ => true
  | .IfElse _ _ _ => true
  | .Compound _ => true
  | _ => false

/-- The loop of `Compound::Execute`. -/
def ExecuteStatements (exec : Statement → State → Result ObjectHolder) :
    List Statement → State → Result ObjectHolder
  | [], st => .ok .None st
  | statement :: rest, st =>
    (exec statement st).bind fun ret st1 =>
      if statement.checkForReturn && ret.Get then .ok ret st1
      else ExecuteStatements exec rest st1

/-- The last block of `Add/Sub/Mult/Div::Execute`: the left operand is an instance with
a one-argument method of the given name, or `what` is thrown. -/
def dispatchOperator (exec : Statement → State → Result ObjectHolder) (method_name : String)
    (what : String) (obj1 obj2 : ObjectHolder) (st : State) : Result ObjectHolder :=
  match obj1 with
  | .inst addr =>
    match Heap.deref st.heap addr with
    | none => .undefined
    | some v1 =>
      if v1.HasMethod method_name 1 then ClassInstance.Call exec addr method_name [obj2] st
      else .throw (.runtime_error what) st
  | _ => .throw (.runtime_error what) st

/-- The store `obj.TryAs<ClassInstance>()->Fields()[field_name] = right_obj`. -/
def storeField (heap : Heap) (addr : Nat) (instance_ : ClassInstance) (field_name : String)
    (value : ObjectHolder) : Heap :=
  heap.set addr (some { instance_ with fields := Closure.set instance_.fields field_name value })

/-- The end of `NewInstance::Execute`: the local `instance` at `addr` is moved into a new
object, which the returned handle owns, and its own lifetime ends. -/
def moveInstance (addr : Nat) (st : State) : Result ObjectHolder :=
  match Heap.deref st.heap addr with
  | none => .undefined
  | some instance_ =>
    .ok (.inst st.heap.length)
      { st with heap := (st.heap.set addr none) ++ [some instance_] }

/-- Unwinding out of `NewInstance::Execute`: the local `instance` at `addr` is destroyed. -/
def dropInstance {α : Type} (addr : Nat) : Result α → Result α
  | .throw e st => .throw e { st with heap := st.heap.set addr none }
  | r => r

/-- The virtual `Statement::Execute`, by node kind.  In `MethodCall` the handle the object
expression returned is a temporary, gone before the arguments run, and the code keeps the
raw pointer: the call is defined while a handle of the state holds the instance.  In `Div`
a quotient that is no `int` (`INT_MIN / -1`) has no value.  In `Comparison` the compiler
chooses which operand runs first. -/
def Execute (cmp : Comparators) : Nat → Statement → State → Result ObjectHolder
  | 0, _, _ => .timeout
  | fuel + 1, stmt, st =>
    match stmt with
    | .Literal value => .ok value.toObject st
    | .Assignment var_name right_value =>
      (Execute cmp fuel right_value st).bind fun value st1 =>
        .ok value { st1 with closure := Closure.set st1.closure var_name value }
    | .VariableValue dotted_ids => VariableValueExecute dotted_ids st
    | .Print args =>
      (PrintArgs (Execute cmp fuel) fuel args true st).bind fun _ st1 =>
        .ok .None (st1.write "\n")
    | .MethodCall object method args =>
      (Execute cmp fuel object st).bind fun obj st1 =>
        match obj with
        | .inst addr =>
          (ExecuteArgs (Execute cmp fuel) args st1).bind fun actual_args st2 =>
            if st2.holds addr then
              ClassInstance.Call (Execute cmp fuel) addr method actual_args st2
            else .undefined
        | _ => .throw (.runtime_error "not class instance") st1
    | .Stringify argument =>
      (Execute cmp fuel argument st).bind fun obj st1 =>
        (ObjectPrint (Execute cmp fuel) fuel obj st1).bind fun str st2 =>
          .ok (.string str) st2
    | .Add lhs rhs =>
      (Execute cmp fuel lhs st).bind fun obj1 st1 =>
        (Execute cmp fuel rhs st1).bind fun obj2 st2 =>
          match obj1, obj2 with
          | .string v1, .string v2 => .ok (.string (v1 ++ v2)) st2
          | .number v1, .number v2 => .ok (.number (wrapInt (v1 + v2))) st2
          | _, _ => dispatchOperator (Execute cmp fuel) "__add__" "wrong types" obj1 obj2 st2
    | .Sub lhs rhs =>
      (Execute cmp fuel lhs st).bind fun obj1 st1 =>
        (Execute cmp fuel rhs st1).bind fun obj2 st2 =>
          match obj1, obj2 with
          | .number v1, .number v2 => .ok (.number (wrapInt (v1 - v2))) st2
          | _, _ => dispatchOperator (Execute cmp fuel) "__sub__" "rwong types" obj1 obj2 st2
    | .Mult lhs rhs =>
      (Execute cmp fuel lhs st).bind fun obj1 st1 =>
        (Execute cmp fuel rhs st1).bind fun obj2 st2 =>
          match obj1, obj2 with
          | .number v1, .number v2 => .ok (.number (wrapInt (v1 * v2))) st2
          | _, _ => dispatchOperator (Execute cmp fuel) "__mult__" "rwong types" obj1 obj2 st2
    | .Div lhs rhs =>
      (Execute cmp fuel lhs st).bind fun obj1 st1 =>
        (Execute cmp fuel rhs st1).bind fun obj2 st2 =>
          match obj1, obj2 with
          | .number v1, .number v2 =>
            if v2 = 0 then .throw (.invalid_argument "division by zero") st2
            else if representable (Int.tdiv v1 v2) then .ok (.number (Int.tdiv v1 v2)) st2
            else .undefined
          | _, _ => dispatchOperator (Execute cmp fuel) "__div__" "rwong types" obj1 obj2 st2
    | .Compound statements => ExecuteStatements (Execute cmp fuel) statements st
    | .Return statement => Execute cmp fuel statement st
    | .ClassDefinition cls =>
      if Closure.count st.closure cls.GetName then
        .throw (.runtime_error "multiple definitions") st
      else .ok (.cls cls) { st with closure := Closure.set st.closure cls.GetName (.cls cls) }
    | .FieldAssignment object field_name right_value =>
      (VariableValueExecute object st).bind fun obj st1 =>
        (Execute cmp fuel right_value st1).bind fun right_obj st2 =>
          match obj with
          | .inst addr =>
            match Heap.deref st2.heap addr with
            | none => .undefined
            | some instance_ =>
              match right_obj with
              | .None => .undefined
              | _ =>
                .ok right_obj
                  { st2 with heap := storeField st2.heap addr instance_ field_name right_obj }
          | _ => .undefined
    | .IfElse condition if_body else_body =>
      (Execute cmp fuel condition st).bind fun c st1 =>
        if IsTrue c then Execute cmp fuel if_body st1
        else
          match else_body with
          | some body => Execute cmp fuel body st1
          | none => .ok .None st1
    | .Or lhs rhs =>
      (Execute cmp fuel lhs st).bind fun v1 st1 =>
        if IsTrue v1 then .ok (.bool true) st1
        else (Execute cmp fuel rhs st1).bind fun v2 st2 => .ok (.bool (IsTrue v2)) st2
    | .And lhs rhs =>
      (Execute cmp fuel lhs st).bind fun v1 st1 =>
        if IsTrue v1 then
          (Execute cmp fuel rhs st1).bind fun v2 st2 => .ok (.bool (IsTrue v2)) st2
        else .ok (.bool false) st1
    | .Not argument =>
      (Execute cmp fuel argument st).bind fun v st1 => .ok (.bool (!IsTrue v)) st1
    | .Comparison comparator left right =>
      if cmp.rightFirst then
        (Execute cmp fuel right st).bind fun v2 st1 =>
          (Execute cmp fuel left st1).bind fun v1 st2 =>
            .ok (.bool (cmp.compare comparator v1 v2)) st2
      else
        (Execute cmp fuel left st).bind fun v1 st1 =>
          (Execute cmp fuel right st1).bind fun v2 st2 =>
            .ok (.bool (cmp.compare comparator v1 v2)) st2
    | .NewInstance class_ args =>
      dropInstance st.heap.length
        ((ExecuteArgs (Execute cmp fuel) args
            { st with heap := st.heap ++ [some { cls := class_, fields := [] }] }).bind
          fun actual_args st1 =>
            match Heap.deref st1.heap st.heap.length with
            | none => .undefined
            | some instance_ =>
              if instance_.HasMethod "__init__" actual_args.length then
                (ClassInstance.Call (Execute cmp fuel) st.heap.length "__init__"
                    actual_args st1).bind fun _ st2 => moveInstance st.heap.length st2
              else moveInstance st.heap.length st1)

/-! ## Notions of the specification -/

/-- The node kinds the specification lets carry an early exit: the child is a `Return`, an
`IfElse` or a `Compound`. -/
def Statement.propagates (s : Statement) : Prop :=
  (∃ x, s = .Return x) ∨ (∃ c t e, s = .IfElse c t e) ∨ (∃ l, s = .Compound l)

/-- Executing statements one after the other, each ending with a value: the values and
the state reached. -/
def runInOrder (exec : Statement → State → Result ObjectHolder) :
    List Statement → State → Option (List ObjectHolder × State)
  | [], st => some ([], st)
  | child :: rest, st =>
    match exec child st with
    | .ok ret st1 =>
      match runInOrder exec rest st1 with
      | some (rets, st2) => some (ret :: rets, st2)
      | none => none
    | _ => none

/-- No child is both of a propagating kind and returns a non-empty handle. -/
def noneStops (children : List Statement) (rets : List ObjectHolder) : Prop :=
  ∀ p ∈ List.zip children rets, ¬ (p.1.propagates ∧ p.2 ≠ .None)

/-- A class followed by its ancestors, the nearest first. -/
def Class.chain : Class → List Class
  | .mk name methods parent =>
    .mk name methods parent ::
      match parent with
      | some p => Class.chain p
      | none => []

/-- The table of the class itself holds a method of this name with `k` formal parameters. -/
def Class.definesWithArity (c : Class) (name : String) (k : Nat) : Prop :=
  ∃ method, c.ownMethod name = some method ∧ method.formal_params.length = k

/-! ## Inputs of the examples -/

/-- A table of comparators for the examples. -/
def noComparators : Comparators := { compare := fun _ _ _ => false, rightFirst := false }

/-- The state a program starts in: an empty top-level scope, no instance, no output. -/
def State.initial : State := { closure := [], heap := [], output := "" }

/-- A class `Base` with a one-parameter method `m`. -/
def exampleBase : Class :=
  .mk "Base" [.mk "m" ["x"] (.Return (.VariableValue ["x"]))] none

/-- A class `Derived` whose own `m` has two parameters; its parent is `Base`. -/
def exampleDerived : Class :=
  .mk "Derived" [.mk "m" ["x", "y"] (.Return (.VariableValue ["y"]))] (some exampleBase)

/-- A class `Child` with no method of its own; its parent is `Base`. -/
def exampleChild : Class :=
  .mk "Child" [] (some exampleBase)

/-- A state with an instance of `Child` at address 0 and one of `Base` at address 1, and
a variable `x` in the scope. -/
def exampleTwoInstances : State :=
  { closure := [("x", .number 9)],
    heap := [some { cls := exampleChild, fields := [] },
             some { cls := exampleBase, fields := [] }],
    output := "" }

/-- A class whose method `assign(p)` assigns to a variable `y` of its body and whose
method `peek()` reads a variable `x` that is neither `self` nor a parameter. -/
def exampleScoped : Class :=
  .mk "Scoped"
    [.mk "assign" ["p"]
      (.Compound [.Assignment "y" (.VariableValue ["p"]), .Return (.VariableValue ["y"])]),
     .mk "peek" [] (.VariableValue ["x"])]
    none

/-- A caller's state: `x` is a number, `obj` an instance of `Scoped` at address 0. -/
def exampleCaller : State :=
  { closure := [("x", .number 9), ("obj", .inst 0)],
    heap := [some { cls := exampleScoped, fields := [] }],
    output := "" }

/-- The quotient truncated toward zero: the sign of the exact quotient, times the whole
part of the quotient of the absolute values. -/
def truncQuot (a b : Int) : Int :=
  Int.sign a * Int.sign b * ((a.natAbs / b.natAbs : Nat) : Int)
/-- A class whose four operator methods return fixed numbers. -/
def exampleOperators : Class :=
  .mk "Operators"
    [.mk "__add__" ["other"] (.Return (.Literal (.number 42))),
     .mk "__sub__" ["other"] (.Return (.Literal (.number 43))),
     .mk "__mult__" ["other"] (.Return (.Literal (.number 44))),
     .mk "__div__" ["other"] (.Return (.Literal (.number 45)))]
    none

/-- A state in which `obj` is an instance of `Operators` at address 0. -/
def exampleOperand : State :=
  { closure := [("obj", .inst 0)],
    heap := [some { cls := exampleOperators, fields := [] }],
    output := "" }

/-- The executor `exec2` answers as `exec1` wherever `exec1` does not run out of fuel. -/
def Extends (exec1 exec2 : Statement → State → Result ObjectHolder) : Prop :=
  ∀ (s : Statement) (st : State), exec1 s st ≠ .timeout → exec2 s st = exec1 s st

/-- A class whose `__add__` has two formal parameters. -/
def exampleWide : Class :=
  .mk "Wide" [.mk "__add__" ["a", "b"] (.Return (.Literal (.number 1)))] none

/-- A state in which `x` is the number 5, `s` a string, `obj` an instance of `Base` at
address 0 with a field `w`, `plain` an instance of `Child` (no operator method) at address
1, `wide` an instance of `Wide` at address 2 and `ops` an instance of `Operators` at
address 3. -/
def exampleMixed : State :=
  { closure := [("x", .number 5), ("s", .string "a"), ("obj", .inst 0), ("plain", .inst 1),
      ("wide", .inst 2), ("ops", .inst 3)],
    heap := [some { cls := exampleBase, fields := [("w", .number 3)] },
             some { cls := exampleChild, fields := [] },
             some { cls := exampleWide, fields := [] },
             some { cls := exampleOperators, fields := [] }],
    output := "" }

/-- Following the fields `names` from a value: the value reached, when every value on the
way is an instance that holds the next field. -/
def followFields (heap : Heap) : ObjectHolder → List String → Option ObjectHolder
  | value, [] => some value
  | .inst addr, name :: rest =>
    match Heap.deref heap addr with
    | some instance_ =>
      match Closure.find instance_.fields name with
      | some field => followFields heap field rest
      | none => none
    | none => none
  | _, _ :: _ => none

/-- Every instance of the first heap is still an instance in the second, of the same
class. -/
def Heap.Alive (heap later : Heap) : Prop :=
  ∀ (addr : Nat) (instance_ : ClassInstance), Heap.deref heap addr = some instance_ →
    ∃ kept, Heap.deref later addr = some kept ∧ kept.cls = instance_.cls

/-- A computation started with `heap` ends, if it ends in a state, with every instance of
`heap` still there. -/
def Result.KeepsAlive {α : Type} (heap : Heap) : Result α → Prop
  | .ok _ st => Heap.Alive heap st.heap
  | .throw _ st => Heap.Alive heap st.heap
  | .undefined => True
  | .timeout => True

/-- No value of the closure is a handle to the instance at `addr`. -/
def Closure.avoids (addr : Nat) (closure : Closure) : Prop :=
  ∀ p ∈ closure, p.2 ≠ ObjectHolder.inst addr

/-- No field of an instance of the heap is a handle to the instance at `addr`. -/
def Heap.avoids (addr : Nat) (heap : Heap) : Prop :=
  ∀ instance_ : ClassInstance, some instance_ ∈ heap → Closure.avoids addr instance_.fields

/-- The address `addr` is allocated and no handle of the state points at it. -/
def State.Unreached (addr : Nat) (st : State) : Prop :=
  addr < st.heap.length ∧ Closure.avoids addr st.closure ∧ Heap.avoids addr st.heap

/-- A computation ends, if it ends in a state, with `addr` still unreached and its cell equal
to `cell`, and with a value that is `good`. -/
def Result.Framed {α : Type} (addr : Nat) (good : α → Prop)
    (cell : Option (Option ClassInstance)) : Result α → Prop
  | .ok value st => good value ∧ State.Unreached addr st ∧ st.heap.get? addr = cell
  | .throw _ st => State.Unreached addr st ∧ st.heap.get? addr = cell
  | .undefined => True
  | .timeout => True

/-- The executor leaves an unreached address unreached and its cell as it was, and returns
no handle to it. -/
def ExecFramed (addr : Nat) (exec : Statement → State → Result ObjectHolder) : Prop :=
  ∀ (s : Statement) (st : State) (cell : Option (Option ClassInstance)),
    State.Unreached addr st → st.heap.get? addr = cell →
    (exec s st).Framed addr (fun value => value ≠ .inst addr) cell

/-- A class with a method `replace()` that stores the field `c` of `self` into its field `b`
and returns 7. -/
def exampleReplacer : Class :=
  .mk "Replacer"
    [.mk "replace" []
      (.Compound [.FieldAssignment ["self"] "b" (.VariableValue ["self", "c"]),
        .Return (.Literal (.number 7))])]
    none

/-- A state in which `a` is an instance of `Replacer` at address 0 whose fields `b` and `c`
are the instances at addresses 1 and 2. -/
def exampleLinked : State :=
  { closure := [("a", .inst 0)],
    heap := [some { cls := exampleReplacer, fields := [("b", .inst 1), ("c", .inst 2)] },
             some { cls := exampleBase, fields := [] },
             some { cls := exampleBase, fields := [] }],
    output := "" }

/-- The state `a.b.f = a.replace()` leaves from `exampleLinked`: the old `a.b` (address 1)
has the field `f`, and `a.b` is now the instance at address 2. -/
def exampleRelinked : State :=
  { closure := [("a", .inst 0)],
    heap := [some { cls := exampleReplacer, fields := [("b", .inst 2), ("c", .inst 2)] },
             some { cls := exampleBase, fields := [("f", .number 7)] },
             some { cls := exampleBase, fields := [] }],
    output := "" }

/-- A class whose `__init__(n)` stores `n` in the field `v` of `self`. -/
def exampleBox : Class :=
  .mk "Box" [.mk "__init__" ["n"] (.FieldAssignment ["self"] "v" (.VariableValue ["n"]))] none

/-- A class with a method `put(p)` whose body is `self.f = p`. -/
def examplePutter : Class :=
  .mk "Putter" [.mk "put" ["p"] (.FieldAssignment ["self"] "f" (.VariableValue ["p"]))] none

/-- A state in which `x` is an instance of `Putter` at address 0. -/
def exampleAlias : State :=
  { closure := [("x", .inst 0)],
    heap := [some { cls := examplePutter, fields := [] }],
    output := "" }

/-- The texts, each preceded by a space. -/
def spaced : List String → String
  | [] => ""
  | text :: rest => " " ++ text ++ spaced rest

/-- The texts with a single space between consecutive ones: `r_1 + " " + r_2 + ...`. -/
def joinWithSpaces : List String → String
  | [] => ""
  | text :: rest => text ++ spaced rest

/-- The rendering of a value that is not an instance: the text `None` for the empty handle,
the decimal digits of a number, the text of a string, `True` or `False`, the name of a
class. -/
def renderValue : ObjectHolder → Option String
  | .None => some "None"
  | .number value => some (toString value)
  | .string value => some value
  | .bool value => some (if value then "True" else "False")
  | .cls c => some c.GetName
  | .inst _ => none

/-- The arguments evaluate in order, from the scope and instances given to the ones
reached, and are rendered as `texts`, while neither an evaluation nor a rendering writes
to the output: each step is the same whatever the output holds, and leaves it. -/
def rendersQuietly (exec : Statement → State → Result ObjectHolder) (fuel : Nat) :
    List Statement → Closure → Heap → List String → Closure → Heap → Prop
  | [], closure, heap, [], closure2, heap2 => closure2 = closure ∧ heap2 = heap
  | arg :: rest, closure, heap, text :: texts, closure2, heap2 =>
    ∃ (value : ObjectHolder) (ca : Closure) (ha : Heap) (cb : Closure) (hb : Heap),
      (∀ out, exec arg { closure := closure, heap := heap, output := out }
        = .ok value { closure := ca, heap := ha, output := out }) ∧
      ((value = .None ∧ text = "None" ∧ cb = ca ∧ hb = ha) ∨
        (value ≠ .None ∧
          ∀ out, ObjectPrint exec fuel value { closure := ca, heap := ha, output := out }
            = .ok text { closure := cb, heap := hb, output := out })) ∧
      rendersQuietly exec fuel rest cb hb texts closure2 heap2
  | [], _, _, _ :: _, _, _ => False
  | _ :: _, _, _, [], _, _ => False

/-- A class with a method `show()` that prints `hi` and returns 1. -/
def exampleShower : Class :=
  .mk "Shower"
    [.mk "show" []
      (.Compound [.Print [.Literal (.string "hi")], .Return (.Literal (.number 1))])]
    none

/-- A state in which `obj` is an instance of `Shower` at address 0. -/
def exampleNoisy : State :=
  { closure := [("obj", .inst 0)],
    heap := [some { cls := exampleShower, fields := [] }],
    output := "" }

/-- A state in which `x` and `keep` are bound to one instance of `Putter`, at address 0, and
`other` to a second instance of `Putter`, at address 1. -/
def exampleShared : State :=
  { closure := [("x", .inst 0), ("keep", .inst 0), ("other", .inst 1)],
    heap := [some { cls := examplePutter, fields := [] },
             some { cls := examplePutter, fields := [] }],
    output := "" }

/-- The state `x.put(x = other)` leaves from `exampleShared`: the instance at address 0 has
the field `f`, and `x` is bound to the instance at address 1. -/
def exampleRebound : State :=
  { closure := [("x", .inst 1), ("keep", .inst 0), ("other", .inst 1)],
    heap := [some { cls := examplePutter, fields := [("f", .inst 1)] },
             some { cls := examplePutter, fields := [] }],
    output := "" }

/-- A class whose method `outer()` calls on `self` the method `missing`, which the class
does not have. -/
def exampleNested : Class :=
  .mk "Nested" [.mk "outer" [] (.MethodCall (.VariableValue ["self"]) "missing" [])] none

/-- A state in which `obj` is an instance of `Nested` at address 0. -/
def exampleNestedCaller : State :=
  { closure := [("obj", .inst 0)],
    heap := [some { cls := exampleNested, fields := [] }],
    output := "" }

/-- A class whose `__init__` has the single formal parameter `self` and the body
`self.v = self`. -/
def exampleSelfBox : Class :=
  .mk "SelfBox"
    [.mk "__init__" ["self"] (.FieldAssignment ["self"] "v" (.VariableValue ["self"]))] none

/-- A state in which `other` is an instance of `Base` at address 0. -/
def exampleOther : State :=
  { closure := [("other", .inst 0)],
    heap := [some { cls := exampleBase, fields := [] }],
    output := "" }

/-- A class whose method `put` has the single formal parameter `self` and the body
`self.f = 7`. -/
def exampleSelfPutter : Class :=
  .mk "SelfPutter" [.mk "put" ["self"] (.FieldAssignment ["self"] "f" (.Literal (.number 7)))]
    none

/-- A state in which `x` and `other` are bound to two instances of `SelfPutter`, at the
addresses 0 and 1. -/
def exampleSelfShared : State :=
  { closure := [("x", .inst 0), ("other", .inst 1)],
    heap := [some { cls := exampleSelfPutter, fields := [] },
             some { cls := exampleSelfPutter, fields := [] }],
    output := "" }

/-- The state `x.put(other)` leaves from `exampleSelfShared`: the instance at address 1 has
the field `f`. -/
def exampleSelfWritten : State :=
  { closure := [("x", .inst 0), ("other", .inst 1)],
    heap := [some { cls := exampleSelfPutter, fields := [] },
             some { cls := exampleSelfPutter, fields := [("f", .number 7)] }],
    output := "" }

/-! ## Lemmas -/

@[simp] theorem Result.bind_ok {α β : Type} (value : α) (st : State)
    (f : α → State → Result β) : (Result.ok value st).bind f = f value st := rfl

@[simp] theorem Result.bind_throw {α β : Type} (e : Exception) (st : State)
    (f : α → State → Result β) : (Result.throw e st : Result α).bind f = .throw e st := rfl

@[simp] theorem Result.bind_undefined {α β : Type} (f : α → State → Result β) :
    (Result.undefined : Result α).bind f = .undefined := rfl

@[simp] theorem Result.bind_timeout {α β : Type} (f : α → State → Result β) :
    (Result.timeout : Result α).bind f = .timeout := rfl

theorem Execute_Compound (cmp : Comparators) (fuel : Nat) (l : List Statement) (st : State) :
    Execute cmp (fuel + 1) (.Compound l) st = ExecuteStatements (Execute cmp fuel) l st := by
  rw [Execute]

theorem Execute_Comparison (cmp : Comparators) (fuel : Nat) (comparator : Nat)
    (left right : Statement) (st : State) :
    Execute cmp (fuel + 1) (.Comparison comparator left right) st =
      if cmp.rightFirst then
        (Execute cmp fuel right st).bind fun v2 st1 =>
          (Execute cmp fuel left st1).bind fun v1 st2 =>
            .ok (.bool (cmp.compare comparator v1 v2)) st2
      else
        (Execute cmp fuel left st).bind fun v1 st1 =>
          (Execute cmp fuel right st1).bind fun v2 st2 =>
            .ok (.bool (cmp.compare comparator v1 v2)) st2 := by
  rw [Execute]

theorem Execute_Return (cmp : Comparators) (fuel : Nat) (s : Statement) (st : State) :
    Execute cmp (fuel + 1) (.Return s) st = Execute cmp fuel s st := by
  rw [Execute]

theorem Execute_Literal (cmp : Comparators) (fuel : Nat) (c : Constant) (st : State) :
    Execute cmp (fuel + 1) (.Literal c) st = .ok c.toObject st := by
  rw [Execute]

theorem checkForReturn_iff (s : Statement) : s.checkForReturn = true ↔ s.propagates := by
  cases s <;> simp [Statement.checkForReturn, Statement.propagates]

theorem Get_iff (v : ObjectHolder) : v.Get = true ↔ v ≠ .None := by
  cases v <;> simp [ObjectHolder.Get]

theorem ExecuteStatements_skip (exec : Statement → State → Result ObjectHolder)
    (child : Statement) (rest : List Statement) (st st1 : State) (ret : ObjectHolder)
    (h : exec child st = .ok ret st1) (hno : ¬ (child.propagates ∧ ret ≠ .None)) :
    ExecuteStatements exec (child :: rest) st = ExecuteStatements exec rest st1 := by
  have hb : (child.checkForReturn && ret.Get) = false := by
    rw [Bool.eq_false_iff]
    intro hc
    rw [Bool.and_eq_true, checkForReturn_iff, Get_iff] at hc
    exact hno hc
  simp only [ExecuteStatements, h, Result.bind_ok, hb, Bool.false_eq_true, if_false]

theorem ExecuteStatements_stop (exec : Statement → State → Result ObjectHolder)
    (child : Statement) (rest : List Statement) (st st1 : State) (ret : ObjectHolder)
    (h : exec child st = .ok ret st1) (hk : child.propagates) (hv : ret ≠ .None) :
    ExecuteStatements exec (child :: rest) st = .ok ret st1 := by
  have hb : (child.checkForReturn && ret.Get) = true := by
    rw [Bool.and_eq_true, checkForReturn_iff, Get_iff]
    exact ⟨hk, hv⟩
  simp only [ExecuteStatements, h, Result.bind_ok, hb, if_true]

theorem ExecuteStatements_through (exec : Statement → State → Result ObjectHolder) :
    ∀ (before rest : List Statement) (st st1 : State) (rets : List ObjectHolder),
      runInOrder exec before st = some (rets, st1) → noneStops before rets →
      ExecuteStatements exec (before ++ rest) st = ExecuteStatements exec rest st1 := by
  intro before
  induction before with
  | nil =>
    intro rest st st1 rets h _
    simp [runInOrder] at h
    simp [h.2]
  | cons child more ih =>
    intro rest st st1 rets h hno
    rw [runInOrder] at h
    cases hc : exec child st with
    | ok ret sta =>
      rw [hc] at h
      cases hr : runInOrder exec more sta with
      | none => simp [hr] at h
      | some p =>
        obtain ⟨rets1, stb⟩ := p
        simp [hr] at h
        obtain ⟨h1, h2⟩ := h
        subst h1 h2
        have hhead : ¬ (child.propagates ∧ ret ≠ .None) :=
          hno (child, ret) (by simp [List.zip_cons_cons])
        have htail : noneStops more rets1 := by
          intro p hp
          exact hno p (by simp [List.zip_cons_cons, hp])
        rw [List.cons_append, ExecuteStatements_skip exec child _ st sta ret hc hhead]
        exact ih rest sta stb rets1 hr htail
    | throw e sta => simp [hc] at h
    | undefined => simp [hc] at h
    | timeout => simp [hc] at h

theorem noneStops_nil : noneStops [] [] := by
  intro p hp
  simp at hp

theorem noneStops_cons (child : Statement) (ret : ObjectHolder) (children : List Statement)
    (rets : List ObjectHolder) (h : ¬ (child.propagates ∧ ret ≠ .None))
    (ht : noneStops children rets) : noneStops (child :: children) (ret :: rets) := by
  intro p hp
  rw [List.zip_cons_cons, List.mem_cons] at hp
  rcases hp with hp | hp
  · subst hp
    exact h
  · exact ht p hp

theorem Assignment_not_propagates (x : String) (e : Statement) :
    ¬ (Statement.Assignment x e).propagates := by
  intro h
  rcases h with ⟨_, h1⟩ | ⟨_, _, _, h1⟩ | ⟨_, h1⟩ <;> cases h1

/-! ## Control flow -/

/-- Claim C1.  `Compound::Execute` runs its children in order and returns the result of the
first child that is a `Return`, `IfElse` or `Compound` and whose result is non-empty: the
state is the one right after that child, whatever statements follow it.  When no child
is both, all are executed and the empty handle is returned.  `[plain, Return 5]` and
`[Return 5, plain]` both give `5`, the second without any effect of `plain`; and an
`Assignment` never stops the compound. -/
theorem compound_execute_propagation (cmp : Comparators) (fuel : Nat) :
    (∀ (before : List Statement) (child : Statement) (after : List Statement)
        (st st1 st2 : State) (rets : List ObjectHolder) (ret : ObjectHolder),
        runInOrder (Execute cmp fuel) before st = some (rets, st1) →
        noneStops before rets →
        Execute cmp fuel child st1 = .ok ret st2 →
        child.propagates → ret ≠ .None →
        Execute cmp (fuel + 1) (.Compound (before ++ child :: after)) st = .ok ret st2) ∧
    (∀ (children : List Statement) (st st1 : State) (rets : List ObjectHolder),
        runInOrder (Execute cmp fuel) children st = some (rets, st1) →
        noneStops children rets →
        Execute cmp (fuel + 1) (.Compound children) st = .ok .None st1) ∧
    (∀ (plain : Statement) (st st1 : State) (ret : ObjectHolder),
        Execute cmp (fuel + 2) plain st = .ok ret st1 → ¬ plain.propagates →
        Execute cmp (fuel + 3) (.Compound [plain, .Return (.Literal (.number 5))]) st
          = .ok (.number 5) st1) ∧
    (∀ (plain : Statement) (st : State),
        Execute cmp (fuel + 3) (.Compound [.Return (.Literal (.number 5)), plain]) st
          = .ok (.number 5) st) ∧
    (∀ (x : String) (e : Statement) (after : List Statement) (st st1 : State)
        (ret : ObjectHolder),
        Execute cmp fuel (.Assignment x e) st = .ok ret st1 →
        Execute cmp (fuel + 1) (.Compound (.Assignment x e :: after)) st
          = Execute cmp (fuel + 1) (.Compound after) st1) := by
  refine ⟨?_, ?_, ?_, ?_, ?_⟩
  · intro before child after st st1 st2 rets ret hrun hno hchild hk hv
    rw [Execute_Compound, ExecuteStatements_through _ before _ st st1 rets hrun hno]
    exact ExecuteStatements_stop _ child after st1 st2 ret hchild hk hv
  · intro children st st1 rets hrun hno
    have h := ExecuteStatements_through (Execute cmp fuel) children [] st st1 rets hrun hno
    rw [List.append_nil] at h
    rw [Execute_Compound, h]
    rfl
  · intro plain st st1 ret hplain hk
    rw [Execute_Compound,
      ExecuteStatements_skip _ plain _ st st1 ret hplain (fun h => hk h.1)]
    exact ExecuteStatements_stop _ _ [] st1 st1 _
      (by rw [Execute_Return, Execute_Literal]; rfl) (Or.inl ⟨_, rfl⟩) (fun h => by cases h)
  · intro plain st
    rw [Execute_Compound]
    exact ExecuteStatements_stop _ _ [plain] st st _
      (by rw [Execute_Return, Execute_Literal]; rfl) (Or.inl ⟨_, rfl⟩) (fun h => by cases h)
  · intro x e after st st1 ret h
    rw [Execute_Compound, Execute_Compound]
    exact ExecuteStatements_skip _ _ after st st1 ret h
      (fun hp => Assignment_not_propagates x e hp.1)

/-- An `Assignment`, then `Return 5`, then a `Print`: the result is `5`, the variable is
bound and nothing was printed.  An `Assignment` and a `Print` alone: both are executed
and the empty handle is returned. -/
theorem compound_execute_propagation_witness :
    Execute noComparators 3
        (.Compound ([.Assignment "x" (.Literal (.number 1))] ++
          .Return (.Literal (.number 5)) :: [.Print [.Literal (.number 2)]])) State.initial
      = .ok (.number 5) { closure := [("x", .number 1)], heap := [], output := "" } ∧
    Execute noComparators 3
        (.Compound [.Assignment "x" (.Literal (.number 1)), .Print [.Literal (.number 2)]])
        State.initial
      = .ok .None { closure := [("x", .number 1)], heap := [], output := "2\n" } ∧
    Execute noComparators 3
        (.Compound [.Assignment "x" (.Literal (.number 1)), .Return (.Literal (.number 5))])
        State.initial
      = .ok (.number 5) { closure := [("x", .number 1)], heap := [], output := "" } ∧
    Execute noComparators 3
        (.Compound [.Assignment "x" (.Literal (.number 1)), .Print [.Literal (.number 2)]])
        State.initial
      = Execute noComparators 3 (.Compound [.Print [.Literal (.number 2)]])
          { closure := [("x", .number 1)], heap := [], output := "" } :=
  ⟨(compound_execute_propagation noComparators 2).1
      [.Assignment "x" (.Literal (.number 1))] (.Return (.Literal (.number 5)))
      [.Print [.Literal (.number 2)]] State.initial
      { closure := [("x", .number 1)], heap := [], output := "" }
      { closure := [("x", .number 1)], heap := [], output := "" }
      [.number 1] (.number 5) rfl
      (noneStops_cons _ _ _ _ (fun h => Assignment_not_propagates _ _ h.1) noneStops_nil)
      rfl (Or.inl ⟨_, rfl⟩) (fun h => by cases h),
   (compound_execute_propagation noComparators 2).2.1
      [.Assignment "x" (.Literal (.number 1)), .Print [.Literal (.number 2)]] State.initial
      { closure := [("x", .number 1)], heap := [], output := "2\n" }
      [.number 1, .None] rfl
      (noneStops_cons _ _ _ _ (fun h => Assignment_not_propagates _ _ h.1)
        (noneStops_cons _ _ _ _ (fun h => h.2 rfl) noneStops_nil)),
   (compound_execute_propagation noComparators 0).2.2.1
      (.Assignment "x" (.Literal (.number 1))) State.initial
      { closure := [("x", .number 1)], heap := [], output := "" } (.number 1) rfl
      (Assignment_not_propagates _ _),
   (compound_execute_propagation noComparators 2).2.2.2.2 "x" (.Literal (.number 1))
      [.Print [.Literal (.number 2)]] State.initial
      { closure := [("x", .number 1)], heap := [], output := "" } (.number 1) rfl⟩

theorem Closure.find_set_self (closure : Closure) (name : String) (value : ObjectHolder) :
    Closure.find (Closure.set closure name value) name = some value := by
  induction closure with
  | nil => simp [Closure.set, Closure.find]
  | cons p rest ih =>
    obtain ⟨key, old⟩ := p
    by_cases hk : key = name
    · simp [Closure.set, Closure.find, hk]
    · simp [Closure.set, Closure.find, hk, ih]

theorem Closure.find_set_other (closure : Closure) (name other : String) (value : ObjectHolder)
    (h : other ≠ name) :
    Closure.find (Closure.set closure name value) other = Closure.find closure other := by
  induction closure with
  | nil =>
    simp [Closure.set, Closure.find]
    exact fun h1 => h h1.symm
  | cons p rest ih =>
    obtain ⟨key, old⟩ := p
    by_cases hk : key = name
    · subst hk
      have hne : ¬ key = other := fun h1 => h h1.symm
      simp [Closure.set, Closure.find, hne]
    · simp [Closure.set, Closure.find, hk, ih]

theorem Execute_Or (cmp : Comparators) (fuel : Nat) (lhs rhs : Statement) (st : State) :
    Execute cmp (fuel + 1) (.Or lhs rhs) st =
      (Execute cmp fuel lhs st).bind fun v1 st1 =>
        if IsTrue v1 then .ok (.bool true) st1
        else (Execute cmp fuel rhs st1).bind fun v2 st2 => .ok (.bool (IsTrue v2)) st2 := by
  rw [Execute]

theorem Execute_And (cmp : Comparators) (fuel : Nat) (lhs rhs : Statement) (st : State) :
    Execute cmp (fuel + 1) (.And lhs rhs) st =
      (Execute cmp fuel lhs st).bind fun v1 st1 =>
        if IsTrue v1 then
          (Execute cmp fuel rhs st1).bind fun v2 st2 => .ok (.bool (IsTrue v2)) st2
        else .ok (.bool false) st1 := by
  rw [Execute]

theorem Execute_Assignment (cmp : Comparators) (fuel : Nat) (x : String) (e : Statement)
    (st : State) :
    Execute cmp (fuel + 1) (.Assignment x e) st =
      (Execute cmp fuel e st).bind fun value st1 =>
        .ok value { st1 with closure := Closure.set st1.closure x value } := by
  rw [Execute]

theorem Execute_Assignment_bound (cmp : Comparators) (fuel : Nat) (x : String) (e : Statement)
    (st st1 : State) (v : ObjectHolder) (h : Execute cmp fuel (.Assignment x e) st = .ok v st1) :
    Closure.find st1.closure x = some v := by
  cases fuel with
  | zero => simp [Execute] at h
  | succ k =>
    rw [Execute_Assignment] at h
    cases he : Execute cmp k e st with
    | ok value sta =>
      rw [he] at h
      simp at h
      obtain ⟨h1, h2⟩ := h
      subst h1 h2
      exact Closure.find_set_self _ _ _
    | throw e sta => simp [he] at h
    | undefined => simp [he] at h
    | timeout => simp [he] at h

/-- Claim C2, as the code has it.  `Or` and `And` execute the left operand first and the
right operand only when the left one does not decide: after a truthy left operand `Or`
returns `True` in the state the left operand left, after a falsy one `And` returns
`False` in that state, and the right operand is not executed.  Otherwise the right operand
is executed in the state the left one left, and an `Assignment` standing there binds its
name. -/
theorem or_and_execute (cmp : Comparators) (fuel : Nat) (lhs rhs : Statement)
    (st st1 : State) (v1 : ObjectHolder) (h : Execute cmp fuel lhs st = .ok v1 st1) :
    (IsTrue v1 = true → Execute cmp (fuel + 1) (.Or lhs rhs) st = .ok (.bool true) st1) ∧
    (IsTrue v1 = false → Execute cmp (fuel + 1) (.And lhs rhs) st = .ok (.bool false) st1) ∧
    (IsTrue v1 = false → ∀ (v2 : ObjectHolder) (st2 : State),
        Execute cmp fuel rhs st1 = .ok v2 st2 →
        Execute cmp (fuel + 1) (.Or lhs rhs) st = .ok (.bool (IsTrue v2)) st2) ∧
    (IsTrue v1 = true → ∀ (v2 : ObjectHolder) (st2 : State),
        Execute cmp fuel rhs st1 = .ok v2 st2 →
        Execute cmp (fuel + 1) (.And lhs rhs) st = .ok (.bool (IsTrue v2)) st2) ∧
    (∀ (c : String) (e : Statement) (v2 : ObjectHolder) (st2 : State),
        rhs = .Assignment c e → Execute cmp fuel rhs st1 = .ok v2 st2 →
        Closure.find st2.closure c = some v2) := by
  refine ⟨?_, ?_, ?_, ?_, ?_⟩
  · intro hv
    rw [Execute_Or, h, Result.bind_ok, hv]
    rfl
  · intro hv
    rw [Execute_And, h, Result.bind_ok, hv]
    rfl
  · intro hv v2 st2 h2
    rw [Execute_Or, h, Result.bind_ok, hv, h2]
    rfl
  · intro hv v2 st2 h2
    rw [Execute_And, h, Result.bind_ok, hv, h2]
    rfl
  · intro c e v2 st2 hr h2
    subst hr
    exact Execute_Assignment_bound cmp fuel c e st1 st2 v2 h2

/-- With a falsy left operand `Or` executes the assignment on its right and with a truthy
one `And` does, so that `c` is bound; with a truthy left operand `Or` stops, and with a
falsy one `And` stops. -/
theorem or_and_execute_witness :
    Execute noComparators 3
        (.Or (.Literal (.bool false)) (.Assignment "c" (.Literal (.number 1)))) State.initial
      = .ok (.bool true) { closure := [("c", .number 1)], heap := [], output := "" } ∧
    Execute noComparators 3
        (.And (.Literal (.bool true)) (.Assignment "c" (.Literal (.number 0)))) State.initial
      = .ok (.bool false) { closure := [("c", .number 0)], heap := [], output := "" } ∧
    Execute noComparators 3
        (.Or (.Literal (.number 2)) (.Print [.Literal (.number 1)])) State.initial
      = .ok (.bool true) State.initial ∧
    Execute noComparators 3
        (.And (.Literal .none) (.Print [.Literal (.number 1)])) State.initial
      = .ok (.bool false) State.initial ∧
    Closure.find
        ({ closure := [("c", .number 1)], heap := [], output := "" } : State).closure "c"
      = some (.number 1) :=
  ⟨(or_and_execute noComparators 2 (.Literal (.bool false))
      (.Assignment "c" (.Literal (.number 1))) State.initial State.initial (.bool false)
      rfl).2.2.1 rfl (.number 1)
      { closure := [("c", .number 1)], heap := [], output := "" } rfl,
   (or_and_execute noComparators 2 (.Literal (.bool true))
      (.Assignment "c" (.Literal (.number 0))) State.initial State.initial (.bool true)
      rfl).2.2.2.1 rfl (.number 0)
      { closure := [("c", .number 0)], heap := [], output := "" } rfl,
   (or_and_execute noComparators 2 (.Literal (.number 2)) (.Print [.Literal (.number 1)])
      State.initial State.initial (.number 2) rfl).1 rfl,
   (or_and_execute noComparators 2 (.Literal .none) (.Print [.Literal (.number 1)])
      State.initial State.initial .None rfl).2.1 rfl,
   (or_and_execute noComparators 2 (.Literal (.bool false))
      (.Assignment "c" (.Literal (.number 1))) State.initial State.initial (.bool false)
      rfl).2.2.2.2 "c" (.Literal (.number 1)) (.number 1)
      { closure := [("c", .number 1)], heap := [], output := "" } rfl rfl⟩

/-- Claim C2 fails as stated.  With a truthy left operand `Or` does not execute the
assignment on its right, and with a falsy one `And` does not: the scope is the initial
one, in which `c` is not bound, although the assignment alone binds `c`. -/
theorem or_and_short_circuit :
    Execute noComparators 3
        (.Or (.Literal (.bool true)) (.Assignment "c" (.Literal (.number 1)))) State.initial
      = .ok (.bool true) State.initial ∧
    Execute noComparators 3
        (.And (.Literal (.bool false)) (.Assignment "c" (.Literal (.number 1)))) State.initial
      = .ok (.bool false) State.initial ∧
    Closure.find State.initial.closure "c" = none ∧
    Execute noComparators 2 (.Assignment "c" (.Literal (.number 1))) State.initial
      = .ok (.number 1) { closure := [("c", .number 1)], heap := [], output := "" } :=
  ⟨rfl, rfl, rfl, rfl⟩

theorem Class.GetMethod_chain (name : String) :
    ∀ c : Class, c.GetMethod name = c.chain.findSome? (fun a => a.ownMethod name)
  | .mk n ms none => by
    rw [Class.GetMethod, Class.chain, List.findSome?_cons]
    simp only [Class.ownMethod, Class.methodList]
    cases methodsAt name ms <;> rfl
  | .mk n ms (some p) => by
    have ih := Class.GetMethod_chain name p
    rw [Class.GetMethod, Class.chain, List.findSome?_cons]
    simp only [Class.ownMethod, Class.methodList]
    cases methodsAt name ms with
    | some m => rfl
    | none => exact ih

theorem Class.GetMethod_own (name : String) (own : Method) :
    ∀ c : Class, c.ownMethod name = some own → c.GetMethod name = some own
  | .mk n ms p => by
    intro h
    simp only [Class.ownMethod, Class.methodList] at h
    cases p <;> rw [Class.GetMethod, h]

theorem Class.GetMethod_parent (name : String) :
    ∀ c : Class, c.ownMethod name = none →
      c.GetMethod name = match c.parent with
        | some p => p.GetMethod name
        | none => none
  | .mk n ms p => by
    intro h
    simp only [Class.ownMethod, Class.methodList] at h
    cases p <;> rw [Class.GetMethod, h] <;> rfl

theorem HasMethod_eq_true_iff (self : ClassInstance) (name : String) (k : Nat) :
    self.HasMethod name k = true ↔
      ∃ method, self.cls.GetMethod name = some method ∧ method.formal_params.length = k := by
  unfold ClassInstance.HasMethod
  cases self.cls.GetMethod name with
  | none => simp
  | some method => simp

theorem Call_of_not_HasMethod (exec : Statement → State → Result ObjectHolder) (self : Nat)
    (instance_ : ClassInstance) (name : String) (args : List ObjectHolder) (st : State)
    (h : Heap.deref st.heap self = some instance_)
    (hno : instance_.HasMethod name args.length = false) :
    ClassInstance.Call exec self name args st = .throw (.runtime_error "no such method") st := by
  simp [ClassInstance.Call, h, hno]

theorem Call_of_GetMethod (exec : Statement → State → Result ObjectHolder) (self : Nat)
    (instance_ : ClassInstance) (name : String) (args : List ObjectHolder) (st : State)
    (method : Method) (h : Heap.deref st.heap self = some instance_)
    (hm : instance_.cls.GetMethod name = some method)
    (hlen : method.formal_params.length = args.length) :
    ClassInstance.Call exec self name args st =
      Result.leave st.closure
        (exec method.body { st with closure := callClosure self method args }) := by
  have hh : instance_.HasMethod name args.length = true :=
    (HasMethod_eq_true_iff _ _ _).2 ⟨method, hm, hlen⟩
  simp [ClassInstance.Call, h, hh, hm]

theorem bindArgs_find_congr (name : String) :
    ∀ (params : List String) (args : List ObjectHolder) (c1 c2 : Closure),
      Closure.find c1 name = Closure.find c2 name →
      Closure.find (bindArgs params args c1) name = Closure.find (bindArgs params args c2) name := by
  intro params
  induction params with
  | nil =>
    intro args c1 c2 h
    simpa [bindArgs] using h
  | cons p ps ih =>
    intro args c1 c2 h
    cases args with
    | nil => simpa [bindArgs] using h
    | cons a rest =>
      simp only [bindArgs]
      apply ih
      by_cases hp : name = p
      · subst hp
        rw [Closure.find_set_self, Closure.find_set_self]
      · rw [Closure.find_set_other _ _ _ _ hp, Closure.find_set_other _ _ _ _ hp]
        exact h

/-! ## Method lookup and calls -/

/-- Claim C3 fails as stated.  `Derived` defines `m` with two parameters and its parent `Base`
defines `m` with one: an ancestor defines `m` with arity 1, yet `HasMethod("m", 1)` is
false on an instance of `Derived`. -/
theorem hasMethod_false_with_ancestor_arity :
    ClassInstance.HasMethod { cls := exampleDerived, fields := [] } "m" 1 = false ∧
    ∃ a ∈ exampleDerived.chain, a.definesWithArity "m" 1 :=
  ⟨rfl, exampleBase,
    by rw [show exampleDerived.chain = [exampleDerived, exampleBase] from rfl]; simp,
    ⟨.mk "m" ["x"] (.Return (.VariableValue ["x"])), rfl, rfl⟩⟩

/-- Claim C3, as the code has it.  `HasMethod(name, k)` is true iff the nearest class of the
chain (the class itself, else its closest ancestor) whose table holds `name` holds it with
exactly `k` formal parameters. -/
theorem hasMethod_iff_nearest_definition (self : ClassInstance) (name : String) (k : Nat) :
    self.HasMethod name k = true ↔
      ∃ (before : List Class) (a : Class) (after : List Class),
        self.cls.chain = before ++ a :: after ∧
        (∀ b ∈ before, b.ownMethod name = none) ∧ a.definesWithArity name k := by
  rw [HasMethod_eq_true_iff]
  constructor
  · rintro ⟨method, hm, hk⟩
    rw [Class.GetMethod_chain, List.findSome?_eq_some_iff] at hm
    obtain ⟨before, a, after, hc, ha, hb⟩ := hm
    exact ⟨before, a, after, hc, hb, method, ha, hk⟩
  · rintro ⟨before, a, after, hc, hb, method, ha, hk⟩
    refine ⟨method, ?_, hk⟩
    rw [Class.GetMethod_chain, List.findSome?_eq_some_iff]
    exact ⟨before, a, after, hc, ha, hb⟩

/-- Claim C4.  `Class::GetMethod` returns the method of the class's own table when there is
one, otherwise what the parent returns, and nothing iff no class of the chain defines the
name.  So when `C` does not define `m` and its parent `P` resolves `m`, `Call("m", args)`
on an instance of `C` and on an instance of `P` execute the same body, in closures that
bind every name but `self` alike, and both fail alike on an arity mismatch. -/
theorem getMethod_resolution_order (C : Class) (m : String) :
    (∀ own, C.ownMethod m = some own → C.GetMethod m = some own) ∧
    (C.ownMethod m = none → ∀ P, C.parent = some P → C.GetMethod m = P.GetMethod m) ∧
    (C.ownMethod m = none → C.parent = none → C.GetMethod m = none) ∧
    (C.GetMethod m = none ↔ ∀ a ∈ C.chain, a.ownMethod m = none) ∧
    (∀ (P : Class) (method : Method),
      C.parent = some P → C.ownMethod m = none → P.GetMethod m = some method →
      ∀ (exec : Statement → State → Result ObjectHolder) (st : State) (aC aP : Nat)
        (fC fP : Closure) (args : List ObjectHolder),
        Heap.deref st.heap aC = some { cls := C, fields := fC } →
        Heap.deref st.heap aP = some { cls := P, fields := fP } →
        (method.formal_params.length = args.length →
          ClassInstance.Call exec aC m args st =
            Result.leave st.closure
              (exec method.body { st with closure := callClosure aC method args }) ∧
          ClassInstance.Call exec aP m args st =
            Result.leave st.closure
              (exec method.body { st with closure := callClosure aP method args }) ∧
          ∀ name, name ≠ "self" →
            Closure.find (callClosure aC method args) name =
              Closure.find (callClosure aP method args) name) ∧
        (method.formal_params.length ≠ args.length →
          ClassInstance.Call exec aC m args st = .throw (.runtime_error "no such method") st ∧
          ClassInstance.Call exec aP m args st = .throw (.runtime_error "no such method") st)) := by
  refine ⟨?_, ?_, ?_, ?_, ?_⟩
  · intro own h
    exact Class.GetMethod_own m own C h
  · intro h P hP
    rw [Class.GetMethod_parent m C h, hP]
  · intro h hP
    rw [Class.GetMethod_parent m C h, hP]
  · rw [Class.GetMethod_chain, List.findSome?_eq_none_iff]
  · intro P method hP hown hres exec st aC aP fC fP args hC hPi
    have hCres : C.GetMethod m = some method := by
      rw [Class.GetMethod_parent m C hown, hP]
      exact hres
    constructor
    · intro hlen
      refine ⟨Call_of_GetMethod exec aC _ m args st method hC hCres hlen,
        Call_of_GetMethod exec aP _ m args st method hPi hres hlen, ?_⟩
      intro name hname
      unfold callClosure
      apply bindArgs_find_congr
      rw [Closure.find_set_other _ _ _ _ hname, Closure.find_set_other _ _ _ _ hname]
    · intro hlen
      constructor
      · apply Call_of_not_HasMethod exec aC _ m args st hC
        simp [ClassInstance.HasMethod, hCres, hlen]
      · apply Call_of_not_HasMethod exec aP _ m args st hPi
        simp [ClassInstance.HasMethod, hres, hlen]

/-- An instance of `Child`, which inherits `m` from `Base`, and an instance of `Base`: the
call of `m` with 7 returns 7 on both. -/
theorem getMethod_resolution_order_witness :
    ClassInstance.Call (Execute noComparators 3) 0 "m" [.number 7] exampleTwoInstances
      = .ok (.number 7) exampleTwoInstances ∧
    ClassInstance.Call (Execute noComparators 3) 1 "m" [.number 7] exampleTwoInstances
      = .ok (.number 7) exampleTwoInstances :=
  have h := ((getMethod_resolution_order exampleChild "m").2.2.2.2 exampleBase
    (.mk "m" ["x"] (.Return (.VariableValue ["x"]))) rfl rfl rfl
    (Execute noComparators 3) exampleTwoInstances 0 1 [] [] [.number 7] rfl rfl).1 rfl
  ⟨h.1, h.2.1⟩

/-- Claim C5 fails as stated.  The class `Nested` has the method `outer()`, so
`HasMethod("outer", 0)` is true; its body calls `self.missing()`, and `Call("outer", {})`
fails with "no such method": the error of the nested call leaves `Call` as it is. -/
theorem call_no_such_method_from_body :
    ClassInstance.HasMethod { cls := exampleNested, fields := [] } "outer" 0 = true ∧
    Heap.deref exampleNestedCaller.heap 0 = some { cls := exampleNested, fields := [] } ∧
    ClassInstance.Call (Execute noComparators 3) 0 "outer" [] exampleNestedCaller
      = .throw (.runtime_error "no such method") exampleNestedCaller :=
  ⟨rfl, rfl, rfl⟩

/-- Claim C5, as the code has it.  When `HasMethod(name, |args|)` is false,
`ClassInstance::Call` fails with "no such method" whatever executing a body would do, with
the state left as it was: no body is executed; and failing so for every way of executing
bodies happens exactly when `HasMethod` is false.  When `HasMethod` is true, `Call` raises no
error of its own and ends as the body of the resolved method ends: it fails with "no such
method" exactly when the execution of that body does.  A method resolved with another number
of formal parameters makes `HasMethod` false, and the call fails as the call of an undefined
name does. -/
theorem call_no_such_method (exec : Statement → State → Result ObjectHolder) (self : Nat)
    (instance_ : ClassInstance) (name : String) (args : List ObjectHolder) (st : State)
    (h : Heap.deref st.heap self = some instance_) :
    (instance_.HasMethod name args.length = false →
      ∀ other : Statement → State → Result ObjectHolder,
        ClassInstance.Call other self name args st
          = .throw (.runtime_error "no such method") st) ∧
    ((∀ other : Statement → State → Result ObjectHolder,
        ClassInstance.Call other self name args st
          = .throw (.runtime_error "no such method") st) ↔
      instance_.HasMethod name args.length = false) ∧
    (instance_.HasMethod name args.length = true →
      ∃ method, instance_.cls.GetMethod name = some method ∧
        ClassInstance.Call exec self name args st =
          Result.leave st.closure
            (exec method.body { st with closure := callClosure self method args }) ∧
        ∀ st1 : State,
          ClassInstance.Call exec self name args st
              = .throw (.runtime_error "no such method") st1 ↔
            ∃ st2 : State,
              exec method.body { st with closure := callClosure self method args }
                = .throw (.runtime_error "no such method") st2 ∧
              st1 = { st2 with closure := st.closure }) ∧
    (∀ method, instance_.cls.GetMethod name = some method →
      method.formal_params.length ≠ args.length →
      instance_.HasMethod name args.length = false ∧
      ∀ absent, instance_.cls.GetMethod absent = none →
        ClassInstance.Call exec self name args st = ClassInstance.Call exec self absent args st ∧
        ClassInstance.Call exec self absent args st
          = .throw (.runtime_error "no such method") st) := by
  refine ⟨?_, ?_, ?_, ?_⟩
  · intro hno other
    exact Call_of_not_HasMethod other self instance_ name args st h hno
  · constructor
    · intro hall
      cases hh : instance_.HasMethod name args.length with
      | false => rfl
      | true =>
        obtain ⟨method, hm, hlen⟩ := (HasMethod_eq_true_iff _ _ _).1 hh
        have hcall := hall (fun _ _ => .undefined)
        rw [Call_of_GetMethod _ self instance_ name args st method h hm hlen] at hcall
        cases hcall
    · intro hno other
      exact Call_of_not_HasMethod other self instance_ name args st h hno
  · intro hyes
    obtain ⟨method, hm, hlen⟩ := (HasMethod_eq_true_iff _ _ _).1 hyes
    have hcall := Call_of_GetMethod exec self instance_ name args st method h hm hlen
    refine ⟨method, hm, hcall, ?_⟩
    intro st1
    rw [hcall]
    cases hb : exec method.body { st with closure := callClosure self method args } with
    | ok value s => simp [Result.leave]
    | throw e s =>
      simp only [Result.leave, Result.throw.injEq]
      constructor
      · rintro ⟨he, hs⟩
        exact ⟨s, ⟨he, rfl⟩, hs.symm⟩
      · rintro ⟨st2, ⟨he, hs⟩, h1⟩
        subst hs
        exact ⟨he, h1.symm⟩
    | undefined => simp [Result.leave]
    | timeout => simp [Result.leave]
  · intro method hm hlen
    have hno : instance_.HasMethod name args.length = false := by
      simp [ClassInstance.HasMethod, hm, hlen]
    refine ⟨hno, ?_⟩
    intro absent habs
    have hno2 : instance_.HasMethod absent args.length = false := by
      simp [ClassInstance.HasMethod, habs]
    rw [Call_of_not_HasMethod exec self instance_ name args st h hno,
      Call_of_not_HasMethod exec self instance_ absent args st h hno2]
    exact ⟨rfl, rfl⟩

/-- The method `m` of `Base` has one parameter: called with two arguments, and called by
an undefined name, it fails with "no such method" and the state is untouched; called with
one argument it returns what its body returns.  The method `outer` of `Nested` fails with
"no such method" because its body does. -/
theorem call_no_such_method_witness :
    ClassInstance.Call (Execute noComparators 3) 1 "m" [.number 7, .number 8]
        exampleTwoInstances
      = .throw (.runtime_error "no such method") exampleTwoInstances ∧
    ClassInstance.Call (Execute noComparators 3) 1 "m" [.number 7, .number 8]
        exampleTwoInstances
      = ClassInstance.Call (Execute noComparators 3) 1 "absent" [.number 7, .number 8]
        exampleTwoInstances ∧
    ClassInstance.Call (Execute noComparators 3) 1 "m" [.number 7] exampleTwoInstances
      = .ok (.number 7) exampleTwoInstances ∧
    ∃ st2 : State,
      Execute noComparators 3 (.MethodCall (.VariableValue ["self"]) "missing" [])
          { exampleNestedCaller with closure := [("self", .inst 0)] }
        = .throw (.runtime_error "no such method") st2 ∧
      exampleNestedCaller = { st2 with closure := exampleNestedCaller.closure } :=
  ⟨(call_no_such_method (Execute noComparators 3) 1 { cls := exampleBase, fields := [] } "m"
      [.number 7, .number 8] exampleTwoInstances rfl).1 rfl (Execute noComparators 3),
   (((call_no_such_method (Execute noComparators 3) 1 { cls := exampleBase, fields := [] } "m"
      [.number 7, .number 8] exampleTwoInstances rfl).2.2.2
      (.mk "m" ["x"] (.Return (.VariableValue ["x"]))) rfl (by decide)).2 "absent" rfl).1,
   Exists.elim
     ((call_no_such_method (Execute noComparators 3) 1 { cls := exampleBase, fields := [] } "m"
      [.number 7] exampleTwoInstances rfl).2.2.1 rfl)
     (fun method hm => by
       obtain ⟨h1, h2, _⟩ := hm
       have hmeth : method = .mk "m" ["x"] (.Return (.VariableValue ["x"])) :=
         (Option.some.inj h1).symm
       subst hmeth
       exact h2),
   Exists.elim
     ((call_no_such_method (Execute noComparators 3) 0 { cls := exampleNested, fields := [] }
      "outer" [] exampleNestedCaller rfl).2.2.1 rfl)
     (fun method hm => by
       obtain ⟨h1, _, h3⟩ := hm
       have hmeth : method
           = .mk "outer" [] (.MethodCall (.VariableValue ["self"]) "missing" []) :=
         (Option.some.inj h1).symm
       subst hmeth
       exact (h3 exampleNestedCaller).1 rfl)⟩

theorem bindArgs_find_of_not_mem (name : String) :
    ∀ (params : List String) (args : List ObjectHolder) (c : Closure),
      name ∉ params → Closure.find (bindArgs params args c) name = Closure.find c name := by
  intro params
  induction params with
  | nil =>
    intro args c _
    simp [bindArgs]
  | cons p ps ih =>
    intro args c h
    cases args with
    | nil => simp [bindArgs]
    | cons a rest =>
      simp only [bindArgs]
      rw [ih rest _ (fun hm => h (List.mem_cons_of_mem _ hm))]
      exact Closure.find_set_other _ _ _ _ (fun he => h (he ▸ List.mem_cons_self _ _))

theorem bindArgs_find_param :
    ∀ (params : List String) (args : List ObjectHolder) (c : Closure) (i : Nat) (p : String)
      (a : ObjectHolder), params.Nodup → params[i]? = some p → args[i]? = some a →
      Closure.find (bindArgs params args c) p = some a := by
  intro params
  induction params with
  | nil =>
    intro args c i p a _ hp
    simp at hp
  | cons q ps ih =>
    intro args c i p a hnd hp ha
    cases args with
    | nil => simp at ha
    | cons b rest =>
      simp only [bindArgs]
      rw [List.nodup_cons] at hnd
      cases i with
      | zero =>
        simp at hp ha
        subst hp ha
        rw [bindArgs_find_of_not_mem _ ps rest _ hnd.1]
        exact Closure.find_set_self _ _ _
      | succ j =>
        simp at hp ha
        exact ih rest _ j p a hnd.2 hp ha

theorem State.closure_restore (st : State) (c : Closure) :
    ({ ({ st with closure := c } : State) with closure := st.closure } : State) = st := by
  cases st
  rfl

theorem Execute_VariableValue (cmp : Comparators) (fuel : Nat) (ids : List String)
    (st : State) :
    Execute cmp (fuel + 1) (.VariableValue ids) st = VariableValueExecute ids st := by
  rw [Execute]

theorem Execute_MethodCall (cmp : Comparators) (fuel : Nat) (object : Statement)
    (method : String) (args : List Statement) (st : State) :
    Execute cmp (fuel + 1) (.MethodCall object method args) st =
      (Execute cmp fuel object st).bind fun obj st1 =>
        match obj with
        | .inst addr =>
          (ExecuteArgs (Execute cmp fuel) args st1).bind fun actual_args st2 =>
            if st2.holds addr then
              ClassInstance.Call (Execute cmp fuel) addr method actual_args st2
            else .undefined
        | _ => .throw (.runtime_error "not class instance") st1 := by
  rw [Execute]

theorem Result.leave_ok_closure {α : Type} (caller : Closure) (r : Result α) (v : α)
    (st : State) (h : Result.leave caller r = .ok v st) : st.closure = caller := by
  cases r with
  | ok value s =>
    simp [Result.leave] at h
    rw [← h.2]
  | throw e s => simp [Result.leave] at h
  | undefined => simp [Result.leave] at h
  | timeout => simp [Result.leave] at h

theorem Call_ok_closure (exec : Statement → State → Result ObjectHolder) (self : Nat)
    (name : String) (args : List ObjectHolder) (st st1 : State) (v : ObjectHolder)
    (h : ClassInstance.Call exec self name args st = .ok v st1) :
    st1.closure = st.closure := by
  unfold ClassInstance.Call at h
  cases hd : Heap.deref st.heap self with
  | none => simp [hd] at h
  | some instance_ =>
    simp only [hd] at h
    cases hh : instance_.HasMethod name args.length with
    | false => simp [hh] at h
    | true =>
      simp only [hh, if_true] at h
      cases hm : instance_.cls.GetMethod name with
      | none => simp [hm] at h
      | some method =>
        simp only [hm] at h
        exact Result.leave_ok_closure _ _ _ _ h

/-- Claim C6.  For a resolved method with distinct formal parameters, none called `self`,
and as many arguments, `Call` executes the body in a closure that binds `self` to the
instance, each parameter to the argument of the same position and nothing else, and returns
what the body returns.  A body reading a name that is neither `self` nor a parameter
fails with "unknown variable", whatever the caller's scope binds.  When
`MethodCall::Execute` returns, the caller's scope is the one the evaluation of the object
and the arguments left: nothing the body assigned is in it. -/
theorem call_fresh_flat_scope (cmp : Comparators) (fuel : Nat) :
    (∀ (exec : Statement → State → Result ObjectHolder) (self : Nat)
        (instance_ : ClassInstance) (m : String) (method : Method) (args : List ObjectHolder)
        (st : State),
        Heap.deref st.heap self = some instance_ →
        instance_.cls.GetMethod m = some method →
        method.formal_params.Nodup → "self" ∉ method.formal_params →
        method.formal_params.length = args.length →
        ClassInstance.Call exec self m args st =
          Result.leave st.closure
            (exec method.body { st with closure := callClosure self method args }) ∧
        Closure.find (callClosure self method args) "self" = some (.inst self) ∧
        (∀ (i : Nat) (p : String) (a : ObjectHolder),
          method.formal_params[i]? = some p → args[i]? = some a →
          Closure.find (callClosure self method args) p = some a) ∧
        (∀ name, name ≠ "self" → name ∉ method.formal_params →
          Closure.find (callClosure self method args) name = none)) ∧
    (∀ (self : Nat) (instance_ : ClassInstance) (m : String) (method : Method)
        (args : List ObjectHolder) (st : State) (x : String) (rest : List String),
        Heap.deref st.heap self = some instance_ →
        instance_.cls.GetMethod m = some method →
        method.formal_params.length = args.length →
        method.body = .VariableValue (x :: rest) →
        x ≠ "self" → x ∉ method.formal_params →
        ClassInstance.Call (Execute cmp (fuel + 1)) self m args st
          = .throw (.runtime_error ("unknown variable " ++ x)) st) ∧
    (∀ (object : Statement) (m : String) (args : List Statement) (st st1 : State)
        (v : ObjectHolder),
        Execute cmp (fuel + 1) (.MethodCall object m args) st = .ok v st1 →
        ∃ (addr : Nat) (sta stb : State) (actual_args : List ObjectHolder),
          Execute cmp fuel object st = .ok (.inst addr) sta ∧
          ExecuteArgs (Execute cmp fuel) args sta = .ok actual_args stb ∧
          ClassInstance.Call (Execute cmp fuel) addr m actual_args stb = .ok v st1 ∧
          st1.closure = stb.closure) := by
  refine ⟨?_, ?_, ?_⟩
  · intro exec self instance_ m method args st hd hm hnd hself hlen
    refine ⟨Call_of_GetMethod exec self instance_ m args st method hd hm hlen, ?_, ?_, ?_⟩
    · unfold callClosure
      rw [bindArgs_find_of_not_mem _ _ _ _ hself]
      exact Closure.find_set_self _ _ _
    · intro i p a hp ha
      exact bindArgs_find_param _ _ _ i p a hnd hp ha
    · intro name hname hnot
      unfold callClosure
      rw [bindArgs_find_of_not_mem _ _ _ _ hnot, Closure.find_set_other _ _ _ _ hname]
      rfl
  · intro self instance_ m method args st x rest hd hm hlen hbody hx hnot
    rw [Call_of_GetMethod _ self instance_ m args st method hd hm hlen, hbody,
      Execute_VariableValue]
    have hfind : Closure.find (callClosure self method args) x = none := by
      unfold callClosure
      rw [bindArgs_find_of_not_mem _ _ _ _ hnot, Closure.find_set_other _ _ _ _ hx]
      rfl
    simp only [VariableValueExecute, hfind, Result.leave, State.closure_restore]
  · intro object m args st st1 v h
    rw [Execute_MethodCall] at h
    cases ho : Execute cmp fuel object st with
    | ok obj sta =>
      rw [ho, Result.bind_ok] at h
      cases obj with
      | inst addr =>
        simp only at h
        cases ha : ExecuteArgs (Execute cmp fuel) args sta with
        | ok actual_args stb =>
          rw [ha, Result.bind_ok] at h
          cases hh : stb.holds addr with
          | true =>
            simp only [hh, if_true] at h
            exact ⟨addr, sta, stb, actual_args, rfl, ha, h, Call_ok_closure _ _ _ _ _ _ _ h⟩
          | false => simp [hh] at h
        | throw e s => simp [ha] at h
        | undefined => simp [ha] at h
        | timeout => simp [ha] at h
      | None => simp at h
      | string s => simp at h
      | number n => simp at h
      | bool b => simp at h
      | cls c => simp at h
    | throw e s => simp [ho] at h
    | undefined => simp [ho] at h
    | timeout => simp [ho] at h

/-- On an instance of `Scoped`: `peek()` cannot read the caller's `x`; `assign(5)` binds
`p` to 5 in its closure; and after `obj.assign(5)` the caller's scope holds `x` and `obj`
only, not the `y` the body assigned. -/
theorem call_fresh_flat_scope_witness :
    ClassInstance.Call (Execute noComparators 1) 0 "peek" [] exampleCaller
      = .throw (.runtime_error "unknown variable x") exampleCaller ∧
    Closure.find (callClosure 0
        (.mk "assign" ["p"]
          (.Compound [.Assignment "y" (.VariableValue ["p"]), .Return (.VariableValue ["y"])]))
        [.number 5]) "p" = some (.number 5) ∧
    ∃ (addr : Nat) (sta stb : State) (actual_args : List ObjectHolder),
      Execute noComparators 4 (.VariableValue ["obj"]) exampleCaller = .ok (.inst addr) sta ∧
      ExecuteArgs (Execute noComparators 4) [.Literal (.number 5)] sta
        = .ok actual_args stb ∧
      ClassInstance.Call (Execute noComparators 4) addr "assign" actual_args stb
        = .ok (.number 5) exampleCaller ∧
      exampleCaller.closure = stb.closure :=
  ⟨(call_fresh_flat_scope noComparators 0).2.1 0 { cls := exampleScoped, fields := [] } "peek"
      (.mk "peek" [] (.VariableValue ["x"])) [] exampleCaller "x" [] rfl rfl rfl rfl
      (by decide) (by simp [Method.formal_params]),
   ((call_fresh_flat_scope noComparators 0).1 (Execute noComparators 4) 0
      { cls := exampleScoped, fields := [] } "assign"
      (.mk "assign" ["p"]
        (.Compound [.Assignment "y" (.VariableValue ["p"]), .Return (.VariableValue ["y"])]))
      [.number 5] exampleCaller rfl rfl (by simp [Method.formal_params])
      (by simp [Method.formal_params]) rfl).2.2.1 0 "p" (.number 5) rfl rfl,
   (call_fresh_flat_scope noComparators 4).2.2 (.VariableValue ["obj"]) "assign"
      [.Literal (.number 5)] exampleCaller exampleCaller (.number 5) rfl⟩

theorem wrapInt_of_representable (x : Int) (h : representable x) : wrapInt x = x := by
  unfold representable at h
  unfold wrapInt
  omega

theorem sign_mul_sign_mul_div (m n : Nat) :
    Int.sign (m : Int) * Int.sign (n : Int) * ((m / n : Nat) : Int) = ((m / n : Nat) : Int) := by
  cases m with
  | zero => simp
  | succ k =>
    cases n with
    | zero => simp
    | succ j =>
      rw [show Int.sign ((k + 1 : Nat) : Int) = 1 from rfl,
        show Int.sign ((j + 1 : Nat) : Int) = 1 from rfl]
      simp

theorem tdiv_eq_truncQuot (a b : Int) : Int.tdiv a b = truncQuot a b := by
  unfold truncQuot
  have key : ∀ m n : Nat, Int.tdiv (m : Int) (n : Int) = ((m / n : Nat) : Int) :=
    fun m n => (Int.ofNat_tdiv m n).symm
  obtain ⟨m, rfl | rfl⟩ := Int.eq_nat_or_neg a <;>
  obtain ⟨n, rfl | rfl⟩ := Int.eq_nat_or_neg b <;>
  simp only [Int.neg_tdiv, Int.tdiv_neg, Int.sign_neg, Int.natAbs_neg, Int.natAbs_ofNat, key] <;>
  first
    | linear_combination sign_mul_sign_mul_div m n
    | linear_combination -sign_mul_sign_mul_div m n

theorem tdiv_eq_fdiv_add_one (a b : Int) (hs : (a < 0 ∧ 0 < b) ∨ (0 < a ∧ b < 0))
    (hd : ¬ b ∣ a) : Int.tdiv a b = Int.fdiv a b + 1 := by
  rcases hs with ⟨ha, hb⟩ | ⟨ha, hb⟩
  · obtain ⟨m, rfl⟩ := Int.eq_negSucc_of_lt_zero ha
    obtain ⟨n, rfl⟩ := Int.eq_succ_of_zero_lt hb
    have hnd : ¬ (n + 1) ∣ (m + 1) := by
      intro h
      apply hd
      rw [Int.negSucc_eq]
      exact (Int.dvd_neg).2 (by exact_mod_cast h)
    show -((((m + 1) / (n + 1) : Nat) : Int)) = Int.negSucc (m / (n + 1)) + 1
    rw [Nat.succ_div, if_neg hnd, Int.negSucc_eq]
    omega
  · obtain ⟨m, rfl⟩ := Int.eq_succ_of_zero_lt ha
    obtain ⟨n, rfl⟩ := Int.eq_negSucc_of_lt_zero hb
    have hnd : ¬ (n + 1) ∣ (m + 1) := by
      intro h
      apply hd
      rw [Int.negSucc_eq]
      exact (Int.neg_dvd).2 (by exact_mod_cast h)
    show -((((m + 1) / (n + 1) : Nat) : Int)) = Int.negSucc (m / (n + 1)) + 1
    rw [Nat.succ_div, if_neg hnd, Int.negSucc_eq]
    omega

theorem representable_tdiv (a b : Int) (ha : representable a) (hb0 : b ≠ 0)
    (hov : ¬ (a = -2147483648 ∧ b = -1)) : representable (Int.tdiv a b) := by
  unfold representable at *
  have hq : (Int.tdiv a b).natAbs = a.natAbs / b.natAbs := Int.natAbs_tdiv a b
  by_cases h1 : b = 1
  · subst h1
    rw [Int.tdiv_one]
    exact ha
  by_cases h2 : b = -1
  · subst h2
    have : Int.tdiv a (-1) = -a := by
      rw [Int.tdiv_neg, Int.tdiv_one]
    rw [this]
    omega
  · have hb2 : 2 ≤ b.natAbs := by omega
    have hle : a.natAbs / b.natAbs ≤ a.natAbs / 2 := Nat.div_le_div_left hb2 (by decide)
    omega
theorem Execute_Add (cmp : Comparators) (fuel : Nat) (lhs rhs : Statement) (st : State) :
    Execute cmp (fuel + 1) (.Add lhs rhs) st =
      (Execute cmp fuel lhs st).bind fun obj1 st1 =>
        (Execute cmp fuel rhs st1).bind fun obj2 st2 =>
          match obj1, obj2 with
          | .string v1, .string v2 => .ok (.string (v1 ++ v2)) st2
          | .number v1, .number v2 => .ok (.number (wrapInt (v1 + v2))) st2
          | _, _ => dispatchOperator (Execute cmp fuel) "__add__" "wrong types" obj1 obj2 st2 := by
  rw [Execute]

theorem Execute_Sub (cmp : Comparators) (fuel : Nat) (lhs rhs : Statement) (st : State) :
    Execute cmp (fuel + 1) (.Sub lhs rhs) st =
      (Execute cmp fuel lhs st).bind fun obj1 st1 =>
        (Execute cmp fuel rhs st1).bind fun obj2 st2 =>
          match obj1, obj2 with
          | .number v1, .number v2 => .ok (.number (wrapInt (v1 - v2))) st2
          | _, _ => dispatchOperator (Execute cmp fuel) "__sub__" "rwong types" obj1 obj2 st2 := by
  rw [Execute]

theorem Execute_Mult (cmp : Comparators) (fuel : Nat) (lhs rhs : Statement) (st : State) :
    Execute cmp (fuel + 1) (.Mult lhs rhs) st =
      (Execute cmp fuel lhs st).bind fun obj1 st1 =>
        (Execute cmp fuel rhs st1).bind fun obj2 st2 =>
          match obj1, obj2 with
          | .number v1, .number v2 => .ok (.number (wrapInt (v1 * v2))) st2
          | _, _ => dispatchOperator (Execute cmp fuel) "__mult__" "rwong types" obj1 obj2 st2 := by
  rw [Execute]

theorem Execute_Div (cmp : Comparators) (fuel : Nat) (lhs rhs : Statement) (st : State) :
    Execute cmp (fuel + 1) (.Div lhs rhs) st =
      (Execute cmp fuel lhs st).bind fun obj1 st1 =>
        (Execute cmp fuel rhs st1).bind fun obj2 st2 =>
          match obj1, obj2 with
          | .number v1, .number v2 =>
            if v2 = 0 then .throw (.invalid_argument "division by zero") st2
            else if representable (Int.tdiv v1 v2) then .ok (.number (Int.tdiv v1 v2)) st2
            else .undefined
          | _, _ => dispatchOperator (Execute cmp fuel) "__div__" "rwong types" obj1 obj2 st2 := by
  rw [Execute]

/-! ## Arithmetic -/

/-- Claim C7.  On operands evaluating to the numbers `a` and `b`, `Add`, `Sub` and `Mult`
give the number `a + b`, `a - b`, `a * b` whenever that is a 32-bit signed value; on
operands evaluating to the strings `s` and `t`, `Add` gives the string `s ++ t`, while
`Sub`, `Mult` and `Div` have no string rule and throw.  `Add("a", "b")` is `"ab"` and
`Add(2, 3)` is `5`. -/
theorem add_sub_mult_execute (cmp : Comparators) (fuel : Nat) (lhs rhs : Statement)
    (st st1 st2 : State) :
    (∀ a b : Int, Execute cmp fuel lhs st = .ok (.number a) st1 →
      Execute cmp fuel rhs st1 = .ok (.number b) st2 →
      (representable (a + b) →
        Execute cmp (fuel + 1) (.Add lhs rhs) st = .ok (.number (a + b)) st2) ∧
      (representable (a - b) →
        Execute cmp (fuel + 1) (.Sub lhs rhs) st = .ok (.number (a - b)) st2) ∧
      (representable (a * b) →
        Execute cmp (fuel + 1) (.Mult lhs rhs) st = .ok (.number (a * b)) st2)) ∧
    (∀ s t : String, Execute cmp fuel lhs st = .ok (.string s) st1 →
      Execute cmp fuel rhs st1 = .ok (.string t) st2 →
      Execute cmp (fuel + 1) (.Add lhs rhs) st = .ok (.string (s ++ t)) st2 ∧
      Execute cmp (fuel + 1) (.Sub lhs rhs) st = .throw (.runtime_error "rwong types") st2 ∧
      Execute cmp (fuel + 1) (.Mult lhs rhs) st = .throw (.runtime_error "rwong types") st2 ∧
      Execute cmp (fuel + 1) (.Div lhs rhs) st = .throw (.runtime_error "rwong types") st2) ∧
    Execute cmp (fuel + 2) (.Add (.Literal (.string "a")) (.Literal (.string "b"))) st
      = .ok (.string "ab") st ∧
    Execute cmp (fuel + 2) (.Add (.Literal (.number 2)) (.Literal (.number 3))) st
      = .ok (.number 5) st := by
  refine ⟨?_, ?_, ?_, ?_⟩
  · intro a b h1 h2
    refine ⟨?_, ?_, ?_⟩
    · intro hr
      rw [Execute_Add, h1, Result.bind_ok, h2, Result.bind_ok]
      simp only [wrapInt_of_representable _ hr]
    · intro hr
      rw [Execute_Sub, h1, Result.bind_ok, h2, Result.bind_ok]
      simp only [wrapInt_of_representable _ hr]
    · intro hr
      rw [Execute_Mult, h1, Result.bind_ok, h2, Result.bind_ok]
      simp only [wrapInt_of_representable _ hr]
  · intro s t h1 h2
    refine ⟨?_, ?_, ?_, ?_⟩
    · rw [Execute_Add, h1, Result.bind_ok, h2, Result.bind_ok]
    · rw [Execute_Sub, h1, Result.bind_ok, h2, Result.bind_ok]
      rfl
    · rw [Execute_Mult, h1, Result.bind_ok, h2, Result.bind_ok]
      rfl
    · rw [Execute_Div, h1, Result.bind_ok, h2, Result.bind_ok]
      rfl
  · rw [Execute_Add, Execute_Literal, Result.bind_ok, Execute_Literal, Result.bind_ok]
    rfl
  · rw [Execute_Add, Execute_Literal, Result.bind_ok, Execute_Literal, Result.bind_ok]
    rfl

/-- The literals 6 and 7: `Mult` gives 42; the literals `"x"` and `"y"`: `Add` gives
`"xy"` and `Sub` throws. -/
theorem add_sub_mult_execute_witness :
    Execute noComparators 2 (.Mult (.Literal (.number 6)) (.Literal (.number 7))) State.initial
      = .ok (.number 42) State.initial ∧
    Execute noComparators 2 (.Add (.Literal (.string "x")) (.Literal (.string "y")))
        State.initial
      = .ok (.string "xy") State.initial ∧
    Execute noComparators 2 (.Sub (.Literal (.string "x")) (.Literal (.string "y")))
        State.initial
      = .throw (.runtime_error "rwong types") State.initial :=
  ⟨((add_sub_mult_execute noComparators 1 (.Literal (.number 6)) (.Literal (.number 7))
      State.initial State.initial State.initial).1 6 7 rfl rfl).2.2 (by decide),
   ((add_sub_mult_execute noComparators 1 (.Literal (.string "x")) (.Literal (.string "y"))
      State.initial State.initial State.initial).2.1 "x" "y" rfl rfl).1,
   ((add_sub_mult_execute noComparators 1 (.Literal (.string "x")) (.Literal (.string "y"))
      State.initial State.initial State.initial).2.1 "x" "y" rfl rfl).2.1⟩

/-- Claim C8.  On operands evaluating to a 32-bit number `a` and a number `b ≠ 0`, the case
`a = INT_MIN`, `b = -1` apart, `Div` gives the quotient truncated toward zero; with operands
of opposite signs and `b` not dividing `a` that is not the floor quotient (it is one
more).  `Div(7, 2) = 3`, `Div(-7, 2) = -3` and `Div(7, -2) = -3`. -/
theorem div_truncates_toward_zero (cmp : Comparators) (fuel : Nat) (lhs rhs : Statement)
    (st st1 st2 : State) (a b : Int)
    (h1 : Execute cmp fuel lhs st = .ok (.number a) st1)
    (h2 : Execute cmp fuel rhs st1 = .ok (.number b) st2)
    (ha : representable a) (hb0 : b ≠ 0)
    (hov : ¬ (a = -2147483648 ∧ b = -1)) :
    Execute cmp (fuel + 1) (.Div lhs rhs) st = .ok (.number (truncQuot a b)) st2 ∧
    (((a < 0 ∧ 0 < b) ∨ (0 < a ∧ b < 0)) → ¬ b ∣ a →
      truncQuot a b ≠ Int.fdiv a b ∧ truncQuot a b = Int.fdiv a b + 1) ∧
    Execute cmp (fuel + 2) (.Div (.Literal (.number 7)) (.Literal (.number 2))) st
      = .ok (.number 3) st ∧
    Execute cmp (fuel + 2) (.Div (.Literal (.number (-7))) (.Literal (.number 2))) st
      = .ok (.number (-3)) st ∧
    Execute cmp (fuel + 2) (.Div (.Literal (.number 7)) (.Literal (.number (-2)))) st
      = .ok (.number (-3)) st := by
  refine ⟨?_, ?_, ?_, ?_, ?_⟩
  · rw [Execute_Div, h1, Result.bind_ok, h2, Result.bind_ok]
    simp only [hb0, if_false]
    rw [if_pos (representable_tdiv a b ha hb0 hov), tdiv_eq_truncQuot]
  · intro hs hd
    have h := tdiv_eq_fdiv_add_one a b hs hd
    rw [tdiv_eq_truncQuot] at h
    exact ⟨by omega, h⟩
  · rw [Execute_Div, Execute_Literal, Result.bind_ok, Execute_Literal, Result.bind_ok]
    rfl
  · rw [Execute_Div, Execute_Literal, Result.bind_ok, Execute_Literal, Result.bind_ok]
    rfl
  · rw [Execute_Div, Execute_Literal, Result.bind_ok, Execute_Literal, Result.bind_ok]
    rfl

/-- The literals -9 and 4: `Div` gives -2, which is not the floor quotient -3. -/
theorem div_truncates_toward_zero_witness :
    Execute noComparators 2 (.Div (.Literal (.number (-9))) (.Literal (.number 4)))
        State.initial
      = .ok (.number (truncQuot (-9) 4)) State.initial ∧
    truncQuot (-9) 4 = -2 ∧ Int.fdiv (-9) 4 = -3 ∧ truncQuot (-9) 4 ≠ Int.fdiv (-9) 4 :=
  have h := div_truncates_toward_zero noComparators 1 (.Literal (.number (-9)))
    (.Literal (.number 4)) State.initial State.initial State.initial (-9) 4 rfl rfl
    (by decide) (by decide) (by decide)
  ⟨h.1, by decide, by decide, (h.2.1 (Or.inl (by decide)) (by decide)).1⟩

/-- Claim C9.  On operands evaluating to a number and to the number 0, `Div` throws
`invalid_argument("division by zero")`, in the state reached after both operands were
executed; that is not the `runtime_error` thrown for operands without a rule (such as two
strings).  With a right operand evaluating to a number `b` other than 0 nothing is thrown:
`Div` returns the quotient when that is an `int`, and has no defined result when it is not
(`INT_MIN / -1`).  So an exception out of `Div` on two numbers is the division-by-zero error
and means that the right operand is 0. -/
theorem div_by_zero (cmp : Comparators) (fuel : Nat) (lhs rhs : Statement)
    (st st1 st2 : State) (a : Int)
    (h1 : Execute cmp fuel lhs st = .ok (.number a) st1)
    (h2 : Execute cmp fuel rhs st1 = .ok (.number 0) st2) :
    Execute cmp (fuel + 1) (.Div lhs rhs) st
      = .throw (.invalid_argument "division by zero") st2 ∧
    (∀ what : String, Exception.invalid_argument "division by zero" ≠ .runtime_error what) ∧
    (∀ (l r : Statement) (sa sb sc : State) (s t : String),
      Execute cmp fuel l sa = .ok (.string s) sb → Execute cmp fuel r sb = .ok (.string t) sc →
      Execute cmp (fuel + 1) (.Div l r) sa = .throw (.runtime_error "rwong types") sc) ∧
    (∀ (r : Statement) (sc : State) (b : Int),
      Execute cmp fuel r st1 = .ok (.number b) sc →
      (b ≠ 0 → representable (Int.tdiv a b) →
        Execute cmp (fuel + 1) (.Div lhs r) st = .ok (.number (Int.tdiv a b)) sc) ∧
      (b ≠ 0 → ¬ representable (Int.tdiv a b) →
        Execute cmp (fuel + 1) (.Div lhs r) st = .undefined) ∧
      (∀ (e : Exception) (sd : State),
        Execute cmp (fuel + 1) (.Div lhs r) st = .throw e sd →
        b = 0 ∧ e = .invalid_argument "division by zero" ∧ sd = sc)) ∧
    Execute cmp (fuel + 2) (.Div (.Literal (.number (-2147483648))) (.Literal (.number (-1)))) st
      = .undefined := by
  refine ⟨?_, ?_, ?_, ?_, ?_⟩
  · rw [Execute_Div, h1, Result.bind_ok, h2, Result.bind_ok]
    rfl
  · intro what h
    cases h
  · intro l r sa sb sc s t hl hr
    rw [Execute_Div, hl, Result.bind_ok, hr, Result.bind_ok]
    rfl
  · intro r sc b hr
    have hdiv : Execute cmp (fuel + 1) (.Div lhs r) st =
        if b = 0 then .throw (.invalid_argument "division by zero") sc
        else if representable (Int.tdiv a b) then .ok (.number (Int.tdiv a b)) sc
        else .undefined := by
      rw [Execute_Div, h1, Result.bind_ok, hr, Result.bind_ok]
    refine ⟨?_, ?_, ?_⟩
    · intro hb hq
      rw [hdiv, if_neg hb, if_pos hq]
    · intro hb hq
      rw [hdiv, if_neg hb, if_neg hq]
    · intro e sd hthrow
      by_cases hb : b = 0
      · rw [hdiv, if_pos hb] at hthrow
        cases hthrow
        exact ⟨hb, rfl, rfl⟩
      · rw [hdiv, if_neg hb] at hthrow
        by_cases hq : representable (Int.tdiv a b)
        · rw [if_pos hq] at hthrow
          cases hthrow
        · rw [if_neg hq] at hthrow
          cases hthrow
  · rw [Execute_Div, Execute_Literal, Result.bind_ok, Execute_Literal, Result.bind_ok]
    rfl

/-- The literals 1 and 0: `Div` throws the division-by-zero error; two string literals:
it throws the type error; the literals 1 and 2: it returns 0 and throws nothing; the
literals `INT_MIN` and -1: no defined result, and no exception. -/
theorem div_by_zero_witness :
    Execute noComparators 2 (.Div (.Literal (.number 1)) (.Literal (.number 0))) State.initial
      = .throw (.invalid_argument "division by zero") State.initial ∧
    Execute noComparators 2 (.Div (.Literal (.string "a")) (.Literal (.string "b")))
        State.initial
      = .throw (.runtime_error "rwong types") State.initial ∧
    Execute noComparators 2 (.Div (.Literal (.number 1)) (.Literal (.number 2))) State.initial
      = .ok (.number 0) State.initial ∧
    Execute noComparators 2 (.Div (.Literal (.number (-2147483648))) (.Literal (.number (-1))))
        State.initial
      = .undefined :=
  ⟨(div_by_zero noComparators 1 (.Literal (.number 1)) (.Literal (.number 0))
      State.initial State.initial State.initial 1 rfl rfl).1,
   (div_by_zero noComparators 1 (.Literal (.number 1)) (.Literal (.number 0))
      State.initial State.initial State.initial 1 rfl rfl).2.2.1
      (.Literal (.string "a")) (.Literal (.string "b")) State.initial State.initial
      State.initial "a" "b" rfl rfl,
   ((div_by_zero noComparators 1 (.Literal (.number 1)) (.Literal (.number 0))
      State.initial State.initial State.initial 1 rfl rfl).2.2.2.1
      (.Literal (.number 2)) State.initial 2 rfl).1 (by decide) (by decide),
   ((div_by_zero noComparators 1 (.Literal (.number (-2147483648))) (.Literal (.number 0))
      State.initial State.initial State.initial (-2147483648) rfl rfl).2.2.2.1
      (.Literal (.number (-1))) State.initial (-1) rfl).2.1 (by decide) (by decide)⟩

theorem dispatchOperator_call (exec : Statement → State → Result ObjectHolder)
    (name what : String) (addr : Nat) (instance_ : ClassInstance) (r : ObjectHolder)
    (st : State) (method : Method) (p : String)
    (hd : Heap.deref st.heap addr = some instance_)
    (hm : instance_.cls.GetMethod name = some method)
    (hp : method.formal_params = [p]) :
    dispatchOperator exec name what (.inst addr) r st =
      Result.leave st.closure
        (exec method.body { st with closure := callClosure addr method [r] }) := by
  have hlen : method.formal_params.length = [r].length := by
    rw [hp]
    rfl
  have hh : instance_.HasMethod name 1 = true :=
    (HasMethod_eq_true_iff _ _ _).2 ⟨method, hm, hlen⟩
  simp only [dispatchOperator, hd, hh, if_true]
  exact Call_of_GetMethod exec addr instance_ name [r] st method hd hm hlen

/-! ## Operator overloading -/

/-- Claim C10.  When the left operand of `Add` evaluates to an instance whose class resolves
`__add__` to a method with one formal parameter and the body of that method returns `V`,
`Add` returns `V`, whatever the right operand evaluates to: the method is called with
that value bound to its parameter.  The same holds for `Sub`, `Mult`, `Div` with `__sub__`,
`__mult__`, `__div__`; for `Div` also when the right operand is the number 0. -/
theorem operator_dispatch (cmp : Comparators) (fuel : Nat)
    (node : Statement → Statement → Statement) (name : String)
    (hop : (node, name) ∈ [(Statement.Add, "__add__"), (Statement.Sub, "__sub__"),
      (Statement.Mult, "__mult__"), (Statement.Div, "__div__")])
    (lhs rhs : Statement) (st st1 st2 st3 : State) (addr : Nat) (instance_ : ClassInstance)
    (r V : ObjectHolder) (method : Method) (p : String)
    (h1 : Execute cmp fuel lhs st = .ok (.inst addr) st1)
    (h2 : Execute cmp fuel rhs st1 = .ok r st2)
    (hd : Heap.deref st2.heap addr = some instance_)
    (hm : instance_.cls.GetMethod name = some method)
    (hp : method.formal_params = [p])
    (hbody : Execute cmp fuel method.body { st2 with closure := callClosure addr method [r] }
      = .ok V st3) :
    Execute cmp (fuel + 1) (node lhs rhs) st = .ok V { st3 with closure := st2.closure } ∧
    Closure.find (callClosure addr method [r]) p = some r := by
  constructor
  · have hcall := fun what =>
      dispatchOperator_call (Execute cmp fuel) name what addr instance_ r st2 method p hd hm hp
    simp only [List.mem_cons, Prod.mk.injEq, List.mem_singleton, List.mem_nil_iff,
      or_false] at hop
    rcases hop with ⟨hn, hs⟩ | ⟨hn, hs⟩ | ⟨hn, hs⟩ | ⟨hn, hs⟩
    · subst hn hs
      rw [Execute_Add, h1, Result.bind_ok, h2, Result.bind_ok]
      cases r <;> simp only [hcall, hbody, Result.leave]
    · subst hn hs
      rw [Execute_Sub, h1, Result.bind_ok, h2, Result.bind_ok]
      cases r <;> simp only [hcall, hbody, Result.leave]
    · subst hn hs
      rw [Execute_Mult, h1, Result.bind_ok, h2, Result.bind_ok]
      cases r <;> simp only [hcall, hbody, Result.leave]
    · subst hn hs
      rw [Execute_Div, h1, Result.bind_ok, h2, Result.bind_ok]
      cases r <;> simp only [hcall, hbody, Result.leave]
  · unfold callClosure
    rw [hp]
    simp only [bindArgs]
    exact Closure.find_set_self _ _ _

/-- An instance of `Operators`, whose `__div__` returns 45, divided by the number 0 gives
45, and the same instance plus the empty handle gives the 42 of `__add__`. -/
theorem operator_dispatch_witness :
    Execute noComparators 3 (.Div (.VariableValue ["obj"]) (.Literal (.number 0)))
        exampleOperand
      = .ok (.number 45) exampleOperand ∧
    Execute noComparators 3 (.Add (.VariableValue ["obj"]) (.Literal .none)) exampleOperand
      = .ok (.number 42) exampleOperand :=
  ⟨(operator_dispatch noComparators 2 Statement.Div "__div__" (by simp)
      (.VariableValue ["obj"]) (.Literal (.number 0)) exampleOperand exampleOperand
      exampleOperand
      { exampleOperand with
        closure := callClosure 0 (.mk "__div__" ["other"] (.Return (.Literal (.number 45))))
          [.number 0] }
      0 { cls := exampleOperators, fields := [] } (.number 0) (.number 45)
      (.mk "__div__" ["other"] (.Return (.Literal (.number 45)))) "other"
      rfl rfl rfl rfl rfl rfl).1,
   (operator_dispatch noComparators 2 Statement.Add "__add__" (by simp)
      (.VariableValue ["obj"]) (.Literal .none) exampleOperand exampleOperand
      exampleOperand
      { exampleOperand with
        closure := callClosure 0 (.mk "__add__" ["other"] (.Return (.Literal (.number 42))))
          [.None] }
      0 { cls := exampleOperators, fields := [] } .None (.number 42)
      (.mk "__add__" ["other"] (.Return (.Literal (.number 42)))) "other"
      rfl rfl rfl rfl rfl rfl).1⟩

/-! ## More fuel does not change an answer -/

theorem Result.bind_extends {α β : Type} (r1 r2 : Result α) (f1 f2 : α → State → Result β)
    (hr : r1 ≠ .timeout → r2 = r1)
    (hf : ∀ v st, f1 v st ≠ .timeout → f2 v st = f1 v st)
    (h : r1.bind f1 ≠ .timeout) : r2.bind f2 = r1.bind f1 := by
  cases r1 with
  | ok v st =>
    rw [hr (fun hc => by cases hc)]
    exact hf v st h
  | throw e st =>
    rw [hr (fun hc => by cases hc)]
    rfl
  | undefined =>
    rw [hr (fun hc => by cases hc)]
    rfl
  | timeout => exact absurd rfl h

theorem Result.leave_extends {α : Type} (caller : Closure) (r1 r2 : Result α)
    (hr : r1 ≠ .timeout → r2 = r1) (h : Result.leave caller r1 ≠ .timeout) :
    Result.leave caller r2 = Result.leave caller r1 := by
  cases r1 with
  | timeout => exact absurd rfl h
  | ok v st => rw [hr (fun hc => by cases hc)]
  | throw e st => rw [hr (fun hc => by cases hc)]
  | undefined => rw [hr (fun hc => by cases hc)]

theorem ExecuteArgs_extends (exec1 exec2 : Statement → State → Result ObjectHolder)
    (hx : Extends exec1 exec2) :
    ∀ (args : List Statement) (st : State), ExecuteArgs exec1 args st ≠ .timeout →
      ExecuteArgs exec2 args st = ExecuteArgs exec1 args st := by
  intro args
  induction args with
  | nil =>
    intro st _
    rfl
  | cons arg rest ih =>
    intro st h
    simp only [ExecuteArgs] at h ⊢
    refine Result.bind_extends _ _ _ _ (hx arg st) ?_ h
    intro v st1 h1
    exact Result.bind_extends _ _ _ _ (ih st1) (fun _ _ _ => rfl) h1

theorem ExecuteStatements_extends (exec1 exec2 : Statement → State → Result ObjectHolder)
    (hx : Extends exec1 exec2) :
    ∀ (l : List Statement) (st : State), ExecuteStatements exec1 l st ≠ .timeout →
      ExecuteStatements exec2 l st = ExecuteStatements exec1 l st := by
  intro l
  induction l with
  | nil =>
    intro st _
    rfl
  | cons child rest ih =>
    intro st h
    simp only [ExecuteStatements] at h ⊢
    refine Result.bind_extends _ _ _ _ (hx child st) ?_ h
    intro ret st1 h1
    by_cases hc : (child.checkForReturn && ret.Get) = true
    · simp only [hc, if_true]
    · simp only [hc, if_false] at h1 ⊢
      exact ih st1 h1

theorem Call_extends (exec1 exec2 : Statement → State → Result ObjectHolder)
    (hx : Extends exec1 exec2) (self : Nat) (name : String) (args : List ObjectHolder)
    (st : State) (h : ClassInstance.Call exec1 self name args st ≠ .timeout) :
    ClassInstance.Call exec2 self name args st = ClassInstance.Call exec1 self name args st := by
  unfold ClassInstance.Call at h ⊢
  cases hd : Heap.deref st.heap self with
  | none => rfl
  | some instance_ =>
    simp only [hd] at h ⊢
    cases hh : instance_.HasMethod name args.length with
    | true =>
      simp only [hh, if_true] at h ⊢
      cases hm : instance_.cls.GetMethod name with
      | none => rfl
      | some method =>
        simp only [hm] at h ⊢
        exact Result.leave_extends _ _ _ (hx _ _) h
    | false => rfl

theorem ObjectPrint_extends (exec1 exec2 : Statement → State → Result ObjectHolder)
    (hx : Extends exec1 exec2) :
    ∀ (fuel : Nat) (obj : ObjectHolder) (st : State),
      ObjectPrint exec1 fuel obj st ≠ .timeout →
      ObjectPrint exec2 (fuel + 1) obj st = ObjectPrint exec1 fuel obj st := by
  intro fuel
  induction fuel with
  | zero =>
    intro obj st h
    cases obj with
    | inst addr => exact absurd (by rw [ObjectPrint]) h
    | None => simp only [ObjectPrint]
    | string v => simp only [ObjectPrint]
    | number v => simp only [ObjectPrint]
    | bool v => simp only [ObjectPrint]
    | cls c => simp only [ObjectPrint]
  | succ k ih =>
    intro obj st h
    cases obj with
    | inst addr =>
      simp only [ObjectPrint] at h ⊢
      cases hd : Heap.deref st.heap addr with
      | none => rfl
      | some instance_ =>
        simp only [hd] at h ⊢
        cases hh : instance_.HasMethod "__str__" 0 with
        | true =>
          simp only [hh, if_true] at h ⊢
          exact Result.bind_extends _ _ _ _ (Call_extends exec1 exec2 hx _ _ _ _)
            (fun res st1 => ih res st1) h
        | false => rfl
    | None => simp only [ObjectPrint]
    | string v => simp only [ObjectPrint]
    | number v => simp only [ObjectPrint]
    | bool v => simp only [ObjectPrint]
    | cls c => simp only [ObjectPrint]

theorem PrintArgs_extends (exec1 exec2 : Statement → State → Result ObjectHolder)
    (hx : Extends exec1 exec2) (fuel : Nat) :
    ∀ (args : List Statement) (first : Bool) (st : State),
      PrintArgs exec1 fuel args first st ≠ .timeout →
      PrintArgs exec2 (fuel + 1) args first st = PrintArgs exec1 fuel args first st := by
  intro args
  induction args with
  | nil =>
    intro first st _
    rfl
  | cons arg rest ih =>
    intro first st h
    simp only [PrintArgs] at h ⊢
    refine Result.bind_extends _ _ _ _ (hx arg _) ?_ h
    intro obj st1 h1
    cases obj with
    | None => exact ih _ _ h1
    | string v =>
      exact Result.bind_extends _ _ _ _ (ObjectPrint_extends exec1 exec2 hx fuel _ st1)
        (fun text st2 => ih _ _) h1
    | number v =>
      exact Result.bind_extends _ _ _ _ (ObjectPrint_extends exec1 exec2 hx fuel _ st1)
        (fun text st2 => ih _ _) h1
    | bool v =>
      exact Result.bind_extends _ _ _ _ (ObjectPrint_extends exec1 exec2 hx fuel _ st1)
        (fun text st2 => ih _ _) h1
    | cls c =>
      exact Result.bind_extends _ _ _ _ (ObjectPrint_extends exec1 exec2 hx fuel _ st1)
        (fun text st2 => ih _ _) h1
    | inst addr =>
      exact Result.bind_extends _ _ _ _ (ObjectPrint_extends exec1 exec2 hx fuel _ st1)
        (fun text st2 => ih _ _) h1

theorem dispatchOperator_extends (exec1 exec2 : Statement → State → Result ObjectHolder)
    (hx : Extends exec1 exec2) (name what : String) (obj1 obj2 : ObjectHolder) (st : State)
    (h : dispatchOperator exec1 name what obj1 obj2 st ≠ .timeout) :
    dispatchOperator exec2 name what obj1 obj2 st
      = dispatchOperator exec1 name what obj1 obj2 st := by
  unfold dispatchOperator at h ⊢
  cases obj1 with
  | inst addr =>
    simp only at h ⊢
    cases hd : Heap.deref st.heap addr with
    | none => rfl
    | some v1 =>
      simp only [hd] at h ⊢
      cases hh : v1.HasMethod name 1 with
      | true =>
        simp only [hh, if_true] at h ⊢
        exact Call_extends exec1 exec2 hx _ _ _ _ h
      | false => rfl
  | None => rfl
  | string v => rfl
  | number v => rfl
  | bool v => rfl
  | cls c => rfl
theorem dropInstance_extends {α : Type} (addr : Nat) (r1 r2 : Result α)
    (hr : r1 ≠ .timeout → r2 = r1) (h : dropInstance addr r1 ≠ .timeout) :
    dropInstance addr r2 = dropInstance addr r1 := by
  cases r1 with
  | timeout => exact absurd rfl h
  | ok v st => rw [hr (fun hc => by cases hc)]
  | throw e st => rw [hr (fun hc => by cases hc)]
  | undefined => rw [hr (fun hc => by cases hc)]

theorem Execute_extends_succ (cmp : Comparators) :
    ∀ fuel : Nat, Extends (Execute cmp fuel) (Execute cmp (fuel + 1)) := by
  intro fuel
  induction fuel with
  | zero =>
    intro s st h
    exact absurd (by rw [Execute]) h
  | succ n ih =>
    intro s st h
    cases s with
    | Literal value => simp only [Execute]
    | Assignment var_name right_value =>
      simp only [Execute] at h ⊢
      exact Result.bind_extends _ _ _ _ (ih _ _) (fun _ _ _ => rfl) h
    | VariableValue dotted_ids => simp only [Execute]
    | Print args =>
      simp only [Execute] at h ⊢
      exact Result.bind_extends _ _ _ _ (PrintArgs_extends _ _ ih n args true st)
        (fun _ _ _ => rfl) h
    | MethodCall object method args =>
      simp only [Execute] at h ⊢
      refine Result.bind_extends _ _ _ _ (ih _ _) ?_ h
      intro obj st1 h1
      cases obj with
      | inst addr =>
        refine Result.bind_extends _ _ _ _ (ExecuteArgs_extends _ _ ih args st1) ?_ h1
        intro actual_args st2 h2
        cases hh : st2.holds addr with
        | true =>
          simp only [hh, if_true] at h2 ⊢
          exact Call_extends _ _ ih _ _ _ _ h2
        | false => simp only [hh, Bool.false_eq_true, if_false]
      | None => rfl
      | string v => rfl
      | number v => rfl
      | bool v => rfl
      | cls c => rfl
    | Stringify argument =>
      simp only [Execute] at h ⊢
      refine Result.bind_extends _ _ _ _ (ih _ _) ?_ h
      intro obj st1 h1
      exact Result.bind_extends _ _ _ _ (ObjectPrint_extends _ _ ih n obj st1)
        (fun _ _ _ => rfl) h1
    | Add lhs rhs =>
      simp only [Execute] at h ⊢
      refine Result.bind_extends _ _ _ _ (ih _ _) ?_ h
      intro obj1 st1 h1
      refine Result.bind_extends _ _ _ _ (ih _ _) ?_ h1
      intro obj2 st2 h2
      cases obj1 <;> cases obj2 <;>
        first
          | rfl
          | exact dispatchOperator_extends _ _ ih _ _ _ _ _ h2
    | Sub lhs rhs =>
      simp only [Execute] at h ⊢
      refine Result.bind_extends _ _ _ _ (ih _ _) ?_ h
      intro obj1 st1 h1
      refine Result.bind_extends _ _ _ _ (ih _ _) ?_ h1
      intro obj2 st2 h2
      cases obj1 <;> cases obj2 <;>
        first
          | rfl
          | exact dispatchOperator_extends _ _ ih _ _ _ _ _ h2
    | Mult lhs rhs =>
      simp only [Execute] at h ⊢
      refine Result.bind_extends _ _ _ _ (ih _ _) ?_ h
      intro obj1 st1 h1
      refine Result.bind_extends _ _ _ _ (ih _ _) ?_ h1
      intro obj2 st2 h2
      cases obj1 <;> cases obj2 <;>
        first
          | rfl
          | exact dispatchOperator_extends _ _ ih _ _ _ _ _ h2
    | Div lhs rhs =>
      simp only [Execute] at h ⊢
      refine Result.bind_extends _ _ _ _ (ih _ _) ?_ h
      intro obj1 st1 h1
      refine Result.bind_extends _ _ _ _ (ih _ _) ?_ h1
      intro obj2 st2 h2
      cases obj1 <;> cases obj2 <;>
        first
          | rfl
          | exact dispatchOperator_extends _ _ ih _ _ _ _ _ h2
    | Compound statements =>
      simp only [Execute] at h ⊢
      exact ExecuteStatements_extends _ _ ih _ _ h
    | Return statement =>
      simp only [Execute] at h ⊢
      exact ih _ _ h
    | ClassDefinition cls => simp only [Execute]
    | FieldAssignment object field_name right_value =>
      simp only [Execute] at h ⊢
      refine Result.bind_extends _ _ _ _ (fun _ => rfl) ?_ h
      intro obj st1 h1
      exact Result.bind_extends _ _ _ _ (ih _ _) (fun _ _ _ => rfl) h1
    | IfElse condition if_body else_body =>
      simp only [Execute] at h ⊢
      refine Result.bind_extends _ _ _ _ (ih _ _) ?_ h
      intro c st1 h1
      cases hc : IsTrue c with
      | true =>
        simp only [hc, if_true] at h1 ⊢
        exact ih _ _ h1
      | false =>
        simp only [hc, Bool.false_eq_true, if_false] at h1 ⊢
        cases else_body with
        | none => rfl
        | some body => exact ih _ _ h1
    | Or lhs rhs =>
      simp only [Execute] at h ⊢
      refine Result.bind_extends _ _ _ _ (ih _ _) ?_ h
      intro v1 st1 h1
      cases hc : IsTrue v1 with
      | true => simp only [hc, if_true]
      | false =>
        simp only [hc, Bool.false_eq_true, if_false] at h1 ⊢
        exact Result.bind_extends _ _ _ _ (ih _ _) (fun _ _ _ => rfl) h1
    | And lhs rhs =>
      simp only [Execute] at h ⊢
      refine Result.bind_extends _ _ _ _ (ih _ _) ?_ h
      intro v1 st1 h1
      cases hc : IsTrue v1 with
      | true =>
        simp only [hc, if_true] at h1 ⊢
        exact Result.bind_extends _ _ _ _ (ih _ _) (fun _ _ _ => rfl) h1
      | false => simp only [hc, Bool.false_eq_true, if_false]
    | Not argument =>
      simp only [Execute] at h ⊢
      exact Result.bind_extends _ _ _ _ (ih _ _) (fun _ _ _ => rfl) h
    | Comparison comparator left right =>
      rw [Execute_Comparison] at h
      rw [Execute_Comparison, Execute_Comparison]
      cases ho : cmp.rightFirst with
      | true =>
        simp only [ho, if_true] at h ⊢
        refine Result.bind_extends _ _ _ _ (ih _ _) ?_ h
        intro v2 st1 h1
        exact Result.bind_extends _ _ _ _ (ih _ _) (fun _ _ _ => rfl) h1
      | false =>
        simp only [ho, Bool.false_eq_true, if_false] at h ⊢
        refine Result.bind_extends _ _ _ _ (ih _ _) ?_ h
        intro v1 st1 h1
        exact Result.bind_extends _ _ _ _ (ih _ _) (fun _ _ _ => rfl) h1
    | NewInstance class_ args =>
      simp only [Execute] at h ⊢
      refine dropInstance_extends _ _ _ ?_ h
      intro h0
      refine Result.bind_extends _ _ _ _ (ExecuteArgs_extends _ _ ih args _) ?_ h0
      intro actual_args st1 h1
      cases hd : Heap.deref st1.heap st.heap.length with
      | none => simp only [hd]
      | some instance_ =>
        simp only [hd] at h1 ⊢
        cases hh : instance_.HasMethod "__init__" actual_args.length with
        | true =>
          simp only [hh, if_true] at h1 ⊢
          exact Result.bind_extends _ _ _ _ (Call_extends _ _ ih _ _ _ _)
            (fun _ _ _ => rfl) h1
        | false => simp only [hh, Bool.false_eq_true, if_false]

/-- An answer of `Execute` is the same with any larger amount of fuel. -/
theorem Execute_fuel_mono (cmp : Comparators) (fuel more : Nat) (s : Statement) (st : State)
    (h : Execute cmp fuel s st ≠ .timeout) :
    Execute cmp (fuel + more) s st = Execute cmp fuel s st := by
  induction more with
  | zero => rfl
  | succ k ih =>
    have hk : Execute cmp (fuel + k) s st ≠ .timeout := by
      rw [ih]
      exact h
    rw [← ih]
    exact Execute_extends_succ cmp (fuel + k) s st hk

/-! ## Operands without a rule -/

theorem dispatchOperator_throw (exec : Statement → State → Result ObjectHolder)
    (name what : String) (obj1 obj2 : ObjectHolder) (st : State)
    (h : ∀ addr, obj1 = .inst addr →
      ∃ instance_, Heap.deref st.heap addr = some instance_ ∧
        instance_.HasMethod name 1 = false) :
    dispatchOperator exec name what obj1 obj2 st = .throw (.runtime_error what) st := by
  unfold dispatchOperator
  cases obj1 with
  | inst addr =>
    obtain ⟨instance_, hd, hh⟩ := h addr rfl
    simp only [hd, hh, Bool.false_eq_true, if_false]
  | None => rfl
  | string v => rfl
  | number v => rfl
  | bool v => rfl
  | cls c => rfl

/-- Claim C11.  When the operands of `Add`, `Sub`, `Mult` or `Div` evaluate to values that
match no rule (not two strings for `Add`, not two numbers, and a left operand that is no
instance with a one-argument method of the operator's name), the node throws its
`runtime_error` ("wrong types" for `Add`, "rwong types" for the others) in the state
the operands left, and returns no value. -/
theorem arithmetic_type_mismatch (cmp : Comparators) (fuel : Nat)
    (node : Statement → Statement → Statement) (name what : String)
    (hop : (node, name, what) ∈
      [(Statement.Add, "__add__", "wrong types"), (Statement.Sub, "__sub__", "rwong types"),
       (Statement.Mult, "__mult__", "rwong types"), (Statement.Div, "__div__", "rwong types")])
    (lhs rhs : Statement) (st st1 st2 : State) (obj1 obj2 : ObjectHolder)
    (h1 : Execute cmp fuel lhs st = .ok obj1 st1)
    (h2 : Execute cmp fuel rhs st1 = .ok obj2 st2)
    (hstr : name = "__add__" → ¬ ((∃ s, obj1 = .string s) ∧ (∃ t, obj2 = .string t)))
    (hnum : ¬ ((∃ a, obj1 = .number a) ∧ (∃ b, obj2 = .number b)))
    (hinst : ∀ addr, obj1 = .inst addr →
      ∃ instance_, Heap.deref st2.heap addr = some instance_ ∧
        instance_.HasMethod name 1 = false) :
    Execute cmp (fuel + 1) (node lhs rhs) st = .throw (.runtime_error what) st2 := by
  have hd := fun w => dispatchOperator_throw (Execute cmp fuel) name w obj1 obj2 st2 hinst
  simp only [List.mem_cons, Prod.mk.injEq, List.mem_singleton, List.mem_nil_iff,
    or_false] at hop
  rcases hop with ⟨hn, hs, hw⟩ | ⟨hn, hs, hw⟩ | ⟨hn, hs, hw⟩ | ⟨hn, hs, hw⟩
  · subst hn hs hw
    rw [Execute_Add, h1, Result.bind_ok, h2, Result.bind_ok]
    cases obj1 <;> cases obj2 <;>
      first
        | exact hd _
        | exact (hstr rfl ⟨⟨_, rfl⟩, ⟨_, rfl⟩⟩).elim
        | exact (hnum ⟨⟨_, rfl⟩, ⟨_, rfl⟩⟩).elim
  · subst hn hs hw
    rw [Execute_Sub, h1, Result.bind_ok, h2, Result.bind_ok]
    cases obj1 <;> cases obj2 <;>
      first
        | exact hd _
        | exact (hnum ⟨⟨_, rfl⟩, ⟨_, rfl⟩⟩).elim
  · subst hn hs hw
    rw [Execute_Mult, h1, Result.bind_ok, h2, Result.bind_ok]
    cases obj1 <;> cases obj2 <;>
      first
        | exact hd _
        | exact (hnum ⟨⟨_, rfl⟩, ⟨_, rfl⟩⟩).elim
  · subst hn hs hw
    rw [Execute_Div, h1, Result.bind_ok, h2, Result.bind_ok]
    cases obj1 <;> cases obj2 <;>
      first
        | exact hd _
        | exact (hnum ⟨⟨_, rfl⟩, ⟨_, rfl⟩⟩).elim

/-- A string plus a number, two strings subtracted, the empty handle or a boolean on the
left, a left instance without `__add__` or with a two-parameter `__add__`, and a number
times an instance that defines `__mult__`: all throw the type error. -/
theorem arithmetic_type_mismatch_witness :
    Execute noComparators 2 (.Add (.VariableValue ["s"]) (.VariableValue ["x"])) exampleMixed
      = .throw (.runtime_error "wrong types") exampleMixed ∧
    Execute noComparators 2 (.Add (.VariableValue ["x"]) (.VariableValue ["s"])) exampleMixed
      = .throw (.runtime_error "wrong types") exampleMixed ∧
    Execute noComparators 2 (.Sub (.VariableValue ["s"]) (.VariableValue ["s"])) exampleMixed
      = .throw (.runtime_error "rwong types") exampleMixed ∧
    Execute noComparators 2 (.Div (.Literal .none) (.VariableValue ["x"])) exampleMixed
      = .throw (.runtime_error "rwong types") exampleMixed ∧
    Execute noComparators 2 (.Mult (.Literal (.bool true)) (.VariableValue ["x"])) exampleMixed
      = .throw (.runtime_error "rwong types") exampleMixed ∧
    Execute noComparators 2 (.Add (.VariableValue ["plain"]) (.VariableValue ["x"]))
        exampleMixed
      = .throw (.runtime_error "wrong types") exampleMixed ∧
    Execute noComparators 2 (.Add (.VariableValue ["wide"]) (.VariableValue ["x"]))
        exampleMixed
      = .throw (.runtime_error "wrong types") exampleMixed ∧
    Execute noComparators 2 (.Mult (.VariableValue ["x"]) (.VariableValue ["ops"]))
        exampleMixed
      = .throw (.runtime_error "rwong types") exampleMixed :=
  ⟨arithmetic_type_mismatch noComparators 1 Statement.Add "__add__" "wrong types" (by simp)
      (.VariableValue ["s"]) (.VariableValue ["x"]) exampleMixed exampleMixed exampleMixed
      (.string "a") (.number 5) rfl rfl (by simp) (by simp) (fun _ h => by cases h),
   arithmetic_type_mismatch noComparators 1 Statement.Add "__add__" "wrong types" (by simp)
      (.VariableValue ["x"]) (.VariableValue ["s"]) exampleMixed exampleMixed exampleMixed
      (.number 5) (.string "a") rfl rfl (by simp) (by simp) (fun _ h => by cases h),
   arithmetic_type_mismatch noComparators 1 Statement.Sub "__sub__" "rwong types" (by simp)
      (.VariableValue ["s"]) (.VariableValue ["s"]) exampleMixed exampleMixed exampleMixed
      (.string "a") (.string "a") rfl rfl (fun h => absurd h (by decide)) (by simp) (fun _ h => by cases h),
   arithmetic_type_mismatch noComparators 1 Statement.Div "__div__" "rwong types" (by simp)
      (.Literal .none) (.VariableValue ["x"]) exampleMixed exampleMixed exampleMixed
      .None (.number 5) rfl rfl (by simp) (by simp) (fun _ h => by cases h),
   arithmetic_type_mismatch noComparators 1 Statement.Mult "__mult__" "rwong types" (by simp)
      (.Literal (.bool true)) (.VariableValue ["x"]) exampleMixed exampleMixed exampleMixed
      (.bool true) (.number 5) rfl rfl (by simp) (by simp) (fun _ h => by cases h),
   arithmetic_type_mismatch noComparators 1 Statement.Add "__add__" "wrong types" (by simp)
      (.VariableValue ["plain"]) (.VariableValue ["x"]) exampleMixed exampleMixed exampleMixed
      (.inst 1) (.number 5) rfl rfl (by simp) (by simp)
      (fun _ h => by cases h; exact ⟨_, rfl, rfl⟩),
   arithmetic_type_mismatch noComparators 1 Statement.Add "__add__" "wrong types" (by simp)
      (.VariableValue ["wide"]) (.VariableValue ["x"]) exampleMixed exampleMixed exampleMixed
      (.inst 2) (.number 5) rfl rfl (by simp) (by simp)
      (fun _ h => by cases h; exact ⟨_, rfl, rfl⟩),
   arithmetic_type_mismatch noComparators 1 Statement.Mult "__mult__" "rwong types" (by simp)
      (.VariableValue ["x"]) (.VariableValue ["ops"]) exampleMixed exampleMixed exampleMixed
      (.number 5) (.inst 3) rfl rfl (by simp) (by simp) (fun _ h => by cases h)⟩

/-! ## Variables, fields and class definitions -/

theorem accumulateFields_follow (names : List String) :
    ∀ (more : List String) (value reached : ObjectHolder) (st : State),
      followFields st.heap value names = some reached →
      accumulateFields (names ++ more) value st = accumulateFields more reached st := by
  induction names with
  | nil =>
    intro more value reached st h
    cases value <;> simp [followFields] at h <;> subst h <;> rfl
  | cons name rest ih =>
    intro more value reached st h
    cases value with
    | inst addr =>
      simp only [followFields] at h
      cases hd : Heap.deref st.heap addr with
      | none => simp [hd] at h
      | some instance_ =>
        simp only [hd] at h
        cases hf : Closure.find instance_.fields name with
        | none => simp [hf] at h
        | some field =>
          simp only [hf] at h
          simp only [List.cons_append, accumulateFields, hd, hf]
          exact ih more field reached st h
    | None => simp [followFields] at h
    | string s => simp [followFields] at h
    | number n => simp [followFields] at h
    | bool b => simp [followFields] at h
    | cls c => simp [followFields] at h

theorem accumulateFields_state (names : List String) :
    ∀ (value : ObjectHolder) (st : State),
      (∀ r st1, accumulateFields names value st = .ok r st1 → st1 = st) ∧
      (∀ e st1, accumulateFields names value st = .throw e st1 → st1 = st) := by
  induction names with
  | nil =>
    intro value st
    constructor
    · intro r st1 h
      simp only [accumulateFields, Result.ok.injEq] at h
      exact h.2.symm
    · intro e st1 h
      simp [accumulateFields] at h
  | cons name rest ih =>
    intro value st
    cases value with
    | inst addr =>
      simp only [accumulateFields]
      cases hd : Heap.deref st.heap addr with
      | none => simp
      | some instance_ =>
        cases hf : Closure.find instance_.fields name with
        | none =>
          simp only [hf]
          constructor
          · intro r st1 h
            cases h
          · intro e st1 h
            cases h
            rfl
        | some field =>
          simp only [hf]
          exact ih field st
    | None => simp [accumulateFields]
    | string s => simp [accumulateFields]
    | number n => simp [accumulateFields]
    | bool b => simp [accumulateFields]
    | cls c => simp [accumulateFields]

theorem VariableValueExecute_state (ids : List String) (st : State) :
    (∀ r st1, VariableValueExecute ids st = .ok r st1 → st1 = st) ∧
    (∀ e st1, VariableValueExecute ids st = .throw e st1 → st1 = st) := by
  cases ids with
  | nil => simp [VariableValueExecute]
  | cons x0 rest =>
    simp only [VariableValueExecute]
    cases hf : Closure.find st.closure x0 with
    | none => simp
    | some v0 => exact accumulateFields_state rest v0 st

/-- Claim C12.  When `E` evaluates to `v`, `Assignment(x, E)` returns `v` in the state `E`
left with `x` bound to `v` there: every other name is bound as after `E` alone, and a
following `VariableValue(x)` returns `v` and changes nothing. -/
theorem assignment_round_trip (cmp : Comparators) (fuel more : Nat) (x : String)
    (E : Statement) (st st1 : State) (v : ObjectHolder)
    (h : Execute cmp fuel E st = .ok v st1) :
    Execute cmp (fuel + 1) (.Assignment x E) st
      = .ok v { st1 with closure := Closure.set st1.closure x v } ∧
    Closure.find (Closure.set st1.closure x v) x = some v ∧
    (∀ y, y ≠ x → Closure.find (Closure.set st1.closure x v) y = Closure.find st1.closure y) ∧
    Execute cmp (more + 1) (.VariableValue [x])
        { st1 with closure := Closure.set st1.closure x v }
      = .ok v { st1 with closure := Closure.set st1.closure x v } := by
  refine ⟨?_, Closure.find_set_self _ _ _, fun y hy => Closure.find_set_other _ _ _ _ hy, ?_⟩
  · rw [Execute_Assignment, h, Result.bind_ok]
  · rw [Execute_VariableValue]
    simp only [VariableValueExecute, Closure.find_set_self, accumulateFields]

/-- The variable `x` holds 5 and is assigned the string `"b"`: the assignment returns the
string and reading `x` gives it back. -/
theorem assignment_round_trip_witness :
    Execute noComparators 2 (.Assignment "x" (.Literal (.string "b"))) exampleMixed
      = .ok (.string "b")
          { exampleMixed with closure := Closure.set exampleMixed.closure "x" (.string "b") } ∧
    Execute noComparators 1 (.VariableValue ["x"])
        { exampleMixed with closure := Closure.set exampleMixed.closure "x" (.string "b") }
      = .ok (.string "b")
          { exampleMixed with closure := Closure.set exampleMixed.closure "x" (.string "b") } :=
  have h := assignment_round_trip noComparators 1 0 "x" (.Literal (.string "b")) exampleMixed
    exampleMixed (.string "b") rfl
  ⟨h.1, h.2.2.2⟩

/-- Claim C15.  `VariableValue` on `x_0 :: rest` throws "unknown variable" when `x_0` is not
bound.  When it is bound and following the fields reaches an instance that lacks the next
identifier, it throws (`out_of_range`) instead of returning a handle.  When all fields
are there it returns the value reached.  In every case the state is left as it was. -/
theorem variable_value_execute (cmp : Comparators) (fuel : Nat) (x0 : String)
    (rest : List String) (st : State) :
    (Closure.find st.closure x0 = none →
      Execute cmp (fuel + 1) (.VariableValue (x0 :: rest)) st
        = .throw (.runtime_error ("unknown variable " ++ x0)) st) ∧
    (∀ (v0 : ObjectHolder) (before : List String) (name : String) (after : List String)
        (addr : Nat) (instance_ : ClassInstance),
      Closure.find st.closure x0 = some v0 → rest = before ++ name :: after →
      followFields st.heap v0 before = some (.inst addr) →
      Heap.deref st.heap addr = some instance_ →
      Closure.find instance_.fields name = none →
      Execute cmp (fuel + 1) (.VariableValue (x0 :: rest)) st = .throw .out_of_range st) ∧
    (∀ (v0 reached : ObjectHolder),
      Closure.find st.closure x0 = some v0 → followFields st.heap v0 rest = some reached →
      Execute cmp (fuel + 1) (.VariableValue (x0 :: rest)) st = .ok reached st) ∧
    (∀ (r : ObjectHolder) (st1 : State),
      Execute cmp (fuel + 1) (.VariableValue (x0 :: rest)) st = .ok r st1 → st1 = st) ∧
    (∀ (e : Exception) (st1 : State),
      Execute cmp (fuel + 1) (.VariableValue (x0 :: rest)) st = .throw e st1 → st1 = st) := by
  rw [Execute_VariableValue]
  refine ⟨?_, ?_, ?_, (VariableValueExecute_state _ st).1, (VariableValueExecute_state _ st).2⟩
  · intro h
    simp only [VariableValueExecute, h]
  · intro v0 before name after addr instance_ h0 hrest hfollow hd hf
    subst hrest
    simp only [VariableValueExecute, h0]
    rw [accumulateFields_follow before _ v0 _ st hfollow]
    simp only [accumulateFields, hd, hf]
  · intro v0 reached h0 hfollow
    simp only [VariableValueExecute, h0]
    have h := accumulateFields_follow rest [] v0 reached st hfollow
    rw [List.append_nil] at h
    rw [h]
    rfl

/-- In the example state `y` is unknown, `obj.w` is 3 and `obj` has no field `z`. -/
theorem variable_value_execute_witness :
    Execute noComparators 1 (.VariableValue ["y", "w"]) exampleMixed
      = .throw (.runtime_error "unknown variable y") exampleMixed ∧
    Execute noComparators 1 (.VariableValue ["obj", "z", "w"]) exampleMixed
      = .throw .out_of_range exampleMixed ∧
    Execute noComparators 1 (.VariableValue ["obj", "w"]) exampleMixed
      = .ok (.number 3) exampleMixed :=
  ⟨(variable_value_execute noComparators 0 "y" ["w"] exampleMixed).1 rfl,
   (variable_value_execute noComparators 0 "obj" ["z", "w"] exampleMixed).2.1
      (.inst 0) [] "z" ["w"] 0 { cls := exampleBase, fields := [("w", .number 3)] }
      rfl rfl rfl rfl rfl,
   (variable_value_execute noComparators 0 "obj" ["w"] exampleMixed).2.2.1
      (.inst 0) (.number 3) rfl rfl⟩

theorem Execute_ClassDefinition (cmp : Comparators) (fuel : Nat) (cls : Class) (st : State) :
    Execute cmp (fuel + 1) (.ClassDefinition cls) st =
      if Closure.count st.closure cls.GetName then
        .throw (.runtime_error "multiple definitions") st
      else .ok (.cls cls) { st with closure := Closure.set st.closure cls.GetName (.cls cls) } := by
  rw [Execute]

/-- Claim C16.  `ClassDefinition` throws "multiple definitions" and leaves the state as it
was when the name of its class is bound, to whatever value; otherwise it binds the name
to the class, leaves the other names as they were and returns the class.  Executed once
more on the state it left, it throws. -/
theorem class_definition_execute (cmp : Comparators) (fuel : Nat) (C : Class) (st : State) :
    (∀ bound : ObjectHolder, Closure.find st.closure C.GetName = some bound →
      Execute cmp (fuel + 1) (.ClassDefinition C) st
        = .throw (.runtime_error "multiple definitions") st) ∧
    (Closure.find st.closure C.GetName = none →
      Execute cmp (fuel + 1) (.ClassDefinition C) st
        = .ok (.cls C) { st with closure := Closure.set st.closure C.GetName (.cls C) } ∧
      Closure.find (Closure.set st.closure C.GetName (.cls C)) C.GetName = some (.cls C) ∧
      (∀ y, y ≠ C.GetName →
        Closure.find (Closure.set st.closure C.GetName (.cls C)) y = Closure.find st.closure y) ∧
      Execute cmp (fuel + 1) (.ClassDefinition C)
          { st with closure := Closure.set st.closure C.GetName (.cls C) }
        = .throw (.runtime_error "multiple definitions")
            { st with closure := Closure.set st.closure C.GetName (.cls C) }) := by
  constructor
  · intro bound h
    rw [Execute_ClassDefinition]
    simp [Closure.count, h]
  · intro h
    refine ⟨?_, Closure.find_set_self _ _ _, fun y hy => Closure.find_set_other _ _ _ _ hy, ?_⟩
    · rw [Execute_ClassDefinition]
      simp [Closure.count, h]
    · rw [Execute_ClassDefinition]
      simp [Closure.count, Closure.find_set_self]

/-- The class `Base` is defined in the initial state, and a second definition fails; a
class called `x` cannot be defined where `x` is a number. -/
theorem class_definition_execute_witness :
    Execute noComparators 1 (.ClassDefinition exampleBase) State.initial
      = .ok (.cls exampleBase)
          { State.initial with closure := [("Base", .cls exampleBase)] } ∧
    Execute noComparators 1 (.ClassDefinition exampleBase)
        { State.initial with closure := [("Base", .cls exampleBase)] }
      = .throw (.runtime_error "multiple definitions")
          { State.initial with closure := [("Base", .cls exampleBase)] } ∧
    Execute noComparators 1 (.ClassDefinition (.mk "x" [] none)) exampleMixed
      = .throw (.runtime_error "multiple definitions") exampleMixed :=
  ⟨((class_definition_execute noComparators 0 exampleBase State.initial).2 rfl).1,
   ((class_definition_execute noComparators 0 exampleBase State.initial).2 rfl).2.2.2,
   (class_definition_execute noComparators 0 (.mk "x" [] none) exampleMixed).1 (.number 5) rfl⟩

theorem Execute_FieldAssignment (cmp : Comparators) (fuel : Nat) (object : List String)
    (field_name : String) (right_value : Statement) (st : State) :
    Execute cmp (fuel + 1) (.FieldAssignment object field_name right_value) st =
      (VariableValueExecute object st).bind fun obj st1 =>
        (Execute cmp fuel right_value st1).bind fun right_obj st2 =>
          match obj with
          | .inst addr =>
            match Heap.deref st2.heap addr with
            | none => .undefined
            | some instance_ =>
              match right_obj with
              | .None => .undefined
              | _ =>
                .ok right_obj
                  { st2 with heap := storeField st2.heap addr instance_ field_name right_obj }
          | _ => .undefined := by
  rw [Execute]

theorem FieldAssignment_of_non_instance (cmp : Comparators) (fuel : Nat) (object : List String)
    (field_name : String) (right_value : Statement) (st st2 : State)
    (target right_obj : ObjectHolder)
    (ht : VariableValueExecute object st = .ok target st)
    (hr : Execute cmp fuel right_value st = .ok right_obj st2)
    (hn : ∀ addr, target ≠ .inst addr) :
    Execute cmp (fuel + 1) (.FieldAssignment object field_name right_value) st = .undefined := by
  rw [Execute_FieldAssignment, ht, Result.bind_ok, hr, Result.bind_ok]
  cases target with
  | inst addr => exact absurd rfl (hn addr)
  | None => rfl
  | string s => rfl
  | number n => rfl
  | bool b => rfl
  | cls c => rfl

theorem FieldAssignment_of_empty (cmp : Comparators) (fuel : Nat) (object : List String)
    (field_name : String) (right_value : Statement) (st st2 : State) (target : ObjectHolder)
    (ht : VariableValueExecute object st = .ok target st)
    (hr : Execute cmp fuel right_value st = .ok .None st2) :
    Execute cmp (fuel + 1) (.FieldAssignment object field_name right_value) st = .undefined := by
  rw [Execute_FieldAssignment, ht, Result.bind_ok, hr, Result.bind_ok]
  cases target with
  | inst addr =>
    simp only
    cases Heap.deref st2.heap addr <;> rfl
  | None => rfl
  | string s => rfl
  | number n => rfl
  | bool b => rfl
  | cls c => rfl

/-- Claim C14, the code at the failing inputs.  Where `x` is the number 5,
`FieldAssignment(x, "f", 1)` and `VariableValue([x, "f"])` apply `->Fields()` to the null
pointer that `TryAs<ClassInstance>()` returned: the behaviour is undefined, no error is
thrown.  The same holds for a string, a class and the empty handle as target, while
`MethodCall` on the same target checks the pointer and throws. -/
theorem field_access_on_non_instance :
    Execute noComparators 2 (.FieldAssignment ["x"] "f" (.Literal (.number 1))) exampleMixed
      = .undefined ∧
    Execute noComparators 1 (.VariableValue ["x", "f"]) exampleMixed = .undefined ∧
    Execute noComparators 2 (.FieldAssignment ["s"] "f" (.Literal (.number 1))) exampleMixed
      = .undefined ∧
    Execute noComparators 2 (.FieldAssignment ["c"] "f" (.Literal (.number 1)))
        { exampleMixed with closure := [("c", .cls exampleBase)] }
      = .undefined ∧
    Execute noComparators 2 (.FieldAssignment ["n"] "f" (.Literal (.number 1)))
        { exampleMixed with closure := [("n", .None)] }
      = .undefined ∧
    Execute noComparators 2 (.MethodCall (.VariableValue ["x"]) "m" []) exampleMixed
      = .throw (.runtime_error "not class instance") exampleMixed :=
  ⟨rfl, rfl, rfl, rfl, rfl, rfl⟩

/-- Claim C20, the code at the failing inputs.  Where `obj` is an instance and the right-hand
side evaluates to the empty handle (the literal `None`, or a `Print` node),
`FieldAssignment` evaluates `*right_obj` on the empty handle: the behaviour is undefined,
it does not return the empty handle.  `Assignment` of the same right-hand side returns the
empty handle. -/
theorem field_assignment_of_empty_handle :
    Execute noComparators 2 (.FieldAssignment ["obj"] "f" (.Literal .none)) exampleMixed
      = .undefined ∧
    Execute noComparators 3 (.FieldAssignment ["obj"] "f" (.Print [])) exampleMixed
      = .undefined ∧
    Execute noComparators 2 (.Assignment "y" (.Literal .none)) exampleMixed
      = .ok .None { exampleMixed with closure := Closure.set exampleMixed.closure "y" .None } :=
  ⟨rfl, rfl, rfl⟩

/-! ## Instances stay alive -/

theorem Heap.Alive.refl (heap : Heap) : Heap.Alive heap heap :=
  fun _ instance_ h => ⟨instance_, h, rfl⟩

theorem Heap.Alive.trans {h1 h2 h3 : Heap} (h12 : Heap.Alive h1 h2) (h23 : Heap.Alive h2 h3) :
    Heap.Alive h1 h3 := by
  intro addr instance_ h
  obtain ⟨i2, hi2, hc2⟩ := h12 addr instance_ h
  obtain ⟨i3, hi3, hc3⟩ := h23 addr i2 hi2
  exact ⟨i3, hi3, hc3.trans hc2⟩

theorem Heap.deref_lt {heap : Heap} {addr : Nat} {instance_ : ClassInstance}
    (h : Heap.deref heap addr = some instance_) : addr < heap.length := by
  unfold Heap.deref at h
  rw [List.get?_eq_getElem?] at h
  cases hg : heap[addr]? with
  | none =>
    rw [hg] at h
    cases h
  | some cell => exact (List.getElem?_eq_some_iff.1 hg).1

theorem Heap.deref_append (heap extra : Heap) (addr : Nat) (h : addr < heap.length) :
    Heap.deref (heap ++ extra) addr = Heap.deref heap addr := by
  unfold Heap.deref
  rw [List.get?_eq_getElem?, List.get?_eq_getElem?, List.getElem?_append_left h]

theorem Heap.deref_append_length (heap : Heap) (cell : Option ClassInstance) :
    Heap.deref (heap ++ [cell]) heap.length = cell := by
  unfold Heap.deref
  rw [List.get?_eq_getElem?]
  simp

theorem Heap.deref_set_ne (heap : Heap) (addr other : Nat) (cell : Option ClassInstance)
    (h : other ≠ addr) : Heap.deref (heap.set addr cell) other = Heap.deref heap other := by
  unfold Heap.deref
  rw [List.get?_eq_getElem?, List.get?_eq_getElem?, List.getElem?_set_ne (Ne.symm h)]

theorem Heap.deref_set_self (heap : Heap) (addr : Nat) (cell : Option ClassInstance)
    (h : addr < heap.length) : Heap.deref (heap.set addr cell) addr = cell := by
  unfold Heap.deref
  rw [List.get?_eq_getElem?, List.getElem?_set_self h]

theorem Heap.Alive_append (heap extra : Heap) : Heap.Alive heap (heap ++ extra) := by
  intro addr instance_ h
  refine ⟨instance_, ?_, rfl⟩
  rw [Heap.deref_append heap extra addr (Heap.deref_lt h)]
  exact h

theorem Heap.Alive_storeField (heap : Heap) (addr : Nat) (instance_ : ClassInstance)
    (field_name : String) (value : ObjectHolder)
    (hd : Heap.deref heap addr = some instance_) :
    Heap.Alive heap (storeField heap addr instance_ field_name value) := by
  intro other found h
  unfold storeField
  by_cases ho : other = addr
  · subst ho
    rw [Heap.deref_set_self _ _ _ (Heap.deref_lt h)]
    rw [hd] at h
    cases h
    exact ⟨_, rfl, rfl⟩
  · rw [Heap.deref_set_ne _ _ _ _ ho]
    exact ⟨found, h, rfl⟩

theorem Heap.Alive_move (heap later : Heap) (extra : Heap)
    (h : Heap.Alive (heap ++ [some instance_]) later) :
    Heap.Alive heap (later.set heap.length none ++ extra) := by
  intro addr found hf
  have hlt : addr < heap.length := Heap.deref_lt hf
  have h0 : Heap.deref (heap ++ [some instance_]) addr = some found := by
    rw [Heap.deref_append heap _ addr hlt]
    exact hf
  obtain ⟨kept, hk, hc⟩ := h addr found h0
  refine ⟨kept, ?_, hc⟩
  have hlt2 : addr < (later.set heap.length none).length := by
    rw [List.length_set]
    exact Heap.deref_lt hk
  rw [Heap.deref_append _ extra addr hlt2, Heap.deref_set_ne _ _ _ _ (Nat.ne_of_lt hlt)]
  exact hk

theorem Result.KeepsAlive_of_alive {α : Type} {h1 h2 : Heap} (h12 : Heap.Alive h1 h2)
    (r : Result α) (hr : r.KeepsAlive h2) : r.KeepsAlive h1 := by
  cases r with
  | ok v st => exact h12.trans hr
  | throw e st => exact h12.trans hr
  | undefined => trivial
  | timeout => trivial

theorem Result.KeepsAlive_bind {α β : Type} (heap : Heap) (r : Result α)
    (f : α → State → Result β) (hr : r.KeepsAlive heap)
    (hf : ∀ v st, (f v st).KeepsAlive st.heap) : (r.bind f).KeepsAlive heap := by
  cases r with
  | ok v st => exact Result.KeepsAlive_of_alive hr _ (hf v st)
  | throw e st => exact hr
  | undefined => trivial
  | timeout => trivial

theorem Result.KeepsAlive_leave {α : Type} (heap : Heap) (caller : Closure) (r : Result α)
    (hr : r.KeepsAlive heap) : (Result.leave caller r).KeepsAlive heap := by
  cases r with
  | ok v st => exact hr
  | throw e st => exact hr
  | undefined => trivial
  | timeout => trivial
theorem ExecuteArgs_alive (exec : Statement → State → Result ObjectHolder)
    (hx : ∀ s st, (exec s st).KeepsAlive st.heap) :
    ∀ (args : List Statement) (st : State), (ExecuteArgs exec args st).KeepsAlive st.heap := by
  intro args
  induction args with
  | nil =>
    intro st
    exact Heap.Alive.refl _
  | cons arg rest ih =>
    intro st
    simp only [ExecuteArgs]
    refine Result.KeepsAlive_bind _ _ _ (hx arg st) ?_
    intro v st1
    exact Result.KeepsAlive_bind _ _ _ (ih st1) (fun _ st2 => Heap.Alive.refl st2.heap)

theorem ExecuteStatements_alive (exec : Statement → State → Result ObjectHolder)
    (hx : ∀ s st, (exec s st).KeepsAlive st.heap) :
    ∀ (l : List Statement) (st : State), (ExecuteStatements exec l st).KeepsAlive st.heap := by
  intro l
  induction l with
  | nil =>
    intro st
    exact Heap.Alive.refl _
  | cons child rest ih =>
    intro st
    simp only [ExecuteStatements]
    refine Result.KeepsAlive_bind _ _ _ (hx child st) ?_
    intro ret st1
    cases hc : (child.checkForReturn && ret.Get) with
    | true =>
      simp only [if_true]
      exact Heap.Alive.refl _
    | false =>
      simp only [Bool.false_eq_true, if_false]
      exact ih st1

theorem Call_alive (exec : Statement → State → Result ObjectHolder)
    (hx : ∀ s st, (exec s st).KeepsAlive st.heap) (self : Nat) (name : String)
    (args : List ObjectHolder) (st : State) :
    (ClassInstance.Call exec self name args st).KeepsAlive st.heap := by
  unfold ClassInstance.Call
  cases hd : Heap.deref st.heap self with
  | none => trivial
  | some instance_ =>
    simp only
    cases hh : instance_.HasMethod name args.length with
    | false =>
      simp only [Bool.false_eq_true, if_false]
      exact Heap.Alive.refl _
    | true =>
      simp only [if_true]
      cases hm : instance_.cls.GetMethod name with
      | none => trivial
      | some method =>
        simp only
        exact Result.KeepsAlive_leave _ _ _ (hx _ _)

theorem ObjectPrint_alive (exec : Statement → State → Result ObjectHolder)
    (hx : ∀ s st, (exec s st).KeepsAlive st.heap) :
    ∀ (fuel : Nat) (obj : ObjectHolder) (st : State),
      (ObjectPrint exec fuel obj st).KeepsAlive st.heap := by
  intro fuel
  induction fuel with
  | zero =>
    intro obj st
    cases obj <;> simp only [ObjectPrint] <;> first | trivial | exact Heap.Alive.refl _
  | succ k ih =>
    intro obj st
    cases obj with
    | inst addr =>
      simp only [ObjectPrint]
      cases hd : Heap.deref st.heap addr with
      | none => trivial
      | some instance_ =>
        simp only
        cases hh : instance_.HasMethod "__str__" 0 with
        | false =>
          simp only [Bool.false_eq_true, if_false]
          exact Heap.Alive.refl _
        | true =>
          simp only [if_true]
          exact Result.KeepsAlive_bind _ _ _ (Call_alive exec hx _ _ _ _)
            (fun res st1 => ih res st1)
    | None => trivial
    | string v => exact Heap.Alive.refl _
    | number v => exact Heap.Alive.refl _
    | bool v => exact Heap.Alive.refl _
    | cls c => exact Heap.Alive.refl _

theorem PrintArgs_alive (exec : Statement → State → Result ObjectHolder)
    (hx : ∀ s st, (exec s st).KeepsAlive st.heap) (fuel : Nat) :
    ∀ (args : List Statement) (first : Bool) (st : State),
      (PrintArgs exec fuel args first st).KeepsAlive st.heap := by
  intro args
  induction args with
  | nil =>
    intro first st
    exact Heap.Alive.refl _
  | cons arg rest ih =>
    intro first st
    simp only [PrintArgs]
    have hstart : (exec arg (if first = true then st else st.write " ")).KeepsAlive st.heap := by
      cases first
      · exact hx arg (st.write " ")
      · exact hx arg st
    refine Result.KeepsAlive_bind _ _ _ hstart ?_
    intro obj st1
    have hprint : ∀ o : ObjectHolder,
        ((ObjectPrint exec fuel o st1).bind fun text st2 =>
          PrintArgs exec fuel rest false (st2.write text)).KeepsAlive st1.heap :=
      fun o => Result.KeepsAlive_bind _ _ _ (ObjectPrint_alive exec hx fuel o st1)
        (fun text st2 => ih false (st2.write text))
    cases obj with
    | None => exact ih false (st1.write "None")
    | string v => exact hprint _
    | number v => exact hprint _
    | bool v => exact hprint _
    | cls c => exact hprint _
    | inst addr => exact hprint _

theorem dispatchOperator_alive (exec : Statement → State → Result ObjectHolder)
    (hx : ∀ s st, (exec s st).KeepsAlive st.heap) (name what : String)
    (obj1 obj2 : ObjectHolder) (st : State) :
    (dispatchOperator exec name what obj1 obj2 st).KeepsAlive st.heap := by
  unfold dispatchOperator
  cases obj1 with
  | inst addr =>
    simp only
    cases hd : Heap.deref st.heap addr with
    | none => trivial
    | some v1 =>
      simp only
      cases hh : v1.HasMethod name 1 with
      | false =>
        simp only [Bool.false_eq_true, if_false]
        exact Heap.Alive.refl _
      | true =>
        simp only [if_true]
        exact Call_alive exec hx _ _ _ _
  | None => exact Heap.Alive.refl _
  | string v => exact Heap.Alive.refl _
  | number v => exact Heap.Alive.refl _
  | bool v => exact Heap.Alive.refl _
  | cls c => exact Heap.Alive.refl _

theorem VariableValueExecute_alive (ids : List String) (st : State) :
    (VariableValueExecute ids st).KeepsAlive st.heap := by
  cases hr : VariableValueExecute ids st with
  | ok v st1 =>
    rw [(VariableValueExecute_state ids st).1 v st1 hr]
    exact Heap.Alive.refl _
  | throw e st1 =>
    rw [(VariableValueExecute_state ids st).2 e st1 hr]
    exact Heap.Alive.refl _
  | undefined => trivial
  | timeout => trivial
theorem Heap.Alive_drop (heap later : Heap) (instance_ : ClassInstance)
    (h : Heap.Alive (heap ++ [some instance_]) later) :
    Heap.Alive heap (later.set heap.length none) := by
  intro addr found hf
  have hlt : addr < heap.length := Heap.deref_lt hf
  have h0 : Heap.deref (heap ++ [some instance_]) addr = some found := by
    rw [Heap.deref_append heap _ addr hlt]
    exact hf
  obtain ⟨kept, hk, hc⟩ := h addr found h0
  refine ⟨kept, ?_, hc⟩
  rw [Heap.deref_set_ne _ _ _ _ (Nat.ne_of_lt hlt)]
  exact hk

theorem moveInstance_alive (heap : Heap) (instance_ : ClassInstance) (st : State)
    (h : Heap.Alive (heap ++ [some instance_]) st.heap) :
    (dropInstance heap.length (moveInstance heap.length st)).KeepsAlive heap := by
  unfold moveInstance
  cases hd : Heap.deref st.heap heap.length with
  | none => trivial
  | some found =>
    exact (Heap.Alive_drop heap st.heap instance_ h).trans (Heap.Alive_append _ _)

theorem dropInstance_throw_alive (heap : Heap) (instance_ : ClassInstance) (e : Exception)
    (st : State) (h : Heap.Alive (heap ++ [some instance_]) st.heap) :
    (dropInstance heap.length (Result.throw e st : Result ObjectHolder)).KeepsAlive heap :=
  Heap.Alive_drop heap st.heap instance_ h

theorem Execute_alive (cmp : Comparators) :
    ∀ (fuel : Nat) (s : Statement) (st : State), (Execute cmp fuel s st).KeepsAlive st.heap := by
  intro fuel
  induction fuel with
  | zero =>
    intro s st
    rw [Execute]
    trivial
  | succ n ih =>
    intro s st
    cases s with
    | Literal value =>
      simp only [Execute]
      exact Heap.Alive.refl _
    | Assignment var_name right_value =>
      simp only [Execute]
      exact Result.KeepsAlive_bind _ _ _ (ih _ _) (fun _ st1 => Heap.Alive.refl st1.heap)
    | VariableValue dotted_ids =>
      simp only [Execute]
      exact VariableValueExecute_alive _ _
    | Print args =>
      simp only [Execute]
      exact Result.KeepsAlive_bind _ _ _ (PrintArgs_alive _ ih n args true st)
        (fun _ st1 => Heap.Alive.refl st1.heap)
    | MethodCall object method args =>
      simp only [Execute]
      refine Result.KeepsAlive_bind _ _ _ (ih _ _) ?_
      intro obj st1
      cases obj with
      | inst addr =>
        refine Result.KeepsAlive_bind _ _ _ (ExecuteArgs_alive _ ih args st1) ?_
        intro actual_args st2
        cases hh : st2.holds addr with
        | true =>
          simp only [hh, if_true]
          exact Call_alive _ ih _ _ _ _
        | false =>
          simp only [hh, Bool.false_eq_true, if_false]
          trivial
      | None => exact Heap.Alive.refl _
      | string v => exact Heap.Alive.refl _
      | number v => exact Heap.Alive.refl _
      | bool v => exact Heap.Alive.refl _
      | cls c => exact Heap.Alive.refl _
    | Stringify argument =>
      simp only [Execute]
      refine Result.KeepsAlive_bind _ _ _ (ih _ _) ?_
      intro obj st1
      exact Result.KeepsAlive_bind _ _ _ (ObjectPrint_alive _ ih n obj st1)
        (fun _ st2 => Heap.Alive.refl st2.heap)
    | Add lhs rhs =>
      simp only [Execute]
      refine Result.KeepsAlive_bind _ _ _ (ih _ _) ?_
      intro obj1 st1
      refine Result.KeepsAlive_bind _ _ _ (ih _ _) ?_
      intro obj2 st2
      cases obj1 <;> cases obj2 <;>
        first
          | exact Heap.Alive.refl _
          | exact dispatchOperator_alive _ ih _ _ _ _ _
    | Sub lhs rhs =>
      simp only [Execute]
      refine Result.KeepsAlive_bind _ _ _ (ih _ _) ?_
      intro obj1 st1
      refine Result.KeepsAlive_bind _ _ _ (ih _ _) ?_
      intro obj2 st2
      cases obj1 <;> cases obj2 <;>
        first
          | exact Heap.Alive.refl _
          | exact dispatchOperator_alive _ ih _ _ _ _ _
    | Mult lhs rhs =>
      simp only [Execute]
      refine Result.KeepsAlive_bind _ _ _ (ih _ _) ?_
      intro obj1 st1
      refine Result.KeepsAlive_bind _ _ _ (ih _ _) ?_
      intro obj2 st2
      cases obj1 <;> cases obj2 <;>
        first
          | exact Heap.Alive.refl _
          | exact dispatchOperator_alive _ ih _ _ _ _ _
    | Div lhs rhs =>
      simp only [Execute]
      refine Result.KeepsAlive_bind _ _ _ (ih _ _) ?_
      intro obj1 st1
      refine Result.KeepsAlive_bind _ _ _ (ih _ _) ?_
      intro obj2 st2
      cases obj1 <;> cases obj2 <;>
        first
          | exact dispatchOperator_alive _ ih _ _ _ _ _
          | (simp only []
             split
             · exact Heap.Alive.refl _
             · split
               · exact Heap.Alive.refl _
               · trivial)
    | Compound statements =>
      simp only [Execute]
      exact ExecuteStatements_alive _ ih _ _
    | Return statement =>
      simp only [Execute]
      exact ih _ _
    | ClassDefinition cls =>
      simp only [Execute]
      split <;> exact Heap.Alive.refl _
    | FieldAssignment object field_name right_value =>
      simp only [Execute]
      refine Result.KeepsAlive_bind _ _ _ (VariableValueExecute_alive _ _) ?_
      intro obj st1
      refine Result.KeepsAlive_bind _ _ _ (ih _ _) ?_
      intro right_obj st2
      cases obj with
      | inst addr =>
        simp only
        cases hd : Heap.deref st2.heap addr with
        | none => trivial
        | some instance_ =>
          cases right_obj <;>
            first
              | trivial
              | exact Heap.Alive_storeField _ _ _ _ _ hd
      | None => trivial
      | string v => trivial
      | number v => trivial
      | bool v => trivial
      | cls c => trivial
    | IfElse condition if_body else_body =>
      simp only [Execute]
      refine Result.KeepsAlive_bind _ _ _ (ih _ _) ?_
      intro c st1
      cases hc : IsTrue c with
      | true =>
        simp only [if_true]
        exact ih _ _
      | false =>
        simp only [Bool.false_eq_true, if_false]
        cases else_body with
        | none => exact Heap.Alive.refl _
        | some body => exact ih _ _
    | Or lhs rhs =>
      simp only [Execute]
      refine Result.KeepsAlive_bind _ _ _ (ih _ _) ?_
      intro v1 st1
      cases hc : IsTrue v1 with
      | true =>
        simp only [if_true]
        exact Heap.Alive.refl _
      | false =>
        simp only [Bool.false_eq_true, if_false]
        exact Result.KeepsAlive_bind _ _ _ (ih _ _) (fun _ st2 => Heap.Alive.refl st2.heap)
    | And lhs rhs =>
      simp only [Execute]
      refine Result.KeepsAlive_bind _ _ _ (ih _ _) ?_
      intro v1 st1
      cases hc : IsTrue v1 with
      | true =>
        simp only [if_true]
        exact Result.KeepsAlive_bind _ _ _ (ih _ _) (fun _ st2 => Heap.Alive.refl st2.heap)
      | false =>
        simp only [Bool.false_eq_true, if_false]
        exact Heap.Alive.refl _
    | Not argument =>
      simp only [Execute]
      exact Result.KeepsAlive_bind _ _ _ (ih _ _) (fun _ st1 => Heap.Alive.refl st1.heap)
    | Comparison comparator left right =>
      rw [Execute_Comparison]
      split
      · refine Result.KeepsAlive_bind _ _ _ (ih _ _) ?_
        intro v2 st1
        exact Result.KeepsAlive_bind _ _ _ (ih _ _) (fun _ st2 => Heap.Alive.refl st2.heap)
      · refine Result.KeepsAlive_bind _ _ _ (ih _ _) ?_
        intro v1 st1
        exact Result.KeepsAlive_bind _ _ _ (ih _ _) (fun _ st2 => Heap.Alive.refl st2.heap)
    | NewInstance class_ args =>
      simp only [Execute]
      have hargs := ExecuteArgs_alive _ ih args
        { st with heap := st.heap ++ [some { cls := class_, fields := [] }] }
      cases ha : ExecuteArgs (Execute cmp n) args
          { st with heap := st.heap ++ [some { cls := class_, fields := [] }] } with
      | ok actual_args st1 =>
        rw [ha] at hargs
        simp only [Result.bind_ok]
        cases hd : Heap.deref st1.heap st.heap.length with
        | none => trivial
        | some instance_ =>
          simp only
          cases hh : instance_.HasMethod "__init__" actual_args.length with
          | false =>
            simp only [Bool.false_eq_true, if_false]
            exact moveInstance_alive st.heap _ st1 hargs
          | true =>
            simp only [if_true]
            have hcall := Call_alive _ ih st.heap.length "__init__" actual_args st1
            cases hc : ClassInstance.Call (Execute cmp n) st.heap.length "__init__"
                actual_args st1 with
            | ok v st2 =>
              rw [hc] at hcall
              simp only [Result.bind_ok]
              exact moveInstance_alive st.heap _ st2 (Heap.Alive.trans hargs hcall)
            | throw e st2 =>
              rw [hc] at hcall
              exact dropInstance_throw_alive st.heap _ e st2 (Heap.Alive.trans hargs hcall)
            | undefined => trivial
            | timeout => trivial
      | throw e st1 =>
        rw [ha] at hargs
        exact dropInstance_throw_alive st.heap _ e st1 hargs
      | undefined => trivial
      | timeout => trivial

/-! ## An instance that no handle points at is not changed -/

theorem Closure.avoids_find {addr : Nat} {closure : Closure} {name : String}
    {value : ObjectHolder} (h : Closure.avoids addr closure)
    (hf : Closure.find closure name = some value) : value ≠ .inst addr := by
  induction closure with
  | nil => simp [Closure.find] at hf
  | cons p rest ih =>
    obtain ⟨key, old⟩ := p
    simp only [Closure.find] at hf
    by_cases hk : key = name
    · simp only [hk, if_true, Option.some.injEq] at hf
      subst hf
      exact h (key, old) (List.mem_cons_self _ _)
    · simp only [hk, if_false] at hf
      exact ih (fun q hq => h q (List.mem_cons_of_mem _ hq)) hf

theorem Closure.avoids_set {addr : Nat} {closure : Closure} (h : Closure.avoids addr closure)
    (name : String) (value : ObjectHolder) (hv : value ≠ .inst addr) :
    Closure.avoids addr (Closure.set closure name value) := by
  induction closure with
  | nil =>
    intro q hq
    simp only [Closure.set, List.mem_singleton] at hq
    subst hq
    exact hv
  | cons p rest ih =>
    obtain ⟨key, old⟩ := p
    simp only [Closure.set]
    by_cases hk : key = name
    · simp only [hk, if_true]
      intro q hq
      rcases List.mem_cons.1 hq with hq1 | hq1
      · subst hq1
        exact hv
      · exact h q (List.mem_cons_of_mem _ hq1)
    · simp only [hk, if_false]
      intro q hq
      rcases List.mem_cons.1 hq with hq1 | hq1
      · subst hq1
        exact h (key, old) (List.mem_cons_self _ _)
      · exact ih (fun q2 hq2 => h q2 (List.mem_cons_of_mem _ hq2)) q hq1

theorem Closure.avoids_nil (addr : Nat) : Closure.avoids addr [] := by
  intro q hq
  cases hq

theorem bindArgs_avoids (addr : Nat) :
    ∀ (params : List String) (args : List ObjectHolder) (closure : Closure),
      Closure.avoids addr closure → (∀ v ∈ args, v ≠ ObjectHolder.inst addr) →
      Closure.avoids addr (bindArgs params args closure) := by
  intro params
  induction params with
  | nil =>
    intro args closure h _
    simpa [bindArgs] using h
  | cons p ps ih =>
    intro args closure h hargs
    cases args with
    | nil => simpa [bindArgs] using h
    | cons a rest =>
      simp only [bindArgs]
      exact ih rest _ (Closure.avoids_set h p a (hargs a (List.mem_cons_self _ _)))
        (fun v hv => hargs v (List.mem_cons_of_mem _ hv))

theorem callClosure_avoids (addr self : Nat) (method : Method) (args : List ObjectHolder)
    (hs : self ≠ addr) (hargs : ∀ v ∈ args, v ≠ ObjectHolder.inst addr) :
    Closure.avoids addr (callClosure self method args) := by
  unfold callClosure
  refine bindArgs_avoids addr _ _ _ ?_ hargs
  refine Closure.avoids_set (Closure.avoids_nil addr) _ _ ?_
  intro h
  cases h
  exact hs rfl

theorem Heap.avoids_deref {addr other : Nat} {heap : Heap} {instance_ : ClassInstance}
    (h : Heap.avoids addr heap) (hd : Heap.deref heap other = some instance_) :
    Closure.avoids addr instance_.fields := by
  apply h
  unfold Heap.deref at hd
  cases hg : heap.get? other with
  | none =>
    rw [hg] at hd
    cases hd
  | some cell =>
    rw [hg] at hd
    simp only at hd
    subst hd
    exact List.get?_mem hg

theorem Heap.avoids_update {addr : Nat} {heap : Heap} (h : Heap.avoids addr heap) (other : Nat)
    (cell : Option ClassInstance)
    (hc : ∀ instance_, cell = some instance_ → Closure.avoids addr instance_.fields) :
    Heap.avoids addr (heap.set other cell) := by
  intro instance_ hm
  rcases List.mem_or_eq_of_mem_set hm with hm1 | hm1
  · exact h instance_ hm1
  · exact hc instance_ hm1.symm

theorem Heap.avoids_append {addr : Nat} {heap : Heap} (h : Heap.avoids addr heap)
    (cell : Option ClassInstance)
    (hc : ∀ instance_, cell = some instance_ → Closure.avoids addr instance_.fields) :
    Heap.avoids addr (heap ++ [cell]) := by
  intro instance_ hm
  rcases List.mem_append.1 hm with hm1 | hm1
  · exact h instance_ hm1
  · exact hc instance_ (List.mem_singleton.1 hm1).symm

theorem Result.Framed_bind {α β : Type} (addr : Nat) (good : α → Prop) (good2 : β → Prop)
    (cell : Option (Option ClassInstance)) (r : Result α) (f : α → State → Result β)
    (hr : r.Framed addr good cell)
    (hf : ∀ v st, good v → State.Unreached addr st → st.heap.get? addr = cell →
      (f v st).Framed addr good2 cell) :
    (r.bind f).Framed addr good2 cell := by
  cases r with
  | ok v st => exact hf v st hr.1 hr.2.1 hr.2.2
  | throw e st => exact hr
  | undefined => trivial
  | timeout => trivial

theorem Result.Framed_leave {α : Type} (addr : Nat) (good : α → Prop)
    (cell : Option (Option ClassInstance)) (caller : Closure) (r : Result α)
    (hc : Closure.avoids addr caller) (hr : r.Framed addr good cell) :
    (Result.leave caller r).Framed addr good cell := by
  cases r with
  | ok v st => exact ⟨hr.1, ⟨hr.2.1.1, hc, hr.2.1.2.2⟩, hr.2.2⟩
  | throw e st => exact ⟨⟨hr.1.1, hc, hr.1.2.2⟩, hr.2⟩
  | undefined => trivial
  | timeout => trivial

theorem ExecuteArgs_framed (addr : Nat) (exec : Statement → State → Result ObjectHolder)
    (hx : ExecFramed addr exec) :
    ∀ (args : List Statement) (st : State) (cell : Option (Option ClassInstance)),
      State.Unreached addr st → st.heap.get? addr = cell →
      (ExecuteArgs exec args st).Framed addr
        (fun values => ∀ v ∈ values, v ≠ ObjectHolder.inst addr) cell := by
  intro args
  induction args with
  | nil =>
    intro st cell hu hc
    exact ⟨fun v hv => (by cases hv), hu, hc⟩
  | cons arg rest ih =>
    intro st cell hu hc
    simp only [ExecuteArgs]
    refine Result.Framed_bind addr _ _ cell _ _ (hx arg st cell hu hc) ?_
    intro v st1 hv hu1 hc1
    refine Result.Framed_bind addr _ _ cell _ _ (ih st1 cell hu1 hc1) ?_
    intro vs st2 hvs hu2 hc2
    refine ⟨?_, hu2, hc2⟩
    intro w hw
    rcases List.mem_cons.1 hw with hw1 | hw1
    · subst hw1
      exact hv
    · exact hvs w hw1

theorem ExecuteStatements_framed (addr : Nat) (exec : Statement → State → Result ObjectHolder)
    (hx : ExecFramed addr exec) :
    ∀ (l : List Statement) (st : State) (cell : Option (Option ClassInstance)),
      State.Unreached addr st → st.heap.get? addr = cell →
      (ExecuteStatements exec l st).Framed addr (fun value => value ≠ .inst addr) cell := by
  intro l
  induction l with
  | nil =>
    intro st cell hu hc
    exact ⟨fun h => (by cases h), hu, hc⟩
  | cons child rest ih =>
    intro st cell hu hc
    simp only [ExecuteStatements]
    refine Result.Framed_bind addr _ _ cell _ _ (hx child st cell hu hc) ?_
    intro ret st1 hv hu1 hc1
    cases hb : (child.checkForReturn && ret.Get) with
    | true =>
      simp only [if_true]
      exact ⟨hv, hu1, hc1⟩
    | false =>
      simp only [Bool.false_eq_true, if_false]
      exact ih st1 cell hu1 hc1

theorem Call_framed (addr : Nat) (exec : Statement → State → Result ObjectHolder)
    (hx : ExecFramed addr exec) (self : Nat) (name : String) (args : List ObjectHolder)
    (st : State) (cell : Option (Option ClassInstance))
    (hs : self ≠ addr) (hargs : ∀ v ∈ args, v ≠ ObjectHolder.inst addr)
    (hu : State.Unreached addr st) (hc : st.heap.get? addr = cell) :
    (ClassInstance.Call exec self name args st).Framed addr
      (fun value => value ≠ .inst addr) cell := by
  unfold ClassInstance.Call
  cases hd : Heap.deref st.heap self with
  | none => trivial
  | some instance_ =>
    simp only
    cases hh : instance_.HasMethod name args.length with
    | false =>
      simp only [Bool.false_eq_true, if_false]
      exact ⟨hu, hc⟩
    | true =>
      simp only [if_true]
      cases hm : instance_.cls.GetMethod name with
      | none => trivial
      | some method =>
        simp only
        refine Result.Framed_leave addr _ cell _ _ hu.2.1 ?_
        exact hx _ _ cell ⟨hu.1, callClosure_avoids addr self method args hs hargs, hu.2.2⟩ hc
theorem ObjectPrint_framed (addr : Nat) (exec : Statement → State → Result ObjectHolder)
    (hx : ExecFramed addr exec) :
    ∀ (fuel : Nat) (obj : ObjectHolder) (st : State) (cell : Option (Option ClassInstance)),
      obj ≠ .inst addr → State.Unreached addr st → st.heap.get? addr = cell →
      (ObjectPrint exec fuel obj st).Framed addr (fun _ => True) cell := by
  intro fuel
  induction fuel with
  | zero =>
    intro obj st cell ho hu hc
    cases obj with
    | inst other =>
      simp only [ObjectPrint]
      trivial
    | None => trivial
    | string v => exact ⟨trivial, hu, hc⟩
    | number v => exact ⟨trivial, hu, hc⟩
    | bool v => exact ⟨trivial, hu, hc⟩
    | cls c => exact ⟨trivial, hu, hc⟩
  | succ k ih =>
    intro obj st cell ho hu hc
    cases obj with
    | inst other =>
      simp only [ObjectPrint]
      cases hd : Heap.deref st.heap other with
      | none => trivial
      | some instance_ =>
        simp only
        cases hh : instance_.HasMethod "__str__" 0 with
        | false =>
          simp only [Bool.false_eq_true, if_false]
          exact ⟨trivial, hu, hc⟩
        | true =>
          simp only [if_true]
          refine Result.Framed_bind addr _ _ cell _ _
            (Call_framed addr exec hx other "__str__" [] st cell
              (fun h => ho (by rw [h])) (fun v hv => by cases hv) hu hc) ?_
          intro res st1 hres hu1 hc1
          exact ih res st1 cell hres hu1 hc1
    | None => trivial
    | string v => exact ⟨trivial, hu, hc⟩
    | number v => exact ⟨trivial, hu, hc⟩
    | bool v => exact ⟨trivial, hu, hc⟩
    | cls c => exact ⟨trivial, hu, hc⟩

theorem PrintArgs_framed (addr : Nat) (exec : Statement → State → Result ObjectHolder)
    (hx : ExecFramed addr exec) (fuel : Nat) :
    ∀ (args : List Statement) (first : Bool) (st : State)
      (cell : Option (Option ClassInstance)),
      State.Unreached addr st → st.heap.get? addr = cell →
      (PrintArgs exec fuel args first st).Framed addr (fun _ => True) cell := by
  intro args
  induction args with
  | nil =>
    intro first st cell hu hc
    exact ⟨trivial, hu, hc⟩
  | cons arg rest ih =>
    intro first st cell hu hc
    simp only [PrintArgs]
    have hstart : (exec arg (if first = true then st else st.write " ")).Framed addr
        (fun value => value ≠ .inst addr) cell := by
      cases first
      · exact hx arg (st.write " ") cell hu hc
      · exact hx arg st cell hu hc
    refine Result.Framed_bind addr _ _ cell _ _ hstart ?_
    intro obj st1 hobj hu1 hc1
    have hprint : ((ObjectPrint exec fuel obj st1).bind fun text st2 =>
          PrintArgs exec fuel rest false (st2.write text)).Framed addr (fun _ => True) cell :=
      Result.Framed_bind addr _ _ cell _ _
        (ObjectPrint_framed addr exec hx fuel obj st1 cell hobj hu1 hc1)
        (fun text st2 _ hu2 hc2 => ih false (st2.write text) cell hu2 hc2)
    cases obj with
    | None => exact ih false (st1.write "None") cell hu1 hc1
    | string v => exact hprint
    | number v => exact hprint
    | bool v => exact hprint
    | cls c => exact hprint
    | inst other => exact hprint

theorem dispatchOperator_framed (addr : Nat) (exec : Statement → State → Result ObjectHolder)
    (hx : ExecFramed addr exec) (name what : String) (obj1 obj2 : ObjectHolder) (st : State)
    (cell : Option (Option ClassInstance))
    (h1 : obj1 ≠ .inst addr) (h2 : obj2 ≠ .inst addr)
    (hu : State.Unreached addr st) (hc : st.heap.get? addr = cell) :
    (dispatchOperator exec name what obj1 obj2 st).Framed addr
      (fun value => value ≠ .inst addr) cell := by
  unfold dispatchOperator
  cases obj1 with
  | inst other =>
    simp only
    cases hd : Heap.deref st.heap other with
    | none => trivial
    | some v1 =>
      simp only
      cases hh : v1.HasMethod name 1 with
      | false =>
        simp only [Bool.false_eq_true, if_false]
        exact ⟨hu, hc⟩
      | true =>
        simp only [if_true]
        refine Call_framed addr exec hx other name [obj2] st cell
          (fun h => h1 (by rw [h])) ?_ hu hc
        intro v hv
        rw [List.mem_singleton.1 hv]
        exact h2
  | None => exact ⟨hu, hc⟩
  | string v => exact ⟨hu, hc⟩
  | number v => exact ⟨hu, hc⟩
  | bool v => exact ⟨hu, hc⟩
  | cls c => exact ⟨hu, hc⟩

theorem accumulateFields_framed (addr : Nat) (names : List String) :
    ∀ (value : ObjectHolder) (st : State) (cell : Option (Option ClassInstance)),
      value ≠ .inst addr → State.Unreached addr st → st.heap.get? addr = cell →
      (accumulateFields names value st).Framed addr (fun v => v ≠ .inst addr) cell := by
  induction names with
  | nil =>
    intro value st cell hv hu hc
    exact ⟨hv, hu, hc⟩
  | cons name rest ih =>
    intro value st cell hv hu hc
    cases value with
    | inst other =>
      simp only [accumulateFields]
      cases hd : Heap.deref st.heap other with
      | none => trivial
      | some instance_ =>
        simp only
        cases hf : Closure.find instance_.fields name with
        | none => exact ⟨hu, hc⟩
        | some field =>
          exact ih field st cell (Closure.avoids_find (Heap.avoids_deref hu.2.2 hd) hf) hu hc
    | None => trivial
    | string v => trivial
    | number v => trivial
    | bool v => trivial
    | cls c => trivial

theorem VariableValueExecute_framed (addr : Nat) (ids : List String) (st : State)
    (cell : Option (Option ClassInstance)) (hu : State.Unreached addr st)
    (hc : st.heap.get? addr = cell) :
    (VariableValueExecute ids st).Framed addr (fun v => v ≠ .inst addr) cell := by
  cases ids with
  | nil => trivial
  | cons x0 rest =>
    simp only [VariableValueExecute]
    cases hf : Closure.find st.closure x0 with
    | none => exact ⟨hu, hc⟩
    | some v0 =>
      exact accumulateFields_framed addr rest v0 st cell (Closure.avoids_find hu.2.1 hf) hu hc

theorem storeField_framed (addr other : Nat) (st : State) (instance_ : ClassInstance)
    (field_name : String) (value : ObjectHolder) (cell : Option (Option ClassInstance))
    (ho : other ≠ addr) (hv : value ≠ .inst addr)
    (hd : Heap.deref st.heap other = some instance_)
    (hu : State.Unreached addr st) (hc : st.heap.get? addr = cell) :
    State.Unreached addr
        { st with heap := storeField st.heap other instance_ field_name value } ∧
      (storeField st.heap other instance_ field_name value).get? addr = cell := by
  unfold storeField
  refine ⟨⟨?_, hu.2.1, ?_⟩, ?_⟩
  · simp only [List.length_set]
    exact hu.1
  · refine Heap.avoids_update hu.2.2 other _ ?_
    intro found hfound
    cases hfound
    exact Closure.avoids_set (Heap.avoids_deref hu.2.2 hd) _ _ hv
  · rw [List.get?_eq_getElem?, List.getElem?_set_ne ho, ← List.get?_eq_getElem?]
    exact hc

theorem moveInstance_framed (addr temp : Nat) (st : State)
    (cell : Option (Option ClassInstance)) (ht : temp ≠ addr)
    (hu : State.Unreached addr st) (hc : st.heap.get? addr = cell) :
    (dropInstance temp (moveInstance temp st)).Framed addr
      (fun value => value ≠ .inst addr) cell := by
  unfold moveInstance
  cases hd : Heap.deref st.heap temp with
  | none => trivial
  | some instance_ =>
    refine ⟨?_, ⟨?_, hu.2.1, ?_⟩, ?_⟩
    · intro h
      cases h
      exact Nat.lt_irrefl _ hu.1
    · simp only [List.length_append, List.length_set, List.length_singleton]
      exact Nat.lt_succ_of_lt hu.1
    · refine Heap.avoids_append (Heap.avoids_update hu.2.2 temp none ?_) _ ?_
      · intro found hfound
        cases hfound
      · intro found hfound
        cases hfound
        exact Heap.avoids_deref hu.2.2 hd
    · show (st.heap.set temp none ++ [some instance_]).get? addr = cell
      rw [List.get?_eq_getElem?,
        List.getElem?_append_left (by rw [List.length_set]; exact hu.1),
        List.getElem?_set_ne ht, ← List.get?_eq_getElem?]
      exact hc

theorem dropInstance_throw_framed (addr temp : Nat) (e : Exception) (st : State)
    (cell : Option (Option ClassInstance)) (ht : temp ≠ addr)
    (hu : State.Unreached addr st) (hc : st.heap.get? addr = cell) :
    (dropInstance temp (Result.throw e st : Result ObjectHolder)).Framed addr
      (fun value => value ≠ .inst addr) cell := by
  refine ⟨⟨?_, hu.2.1, ?_⟩, ?_⟩
  · show addr < (st.heap.set temp none).length
    rw [List.length_set]
    exact hu.1
  · refine Heap.avoids_update hu.2.2 temp none ?_
    intro found hfound
    cases hfound
  · show (st.heap.set temp none).get? addr = cell
    rw [List.get?_eq_getElem?, List.getElem?_set_ne ht, ← List.get?_eq_getElem?]
    exact hc
theorem Constant.toObject_ne_inst (c : Constant) (addr : Nat) : c.toObject ≠ .inst addr := by
  cases c <;> intro h <;> cases h

theorem Execute_framed (cmp : Comparators) (addr : Nat) :
    ∀ fuel : Nat, ExecFramed addr (Execute cmp fuel) := by
  intro fuel
  induction fuel with
  | zero =>
    intro s st cell hu hc
    rw [Execute]
    trivial
  | succ n ih =>
    intro s st cell hu hc
    have hbool : ∀ (b : Bool) (s2 : State), State.Unreached addr s2 → s2.heap.get? addr = cell →
        (Result.ok (ObjectHolder.bool b) s2).Framed addr (fun value => value ≠ .inst addr) cell :=
      fun b s2 h2 c2 => ⟨fun h => (by cases h), h2, c2⟩
    cases s with
    | Literal value =>
      simp only [Execute]
      exact ⟨Constant.toObject_ne_inst value addr, hu, hc⟩
    | Assignment var_name right_value =>
      simp only [Execute]
      refine Result.Framed_bind addr _ _ cell _ _ (ih _ _ cell hu hc) ?_
      intro v st1 hv hu1 hc1
      exact ⟨hv, ⟨hu1.1, Closure.avoids_set hu1.2.1 _ _ hv, hu1.2.2⟩, hc1⟩
    | VariableValue dotted_ids =>
      simp only [Execute]
      exact VariableValueExecute_framed addr _ st cell hu hc
    | Print args =>
      simp only [Execute]
      refine Result.Framed_bind addr _ _ cell _ _
        (PrintArgs_framed addr _ ih n args true st cell hu hc) ?_
      intro _ st1 _ hu1 hc1
      exact ⟨fun h => (by cases h), hu1, hc1⟩
    | MethodCall object method args =>
      simp only [Execute]
      refine Result.Framed_bind addr _ _ cell _ _ (ih _ _ cell hu hc) ?_
      intro obj st1 hobj hu1 hc1
      cases obj with
      | inst other =>
        refine Result.Framed_bind addr _ _ cell _ _
          (ExecuteArgs_framed addr _ ih args st1 cell hu1 hc1) ?_
        intro actual st2 hact hu2 hc2
        cases hh : st2.holds other with
        | true =>
          simp only [hh, if_true]
          exact Call_framed addr _ ih other method actual st2 cell
            (fun h => hobj (by rw [h])) hact hu2 hc2
        | false =>
          simp only [hh, Bool.false_eq_true, if_false]
          trivial
      | None => exact ⟨hu1, hc1⟩
      | string v => exact ⟨hu1, hc1⟩
      | number v => exact ⟨hu1, hc1⟩
      | bool v => exact ⟨hu1, hc1⟩
      | cls c => exact ⟨hu1, hc1⟩
    | Stringify argument =>
      simp only [Execute]
      refine Result.Framed_bind addr _ _ cell _ _ (ih _ _ cell hu hc) ?_
      intro obj st1 hobj hu1 hc1
      refine Result.Framed_bind addr _ _ cell _ _
        (ObjectPrint_framed addr _ ih n obj st1 cell hobj hu1 hc1) ?_
      intro text st2 _ hu2 hc2
      exact ⟨fun h => (by cases h), hu2, hc2⟩
    | Add lhs rhs =>
      simp only [Execute]
      refine Result.Framed_bind addr _ _ cell _ _ (ih _ _ cell hu hc) ?_
      intro obj1 st1 h1 hu1 hc1
      refine Result.Framed_bind addr _ _ cell _ _ (ih _ _ cell hu1 hc1) ?_
      intro obj2 st2 h2 hu2 hc2
      cases obj1 <;> cases obj2 <;>
        first
          | exact dispatchOperator_framed addr _ ih _ _ _ _ st2 cell h1 h2 hu2 hc2
          | exact ⟨fun h => (by cases h), hu2, hc2⟩
    | Sub lhs rhs =>
      simp only [Execute]
      refine Result.Framed_bind addr _ _ cell _ _ (ih _ _ cell hu hc) ?_
      intro obj1 st1 h1 hu1 hc1
      refine Result.Framed_bind addr _ _ cell _ _ (ih _ _ cell hu1 hc1) ?_
      intro obj2 st2 h2 hu2 hc2
      cases obj1 <;> cases obj2 <;>
        first
          | exact dispatchOperator_framed addr _ ih _ _ _ _ st2 cell h1 h2 hu2 hc2
          | exact ⟨fun h => (by cases h), hu2, hc2⟩
    | Mult lhs rhs =>
      simp only [Execute]
      refine Result.Framed_bind addr _ _ cell _ _ (ih _ _ cell hu hc) ?_
      intro obj1 st1 h1 hu1 hc1
      refine Result.Framed_bind addr _ _ cell _ _ (ih _ _ cell hu1 hc1) ?_
      intro obj2 st2 h2 hu2 hc2
      cases obj1 <;> cases obj2 <;>
        first
          | exact dispatchOperator_framed addr _ ih _ _ _ _ st2 cell h1 h2 hu2 hc2
          | exact ⟨fun h => (by cases h), hu2, hc2⟩
    | Div lhs rhs =>
      simp only [Execute]
      refine Result.Framed_bind addr _ _ cell _ _ (ih _ _ cell hu hc) ?_
      intro obj1 st1 h1 hu1 hc1
      refine Result.Framed_bind addr _ _ cell _ _ (ih _ _ cell hu1 hc1) ?_
      intro obj2 st2 h2 hu2 hc2
      cases obj1 <;> cases obj2 <;>
        first
          | exact dispatchOperator_framed addr _ ih _ _ _ _ st2 cell h1 h2 hu2 hc2
          | (simp only []
             split
             · exact ⟨hu2, hc2⟩
             · split
               · exact ⟨fun h => (by cases h), hu2, hc2⟩
               · trivial)
    | Compound statements =>
      simp only [Execute]
      exact ExecuteStatements_framed addr _ ih _ st cell hu hc
    | Return statement =>
      simp only [Execute]
      exact ih _ _ cell hu hc
    | ClassDefinition cls =>
      simp only [Execute]
      split
      · exact ⟨hu, hc⟩
      · exact ⟨fun h => (by cases h),
          ⟨hu.1, Closure.avoids_set hu.2.1 _ _ (fun h => (by cases h)), hu.2.2⟩, hc⟩
    | FieldAssignment object field_name right_value =>
      simp only [Execute]
      refine Result.Framed_bind addr _ _ cell _ _
        (VariableValueExecute_framed addr _ st cell hu hc) ?_
      intro obj st1 hobj hu1 hc1
      refine Result.Framed_bind addr _ _ cell _ _ (ih _ _ cell hu1 hc1) ?_
      intro right_obj st2 hright hu2 hc2
      cases obj with
      | inst other =>
        simp only
        cases hd : Heap.deref st2.heap other with
        | none => trivial
        | some instance_ =>
          have hstore := storeField_framed addr other st2 instance_ field_name right_obj cell
            (fun h => hobj (by rw [h])) hright hd hu2 hc2
          cases right_obj with
          | None => trivial
          | string v => exact ⟨hright, hstore.1, hstore.2⟩
          | number v => exact ⟨hright, hstore.1, hstore.2⟩
          | bool v => exact ⟨hright, hstore.1, hstore.2⟩
          | cls c => exact ⟨hright, hstore.1, hstore.2⟩
          | inst target => exact ⟨hright, hstore.1, hstore.2⟩
      | None => trivial
      | string v => trivial
      | number v => trivial
      | bool v => trivial
      | cls c => trivial
    | IfElse condition if_body else_body =>
      simp only [Execute]
      refine Result.Framed_bind addr _ _ cell _ _ (ih _ _ cell hu hc) ?_
      intro c st1 _ hu1 hc1
      cases hcond : IsTrue c with
      | true =>
        simp only [if_true]
        exact ih _ _ cell hu1 hc1
      | false =>
        simp only [Bool.false_eq_true, if_false]
        cases else_body with
        | none => exact ⟨fun h => (by cases h), hu1, hc1⟩
        | some body => exact ih _ _ cell hu1 hc1
    | Or lhs rhs =>
      simp only [Execute]
      refine Result.Framed_bind addr _ _ cell _ _ (ih _ _ cell hu hc) ?_
      intro v1 st1 _ hu1 hc1
      cases hcond : IsTrue v1 with
      | true =>
        simp only [if_true]
        exact hbool _ st1 hu1 hc1
      | false =>
        simp only [Bool.false_eq_true, if_false]
        exact Result.Framed_bind addr _ _ cell _ _ (ih _ _ cell hu1 hc1)
          (fun v2 st2 _ hu2 hc2 => hbool _ st2 hu2 hc2)
    | And lhs rhs =>
      simp only [Execute]
      refine Result.Framed_bind addr _ _ cell _ _ (ih _ _ cell hu hc) ?_
      intro v1 st1 _ hu1 hc1
      cases hcond : IsTrue v1 with
      | true =>
        simp only [if_true]
        exact Result.Framed_bind addr _ _ cell _ _ (ih _ _ cell hu1 hc1)
          (fun v2 st2 _ hu2 hc2 => hbool _ st2 hu2 hc2)
      | false =>
        simp only [Bool.false_eq_true, if_false]
        exact hbool _ st1 hu1 hc1
    | Not argument =>
      simp only [Execute]
      exact Result.Framed_bind addr _ _ cell _ _ (ih _ _ cell hu hc)
        (fun v st1 _ hu1 hc1 => hbool _ st1 hu1 hc1)
    | Comparison comparator left right =>
      rw [Execute_Comparison]
      split
      · refine Result.Framed_bind addr _ _ cell _ _ (ih _ _ cell hu hc) ?_
        intro v2 st1 _ hu1 hc1
        exact Result.Framed_bind addr _ _ cell _ _ (ih _ _ cell hu1 hc1)
          (fun v1 st2 _ hu2 hc2 => hbool _ st2 hu2 hc2)
      · refine Result.Framed_bind addr _ _ cell _ _ (ih _ _ cell hu hc) ?_
        intro v1 st1 _ hu1 hc1
        exact Result.Framed_bind addr _ _ cell _ _ (ih _ _ cell hu1 hc1)
          (fun v2 st2 _ hu2 hc2 => hbool _ st2 hu2 hc2)
    | NewInstance class_ args =>
      simp only [Execute]
      have htemp : st.heap.length ≠ addr := Nat.ne_of_gt hu.1
      have hu0 : State.Unreached addr
          { st with heap := st.heap ++ [some { cls := class_, fields := [] }] } := by
        refine ⟨?_, hu.2.1, Heap.avoids_append hu.2.2 _ ?_⟩
        · show addr < (st.heap ++ [some ({ cls := class_, fields := [] } : ClassInstance)]).length
          rw [List.length_append]
          exact Nat.lt_add_right _ hu.1
        · intro found hfound
          cases hfound
          exact Closure.avoids_nil addr
      have hc0 : (st.heap ++ [some ({ cls := class_, fields := [] } : ClassInstance)]).get? addr
          = cell := by
        rw [List.get?_eq_getElem?, List.getElem?_append_left hu.1, ← List.get?_eq_getElem?]
        exact hc
      have hargs := ExecuteArgs_framed addr _ ih args
        { st with heap := st.heap ++ [some { cls := class_, fields := [] }] } cell hu0 hc0
      cases ha : ExecuteArgs (Execute cmp n) args
          { st with heap := st.heap ++ [some { cls := class_, fields := [] }] } with
      | ok actual_args st1 =>
        rw [ha] at hargs
        obtain ⟨hact, hu1, hc1⟩ := hargs
        simp only [Result.bind_ok]
        cases hd : Heap.deref st1.heap st.heap.length with
        | none => trivial
        | some instance_ =>
          simp only
          cases hh : instance_.HasMethod "__init__" actual_args.length with
          | false =>
            simp only [Bool.false_eq_true, if_false]
            exact moveInstance_framed addr _ st1 cell htemp hu1 hc1
          | true =>
            simp only [if_true]
            have hcall := Call_framed addr _ ih st.heap.length "__init__" actual_args st1 cell
              htemp hact hu1 hc1
            cases hcl : ClassInstance.Call (Execute cmp n) st.heap.length "__init__"
                actual_args st1 with
            | ok v st2 =>
              rw [hcl] at hcall
              simp only [Result.bind_ok]
              exact moveInstance_framed addr _ st2 cell htemp hcall.2.1 hcall.2.2
            | throw e st2 =>
              rw [hcl] at hcall
              exact dropInstance_throw_framed addr _ e st2 cell htemp hcall.1 hcall.2
            | undefined => trivial
            | timeout => trivial
      | throw e st1 =>
        rw [ha] at hargs
        exact dropInstance_throw_framed addr _ e st1 cell htemp hargs.1 hargs.2
      | undefined => trivial
      | timeout => trivial

/-! ## Field assignment -/

theorem accumulateFields_append (names : List String) :
    ∀ (more : List String) (value reached : ObjectHolder) (st st1 : State),
      accumulateFields names value st = .ok reached st1 →
      accumulateFields (names ++ more) value st = accumulateFields more reached st := by
  induction names with
  | nil =>
    intro more value reached st st1 h
    simp only [accumulateFields, Result.ok.injEq] at h
    rw [← h.1]
    rfl
  | cons name rest ih =>
    intro more value reached st st1 h
    cases value with
    | inst addr =>
      simp only [accumulateFields, List.cons_append] at h ⊢
      cases hd : Heap.deref st.heap addr with
      | none => simp [hd] at h
      | some instance_ =>
        simp only [hd] at h ⊢
        cases hf : Closure.find instance_.fields name with
        | none => simp [hf] at h
        | some field =>
          simp only [hf] at h ⊢
          exact ih more field reached st st1 h
    | None => simp [accumulateFields] at h
    | string s => simp [accumulateFields] at h
    | number n => simp [accumulateFields] at h
    | bool b => simp [accumulateFields] at h
    | cls c => simp [accumulateFields] at h

theorem VariableValueExecute_append (p more : List String) (reached : ObjectHolder)
    (st st1 : State) (h : VariableValueExecute p st = .ok reached st1) :
    VariableValueExecute (p ++ more) st = accumulateFields more reached st := by
  cases p with
  | nil => simp [VariableValueExecute] at h
  | cons x0 rest =>
    simp only [VariableValueExecute, List.cons_append] at h ⊢
    cases hf : Closure.find st.closure x0 with
    | none => simp [hf] at h
    | some v0 =>
      simp only [hf] at h ⊢
      exact accumulateFields_append rest more v0 reached st st1 h

theorem FieldAssignment_store (cmp : Comparators) (fuel : Nat) (p : List String)
    (f : String) (E : Statement) (st st0 st1 : State) (addr : Nat) (instance_ : ClassInstance)
    (v : ObjectHolder)
    (hp : VariableValueExecute p st = .ok (.inst addr) st0)
    (hE : Execute cmp fuel E st = .ok v st1) (hv : v ≠ .None)
    (hd : Heap.deref st1.heap addr = some instance_) :
    Execute cmp (fuel + 1) (.FieldAssignment p f E) st
      = .ok v { st1 with heap := storeField st1.heap addr instance_ f v } := by
  have hst : st0 = st := (VariableValueExecute_state p st).1 _ _ hp
  subst hst
  rw [Execute_FieldAssignment, hp, Result.bind_ok, hE, Result.bind_ok]
  cases v with
  | None => exact absurd rfl hv
  | string s => simp only [hd]
  | number n => simp only [hd]
  | bool b => simp only [hd]
  | cls c => simp only [hd]
  | inst target => simp only [hd]

/-- Claim C13 fails as stated.  In `exampleLinked` the path `a.b` evaluates to the instance at
address 1, and `a.replace()` evaluates to 7 while it makes `a.b` another instance.
`a.b.f = a.replace()` stores 7 in the field `f` of the instance at address 1 and returns
7, but a following `VariableValue(a.b.f)` does not return 7: it throws, the new `a.b` has
no field `f`. -/
theorem field_round_trip_lost :
    Execute noComparators 1 (.VariableValue ["a", "b"]) exampleLinked
      = .ok (.inst 1) exampleLinked ∧
    (∃ st1 : State,
      Execute noComparators 4 (.MethodCall (.VariableValue ["a"]) "replace" []) exampleLinked
        = .ok (.number 7) st1) ∧
    Execute noComparators 5
        (.FieldAssignment ["a", "b"] "f" (.MethodCall (.VariableValue ["a"]) "replace" []))
        exampleLinked
      = .ok (.number 7) exampleRelinked ∧
    Execute noComparators 1 (.VariableValue ["a", "b", "f"]) exampleRelinked
      = .throw .out_of_range exampleRelinked :=
  ⟨rfl, ⟨_, rfl⟩, rfl, rfl⟩

/-- Claim C13, as the code has it.  When the path `p` evaluates to a live instance and `E`
to a non-empty value `v`, `FieldAssignment(p, f, E)` returns `v` and stores it under `f` in
the field table that instance has after `E`: the other fields and the other instances are
as `E` left them.  A following `VariableValue(p ++ [f])` returns `v` provided `p` still
evaluates to that instance in the state reached. -/
theorem field_assignment_round_trip (cmp : Comparators) (fuel more : Nat) (p : List String)
    (f : String) (E : Statement) (st st0 st1 : State) (addr : Nat) (before : ClassInstance)
    (v : ObjectHolder)
    (hp : VariableValueExecute p st = .ok (.inst addr) st0)
    (hlive : Heap.deref st.heap addr = some before)
    (hE : Execute cmp fuel E st = .ok v st1) (hv : v ≠ .None) :
    ∃ instance_ : ClassInstance,
      Heap.deref st1.heap addr = some instance_ ∧ instance_.cls = before.cls ∧
      Execute cmp (fuel + 1) (.FieldAssignment p f E) st
        = .ok v { st1 with heap := storeField st1.heap addr instance_ f v } ∧
      Heap.deref (storeField st1.heap addr instance_ f v) addr
        = some { instance_ with fields := Closure.set instance_.fields f v } ∧
      Closure.find (Closure.set instance_.fields f v) f = some v ∧
      (∀ g, g ≠ f →
        Closure.find (Closure.set instance_.fields f v) g = Closure.find instance_.fields g) ∧
      (∀ other, other ≠ addr →
        Heap.deref (storeField st1.heap addr instance_ f v) other
          = Heap.deref st1.heap other) ∧
      (∀ st2 : State,
        VariableValueExecute p { st1 with heap := storeField st1.heap addr instance_ f v }
          = .ok (.inst addr) st2 →
        Execute cmp (more + 1) (.VariableValue (p ++ [f]))
            { st1 with heap := storeField st1.heap addr instance_ f v }
          = .ok v { st1 with heap := storeField st1.heap addr instance_ f v }) := by
  have halive := Execute_alive cmp fuel E st
  rw [hE] at halive
  obtain ⟨instance_, hd, hcls⟩ := halive addr before hlive
  have hstored : Heap.deref (storeField st1.heap addr instance_ f v) addr
      = some { instance_ with fields := Closure.set instance_.fields f v } :=
    Heap.deref_set_self _ _ _ (Heap.deref_lt hd)
  refine ⟨instance_, hd, hcls, FieldAssignment_store cmp fuel p f E st st0 st1 addr instance_ v
    hp hE hv hd, hstored, Closure.find_set_self _ _ _,
    fun g hg => Closure.find_set_other _ _ _ _ hg,
    fun other ho => Heap.deref_set_ne _ _ _ _ ho, ?_⟩
  intro st2 hp2
  rw [Execute_VariableValue, VariableValueExecute_append p [f] _ _ _ hp2]
  simp only [accumulateFields, hstored, Closure.find_set_self]

/-- In the example state `obj` is an instance with a field `w`: `obj.f = "b"` returns the
string and a following `VariableValue(obj.f)` gives it back. -/
theorem field_assignment_round_trip_witness :
    ∃ instance_ : ClassInstance,
      Execute noComparators 2 (.FieldAssignment ["obj"] "f" (.Literal (.string "b")))
          exampleMixed
        = .ok (.string "b")
            { exampleMixed with
              heap := storeField exampleMixed.heap 0 instance_ "f" (.string "b") } ∧
      Execute noComparators 1 (.VariableValue (["obj"] ++ ["f"]))
          { exampleMixed with
            heap := storeField exampleMixed.heap 0 instance_ "f" (.string "b") }
        = .ok (.string "b")
            { exampleMixed with
              heap := storeField exampleMixed.heap 0 instance_ "f" (.string "b") } :=
  Exists.elim
    (field_assignment_round_trip noComparators 1 0 ["obj"] "f" (.Literal (.string "b"))
      exampleMixed exampleMixed exampleMixed 0
      { cls := exampleBase, fields := [("w", .number 3)] } (.string "b") rfl rfl rfl
      (fun h => by cases h))
    (fun instance_ h =>
      ⟨instance_, h.2.2.1, h.2.2.2.2.2.2.2
        { exampleMixed with
          heap := storeField exampleMixed.heap 0 instance_ "f" (.string "b") }
        rfl⟩)

/-! ## Construction -/

theorem Execute_NewInstance (cmp : Comparators) (fuel : Nat) (class_ : Class)
    (args : List Statement) (st : State) :
    Execute cmp (fuel + 1) (.NewInstance class_ args) st =
      dropInstance st.heap.length
        ((ExecuteArgs (Execute cmp fuel) args
            { st with heap := st.heap ++ [some { cls := class_, fields := [] }] }).bind
          fun actual_args st1 =>
            match Heap.deref st1.heap st.heap.length with
            | none => .undefined
            | some instance_ =>
              if instance_.HasMethod "__init__" actual_args.length then
                (ClassInstance.Call (Execute cmp fuel) st.heap.length "__init__"
                    actual_args st1).bind fun _ st2 => moveInstance st.heap.length st2
              else moveInstance st.heap.length st1) := by
  rw [Execute]

theorem NewInstance_local_untouched (cmp : Comparators) (fuel : Nat) (class_ : Class)
    (args : List Statement) (st st1 : State) (actual_args : List ObjectHolder)
    (hc : Closure.avoids st.heap.length st.closure)
    (hh : Heap.avoids st.heap.length st.heap)
    (hargs : ExecuteArgs (Execute cmp fuel) args
        { st with heap := st.heap ++ [some { cls := class_, fields := [] }] }
      = .ok actual_args st1) :
    Heap.deref st1.heap st.heap.length = some { cls := class_, fields := [] } := by
  have hu0 : State.Unreached st.heap.length
      { st with heap := st.heap ++ [some { cls := class_, fields := [] }] } := by
    refine ⟨?_, hc, Heap.avoids_append hh _ ?_⟩
    · show st.heap.length
        < (st.heap ++ [some ({ cls := class_, fields := [] } : ClassInstance)]).length
      simp
    · intro found hfound
      cases hfound
      exact Closure.avoids_nil _
  have hframed := ExecuteArgs_framed st.heap.length _ (Execute_framed cmp st.heap.length fuel)
    args _ _ hu0 rfl
  rw [hargs] at hframed
  have hcell := hframed.2.2
  unfold Heap.deref
  rw [hcell, List.get?_eq_getElem?]
  simp

/-- Claim C17 fails as stated.  The `__init__` of `SelfBox` has one formal parameter, `n`
being `self`, and the body `self.v = n`.  `Call` stores the argument under `self`, over the
handle to the instance under construction, so the body writes the field `v` of the
argument: `SelfBox(other)` returns an instance with an empty field table (at address 2; the
local instance at address 1 has ended) and the instance `other` has the field `v`.  With
the argument 7 the body assigns to a field of the number 7, and the null pointer of the
failed downcast is used. -/
theorem new_instance_self_parameter :
    exampleSelfBox.GetMethod "__init__"
      = some (.mk "__init__" ["self"]
          (.FieldAssignment ["self"] "v" (.VariableValue ["self"]))) ∧
    callClosure 1
        (.mk "__init__" ["self"] (.FieldAssignment ["self"] "v" (.VariableValue ["self"])))
        [.inst 0]
      = [("self", .inst 0)] ∧
    Execute noComparators 1 (.VariableValue ["other"]) exampleOther
      = .ok (.inst 0) exampleOther ∧
    Execute noComparators 4 (.NewInstance exampleSelfBox [.VariableValue ["other"]])
        exampleOther
      = .ok (.inst 2)
          { closure := [("other", .inst 0)],
            heap := [some { cls := exampleBase, fields := [("v", .inst 0)] }, none,
              some { cls := exampleSelfBox, fields := [] }],
            output := "" } ∧
    Execute noComparators 4 (.NewInstance exampleSelfBox [.Literal (.number 7)]) State.initial
      = .undefined :=
  ⟨rfl, rfl, rfl, rfl, rfl⟩

/-- Claim C17, as the code has it.  In a state none of whose handles points at the address
the new object gets, let the arguments of `NewInstance` evaluate, left to right, to
`actual_args`.  When the class resolves no `__init__` of that arity, `NewInstance` returns a
handle to a new instance with an empty field table.  When it resolves one, `__init__` is
called on the local instance, its result is dropped, and the instance returned has the
fields the local instance has after the call.  With `__init__(n)` of body `self.v = n`,
where `n` is not `self`, and one non-empty argument value `x`, the instance returned has
the single field `v`, bound to `x`. -/
theorem new_instance_execute (cmp : Comparators) (fuel : Nat) (C : Class)
    (args : List Statement) (st st1 : State) (actual_args : List ObjectHolder)
    (hc : Closure.avoids st.heap.length st.closure)
    (hh : Heap.avoids st.heap.length st.heap)
    (hargs : ExecuteArgs (Execute cmp (fuel + 2)) args
        { st with heap := st.heap ++ [some { cls := C, fields := [] }] }
      = .ok actual_args st1) :
    (ClassInstance.HasMethod { cls := C, fields := [] } "__init__" actual_args.length = false →
      Execute cmp (fuel + 3) (.NewInstance C args) st
        = .ok (.inst st1.heap.length)
            { st1 with
              heap := st1.heap.set st.heap.length none ++ [some { cls := C, fields := [] }] }) ∧
    (ClassInstance.HasMethod { cls := C, fields := [] } "__init__" actual_args.length = true →
      ∀ (r : ObjectHolder) (st2 : State) (local_ : ClassInstance),
        ClassInstance.Call (Execute cmp (fuel + 2)) st.heap.length "__init__" actual_args st1
          = .ok r st2 →
        Heap.deref st2.heap st.heap.length = some local_ →
        Execute cmp (fuel + 3) (.NewInstance C args) st
          = .ok (.inst st2.heap.length)
              { st2 with heap := st2.heap.set st.heap.length none ++ [some local_] }) ∧
    (∀ (method : Method) (n : String) (x : ObjectHolder),
      C.GetMethod "__init__" = some method → method.formal_params = [n] →
      method.body = .FieldAssignment ["self"] "v" (.VariableValue [n]) →
      n ≠ "self" → actual_args = [x] → x ≠ .None →
      Execute cmp (fuel + 3) (.NewInstance C args) st
        = .ok (.inst st1.heap.length)
            { st1 with
              heap := (storeField st1.heap st.heap.length { cls := C, fields := [] } "v" x).set
                  st.heap.length none ++ [some { cls := C, fields := [("v", x)] }] }) := by
  have hlocal := NewInstance_local_untouched cmp (fuel + 2) C args st st1 actual_args hc hh hargs
  have hgeneral : ClassInstance.HasMethod { cls := C, fields := [] } "__init__"
        actual_args.length = true →
      ∀ (r : ObjectHolder) (st2 : State) (local_ : ClassInstance),
        ClassInstance.Call (Execute cmp (fuel + 2)) st.heap.length "__init__" actual_args st1
          = .ok r st2 →
        Heap.deref st2.heap st.heap.length = some local_ →
        Execute cmp (fuel + 3) (.NewInstance C args) st
          = .ok (.inst st2.heap.length)
              { st2 with heap := st2.heap.set st.heap.length none ++ [some local_] } := by
    intro hyes r st2 local_ hcall hd2
    rw [Execute_NewInstance, hargs, Result.bind_ok]
    simp only [hlocal, hyes, if_true, hcall, Result.bind_ok, moveInstance, hd2, dropInstance]
  refine ⟨?_, hgeneral, ?_⟩
  · intro hno
    rw [Execute_NewInstance, hargs, Result.bind_ok]
    simp only [hlocal, hno, Bool.false_eq_true, if_false, moveInstance, dropInstance]
  · intro method n x hm hp hbody hn hx hne
    subst hx
    have hlen : method.formal_params.length = [x].length := by
      rw [hp]
      rfl
    have hyes : ClassInstance.HasMethod { cls := C, fields := [] } "__init__" [x].length
        = true := (HasMethod_eq_true_iff _ _ _).2 ⟨method, hm, hlen⟩
    have hclosure : callClosure st.heap.length method [x]
        = [("self", .inst st.heap.length), (n, x)] := by
      unfold callClosure
      rw [hp]
      simp only [bindArgs, Closure.set]
      rw [if_neg (fun h => hn h.symm)]
    have hstore := FieldAssignment_store cmp (fuel + 1) ["self"] "v" (.VariableValue [n])
      { st1 with closure := callClosure st.heap.length method [x] }
      { st1 with closure := callClosure st.heap.length method [x] }
      { st1 with closure := callClosure st.heap.length method [x] }
      st.heap.length { cls := C, fields := [] } x
      (by
        rw [hclosure]
        simp [VariableValueExecute, Closure.find, accumulateFields])
      (by
        have hsn : ¬ "self" = n := fun h => hn h.symm
        rw [Execute_VariableValue, hclosure]
        simp [VariableValueExecute, Closure.find, accumulateFields, hsn])
      hne hlocal
    have hcall : ClassInstance.Call (Execute cmp (fuel + 2)) st.heap.length "__init__" [x] st1
        = .ok x { st1 with
            heap := storeField st1.heap st.heap.length { cls := C, fields := [] } "v" x } := by
      rw [Call_of_GetMethod _ _ _ "__init__" [x] st1 method hlocal hm hlen, hbody, hstore]
      rfl
    have hd2 : Heap.deref
        (storeField st1.heap st.heap.length { cls := C, fields := [] } "v" x) st.heap.length
        = some { cls := C, fields := [("v", x)] } :=
      Heap.deref_set_self _ _ _ (Heap.deref_lt hlocal)
    have h := hgeneral hyes x _ _ hcall hd2
    rw [h]
    simp only [storeField, List.length_set]

/-- In the initial state `Box(7)` returns a handle to an instance whose only field `v` is 7
(the local instance at address 0 has ended, the instance returned is at address 1), and
`Base(7)`, where `Base` has no `__init__`, returns an instance without a field. -/
theorem new_instance_execute_witness :
    Execute noComparators 3 (.NewInstance exampleBox [.Literal (.number 7)]) State.initial
      = .ok (.inst 1)
          { closure := [], heap := [none, some { cls := exampleBox, fields := [("v", .number 7)] }],
            output := "" } ∧
    Execute noComparators 3 (.NewInstance exampleBase [.Literal (.number 7)]) State.initial
      = .ok (.inst 1)
          { closure := [], heap := [none, some { cls := exampleBase, fields := [] }],
            output := "" } :=
  ⟨(new_instance_execute noComparators 0 exampleBox [.Literal (.number 7)] State.initial
      { closure := [], heap := [some { cls := exampleBox, fields := [] }], output := "" }
      [.number 7] (Closure.avoids_nil 0) (fun _ h => by cases h) rfl).2.2
      (.mk "__init__" ["n"] (.FieldAssignment ["self"] "v" (.VariableValue ["n"]))) "n"
      (.number 7) rfl rfl rfl (by decide) rfl (fun h => by cases h),
   (new_instance_execute noComparators 0 exampleBase [.Literal (.number 7)] State.initial
      { closure := [], heap := [some { cls := exampleBase, fields := [] }], output := "" }
      [.number 7] (Closure.avoids_nil 0) (fun _ h => by cases h) rfl).1 rfl⟩

/-! ## Aliases -/

theorem Closure.mem_of_find (closure : Closure) (x : String) (value : ObjectHolder)
    (h : Closure.find closure x = some value) : ∃ key, (key, value) ∈ closure := by
  induction closure with
  | nil => simp [Closure.find] at h
  | cons p rest ih =>
    obtain ⟨key, old⟩ := p
    unfold Closure.find at h
    by_cases hk : key = x
    · rw [if_pos hk] at h
      cases h
      exact ⟨key, List.mem_cons_self _ _⟩
    · rw [if_neg hk] at h
      obtain ⟨k, hmem⟩ := ih h
      exact ⟨k, List.mem_cons_of_mem _ hmem⟩

theorem Heap.leadsTo_self (heap : Heap) (addr depth : Nat) :
    Heap.leadsTo heap addr depth (.inst addr) = true := by
  cases depth with
  | zero => simp [Heap.leadsTo, ObjectHolder.pointsAt]
  | succ n => simp [Heap.leadsTo, ObjectHolder.pointsAt]

theorem State.holds_of_find (st : State) (x : String) (addr : Nat)
    (h : Closure.find st.closure x = some (.inst addr)) : st.holds addr = true := by
  obtain ⟨key, hmem⟩ := Closure.mem_of_find _ _ _ h
  unfold State.holds
  rw [List.any_eq_true]
  exact ⟨(key, .inst addr), hmem, Heap.leadsTo_self _ _ _⟩

theorem read_stored_field (cmp : Comparators) (more : Nat) (st : State) (addr : Nat)
    (instance_ : ClassInstance) (f z : String) (v : ObjectHolder)
    (hd : Heap.deref st.heap addr = some instance_)
    (hf : Closure.find instance_.fields f = some v)
    (hz : Closure.find st.closure z = some (.inst addr)) :
    Execute cmp (more + 1) (.VariableValue [z, f]) st = .ok v st := by
  rw [Execute_VariableValue]
  simp only [VariableValueExecute, hz, accumulateFields, hd, hf]

theorem MethodCall_on_variable (cmp : Comparators) (fuel : Nat) (addr : Nat) (x m : String)
    (args : List Statement) (method : Method) (st st2 : State) (before : ClassInstance)
    (actual_args : List ObjectHolder)
    (hx : Closure.find st.closure x = some (.inst addr))
    (hd : Heap.deref st.heap addr = some before)
    (hm : before.cls.GetMethod m = some method)
    (hargs : ExecuteArgs (Execute cmp fuel) args st = .ok actual_args st2)
    (hx2 : Closure.find st2.closure x = some (.inst addr))
    (hlen : method.formal_params.length = actual_args.length) :
    Execute cmp (fuel + 1) (.MethodCall (.VariableValue [x]) m args) st =
      Result.leave st2.closure
        (Execute cmp fuel method.body
          { st2 with closure := callClosure addr method actual_args }) := by
  have halive2 := ExecuteArgs_alive _ (Execute_alive cmp fuel) args st
  rw [hargs] at halive2
  obtain ⟨i2, hd2, hc2⟩ := halive2 addr before hd
  have hm2 : i2.cls.GetMethod m = some method := by
    rw [hc2]
    exact hm
  cases fuel with
  | zero =>
    cases args with
    | nil =>
      rw [Execute_MethodCall]
      rfl
    | cons arg rest => simp [ExecuteArgs, Execute, Result.bind] at hargs
  | succ n =>
    rw [Execute_MethodCall, Execute_VariableValue]
    simp only [VariableValueExecute, hx, accumulateFields, Result.bind_ok, hargs,
      State.holds_of_find st2 x addr hx2, if_true]
    exact Call_of_GetMethod _ addr i2 m actual_args st2 method hd2 hm2 hlen

/-- The raw pointer of `MethodCall::Execute`.  A call on an instance no variable leads to
any more has no defined result: so `Base().m(1)`, whose target only the temporary handle
held, and `x.put(x = 5)` where `x` was the only variable bound to the instance.  Where
`keep` is bound to it as well, `x.put(x = 5)` stores 5 in its field `f`. -/
theorem MethodCall_target_lost :
    Execute noComparators 4 (.MethodCall (.NewInstance exampleBase []) "m" [.Literal (.number 1)])
        State.initial
      = .undefined ∧
    Execute noComparators 4
        (.MethodCall (.VariableValue ["x"]) "put" [.Assignment "x" (.Literal (.number 5))])
        exampleAlias
      = .undefined ∧
    Execute noComparators 4
        (.MethodCall (.VariableValue ["x"]) "put" [.Assignment "x" (.Literal (.number 5))])
        exampleShared
      = .ok (.number 5)
          { closure := [("x", .number 5), ("keep", .inst 0), ("other", .inst 1)],
            heap := [some { cls := examplePutter, fields := [("f", .number 5)] },
                     some { cls := examplePutter, fields := [] }],
            output := "" } :=
  ⟨rfl, rfl, rfl⟩

/-- Claim C19 fails as stated.  (a) In a scope where `x` and `keep` are bound to one instance
and `other` to a second one, `x.put(x = other)`, whose method body is `self.f = p`, stores
the value of `p` in the field `f` of the first instance and returns it; the argument has
bound `x` to the second instance, so `VariableValue(["x", "f"])` then throws
`out_of_range`, while `keep.f` reads the value.  (b) Likewise after `y = x` and
`y.f = (x = other)`: the value is read as `y.f`, and `x.f` throws.  (c) Where the method
`put` has the formal parameter `self` and the body `self.f = 7`, `x.put(other)` binds
`self` to the argument: the 7 is stored in `other`, and `x.f` throws. -/
theorem field_write_not_read_through_rebound_name :
    Execute noComparators 4
        (.MethodCall (.VariableValue ["x"]) "put" [.Assignment "x" (.VariableValue ["other"])])
        exampleShared
      = .ok (.inst 1) exampleRebound ∧
    Execute noComparators 1 (.VariableValue ["x", "f"]) exampleRebound
      = .throw .out_of_range exampleRebound ∧
    Execute noComparators 1 (.VariableValue ["keep", "f"]) exampleRebound
      = .ok (.inst 1) exampleRebound ∧
    Execute noComparators 2 (.Assignment "y" (.VariableValue ["x"])) exampleShared
      = .ok (.inst 0)
          { exampleShared with
            closure := [("x", .inst 0), ("keep", .inst 0), ("other", .inst 1), ("y", .inst 0)] } ∧
    Execute noComparators 3
        (.FieldAssignment ["y"] "f" (.Assignment "x" (.VariableValue ["other"])))
        { exampleShared with
          closure := [("x", .inst 0), ("keep", .inst 0), ("other", .inst 1), ("y", .inst 0)] }
      = .ok (.inst 1)
          { exampleRebound with
            closure := [("x", .inst 1), ("keep", .inst 0), ("other", .inst 1), ("y", .inst 0)] } ∧
    Execute noComparators 1 (.VariableValue ["x", "f"])
        { exampleRebound with
          closure := [("x", .inst 1), ("keep", .inst 0), ("other", .inst 1), ("y", .inst 0)] }
      = .throw .out_of_range
          { exampleRebound with
            closure := [("x", .inst 1), ("keep", .inst 0), ("other", .inst 1), ("y", .inst 0)] } ∧
    Execute noComparators 1 (.VariableValue ["y", "f"])
        { exampleRebound with
          closure := [("x", .inst 1), ("keep", .inst 0), ("other", .inst 1), ("y", .inst 0)] }
      = .ok (.inst 1)
          { exampleRebound with
            closure := [("x", .inst 1), ("keep", .inst 0), ("other", .inst 1), ("y", .inst 0)] } ∧
    Execute noComparators 4 (.MethodCall (.VariableValue ["x"]) "put" [.VariableValue ["other"]])
        exampleSelfShared
      = .ok (.number 7) exampleSelfWritten ∧
    Execute noComparators 1 (.VariableValue ["x", "f"]) exampleSelfWritten
      = .throw .out_of_range exampleSelfWritten ∧
    Execute noComparators 1 (.VariableValue ["other", "f"]) exampleSelfWritten
      = .ok (.number 7) exampleSelfWritten :=
  ⟨rfl, rfl, rfl, rfl, rfl, rfl, rfl, rfl, rfl, rfl⟩

/-- Claim C19, as the code has it.  Let `x` be bound to an instance.
(a) When the arguments of `x.m(args)` evaluate and leave `x` bound to the instance, and `m`
resolves to a method with as many parameters whose body returns, the call returns what the
body returns and every field the instance has when the body ends is read through `x` in the
caller's scope: the body worked on the instance itself.  With a body `self.f = E`, no
parameter called `self` and `E` evaluating to a non-empty value `v`, `self` is bound to the
instance, the call returns `v`, and `x.f`, like `z.f` for every `z` bound to the instance,
reads `v`.
(b) `y = x` binds `y` to the same instance and changes no instance; when, after it, `E`
evaluates to a non-empty value `v` and leaves `x` bound to the instance, `y.f = E` returns
`v`, and `x.f`, like `z.f` for every `z` bound to the instance, reads `v`. -/
theorem field_write_visible_through_aliases (cmp : Comparators) (fuel more : Nat)
    (addr : Nat) (x : String) (st : State) (before : ClassInstance)
    (hx : Closure.find st.closure x = some (.inst addr))
    (hd : Heap.deref st.heap addr = some before) :
    (∀ (m : String) (args : List Statement) (method : Method) (st2 st3 : State)
        (actual_args : List ObjectHolder) (r : ObjectHolder),
      before.cls.GetMethod m = some method →
      ExecuteArgs (Execute cmp (fuel + 1)) args st = .ok actual_args st2 →
      Closure.find st2.closure x = some (.inst addr) →
      method.formal_params.length = actual_args.length →
      Execute cmp (fuel + 1) method.body
          { st2 with closure := callClosure addr method actual_args } = .ok r st3 →
      Execute cmp (fuel + 2) (.MethodCall (.VariableValue [x]) m args) st
        = .ok r { st3 with closure := st2.closure } ∧
      ∃ after, Heap.deref st3.heap addr = some after ∧
        ∀ (g : String) (w : ObjectHolder), Closure.find after.fields g = some w →
          Execute cmp (more + 1) (.VariableValue [x, g]) { st3 with closure := st2.closure }
            = .ok w { st3 with closure := st2.closure }) ∧
    (∀ (m f : String) (E : Statement) (args : List Statement) (method : Method)
        (st2 st3 : State) (actual_args : List ObjectHolder) (v : ObjectHolder),
      before.cls.GetMethod m = some method → "self" ∉ method.formal_params →
      method.body = .FieldAssignment ["self"] f E →
      ExecuteArgs (Execute cmp (fuel + 1)) args st = .ok actual_args st2 →
      Closure.find st2.closure x = some (.inst addr) →
      method.formal_params.length = actual_args.length →
      Execute cmp fuel E { st2 with closure := callClosure addr method actual_args }
        = .ok v st3 →
      v ≠ .None →
      Closure.find (callClosure addr method actual_args) "self" = some (.inst addr) ∧
      ∃ st4 : State,
        Execute cmp (fuel + 2) (.MethodCall (.VariableValue [x]) m args) st = .ok v st4 ∧
        st4.closure = st2.closure ∧
        Execute cmp (more + 1) (.VariableValue [x, f]) st4 = .ok v st4 ∧
        ∀ z, Closure.find st4.closure z = some (.inst addr) →
          Execute cmp (more + 1) (.VariableValue [z, f]) st4 = .ok v st4) ∧
    (∀ (y f : String) (E : Statement) (st2 : State) (v : ObjectHolder),
      Execute cmp fuel E { st with closure := Closure.set st.closure y (.inst addr) }
        = .ok v st2 →
      v ≠ .None →
      Closure.find st2.closure x = some (.inst addr) →
      Execute cmp (more + 2) (.Assignment y (.VariableValue [x])) st
        = .ok (.inst addr) { st with closure := Closure.set st.closure y (.inst addr) } ∧
      ∃ st3 : State,
        Execute cmp (fuel + 1) (.FieldAssignment [y] f E)
            { st with closure := Closure.set st.closure y (.inst addr) }
          = .ok v st3 ∧
        st3.closure = st2.closure ∧
        Execute cmp (more + 1) (.VariableValue [x, f]) st3 = .ok v st3 ∧
        ∀ z, Closure.find st3.closure z = some (.inst addr) →
          Execute cmp (more + 1) (.VariableValue [z, f]) st3 = .ok v st3) := by
  refine ⟨?_, ?_, ?_⟩
  · intro m args method st2 st3 actual_args r hm hargs hx2 hlen hbody
    have hcall := MethodCall_on_variable cmp (fuel + 1) addr x m args method st st2 before
      actual_args hx hd hm hargs hx2 hlen
    have halive2 := ExecuteArgs_alive _ (Execute_alive cmp (fuel + 1)) args st
    rw [hargs] at halive2
    obtain ⟨i2, hd2, _⟩ := halive2 addr before hd
    have halive3 := Execute_alive cmp (fuel + 1) method.body
      { st2 with closure := callClosure addr method actual_args }
    rw [hbody] at halive3
    obtain ⟨after, hd3, _⟩ := halive3 addr i2 hd2
    refine ⟨?_, after, hd3, ?_⟩
    · rw [hcall, hbody]
      rfl
    · intro g w hg
      exact read_stored_field cmp more { st3 with closure := st2.closure } addr after g x w
        hd3 hg hx2
  · intro m f E args method st2 st3 actual_args v hm hself hbody hargs hx2 hlen hE hv
    have hfself : Closure.find (callClosure addr method actual_args) "self"
        = some (.inst addr) := by
      unfold callClosure
      rw [bindArgs_find_of_not_mem _ _ _ _ hself]
      exact Closure.find_set_self _ _ _
    refine ⟨hfself, ?_⟩
    have hcall := MethodCall_on_variable cmp (fuel + 1) addr x m args method st st2 before
      actual_args hx hd hm hargs hx2 hlen
    have halive2 := ExecuteArgs_alive _ (Execute_alive cmp (fuel + 1)) args st
    rw [hargs] at halive2
    obtain ⟨i2, hd2, _⟩ := halive2 addr before hd
    have halive3 := Execute_alive cmp fuel E
      { st2 with closure := callClosure addr method actual_args }
    rw [hE] at halive3
    obtain ⟨i3, hd3, _⟩ := halive3 addr i2 hd2
    have hstore := FieldAssignment_store cmp fuel ["self"] f E
      { st2 with closure := callClosure addr method actual_args }
      { st2 with closure := callClosure addr method actual_args } st3 addr i3 v
      (by simp only [VariableValueExecute, hfself, accumulateFields]) hE hv hd3
    have hread : ∀ z, Closure.find st2.closure z = some (.inst addr) →
        Execute cmp (more + 1) (.VariableValue [z, f])
            { st3 with closure := st2.closure, heap := storeField st3.heap addr i3 f v }
          = .ok v { st3 with closure := st2.closure, heap := storeField st3.heap addr i3 f v } :=
      fun z hz => read_stored_field cmp more _ addr
        { i3 with fields := Closure.set i3.fields f v } f z v
        (Heap.deref_set_self _ _ _ (Heap.deref_lt hd3)) (Closure.find_set_self _ _ _) hz
    refine ⟨{ st3 with closure := st2.closure, heap := storeField st3.heap addr i3 f v },
      ?_, rfl, hread x hx2, hread⟩
    rw [hcall, hbody, hstore]
    rfl
  · intro y f E st2 v hE hv hx2
    constructor
    · rw [Execute_Assignment, Execute_VariableValue]
      simp only [VariableValueExecute, hx, accumulateFields, Result.bind_ok]
    · have halive := Execute_alive cmp fuel E
        { st with closure := Closure.set st.closure y (.inst addr) }
      rw [hE] at halive
      obtain ⟨i2, hd2, _⟩ := halive addr before hd
      have hstore := FieldAssignment_store cmp fuel [y] f E
        { st with closure := Closure.set st.closure y (.inst addr) }
        { st with closure := Closure.set st.closure y (.inst addr) } st2 addr i2 v
        (by simp only [VariableValueExecute, Closure.find_set_self, accumulateFields]) hE hv hd2
      have hread : ∀ z, Closure.find st2.closure z = some (.inst addr) →
          Execute cmp (more + 1) (.VariableValue [z, f])
              { st2 with heap := storeField st2.heap addr i2 f v }
            = .ok v { st2 with heap := storeField st2.heap addr i2 f v } :=
        fun z hz => read_stored_field cmp more _ addr
          { i2 with fields := Closure.set i2.fields f v } f z v
          (Heap.deref_set_self _ _ _ (Heap.deref_lt hd2)) (Closure.find_set_self _ _ _) hz
      exact ⟨{ st2 with heap := storeField st2.heap addr i2 f v }, hstore, rfl,
        hread x hx2, hread⟩

/-- Where `x` is an instance of `Putter`: after `x.put(5)`, whose body is `self.f = p`, the
field `x.f` is 5; after `y = x` and `y.f = 6` the field `x.f` is 6; and `x.put(5)` returns
what the body of `put` returns, in the caller's scope. -/
theorem field_write_visible_through_aliases_witness :
    (∃ st4 : State,
      Execute noComparators 3 (.MethodCall (.VariableValue ["x"]) "put" [.Literal (.number 5)])
          exampleAlias = .ok (.number 5) st4 ∧
      Execute noComparators 1 (.VariableValue ["x", "f"]) st4 = .ok (.number 5) st4) ∧
    (∃ st3 : State,
      Execute noComparators 2 (.FieldAssignment ["y"] "f" (.Literal (.number 6)))
          { exampleAlias with closure := Closure.set exampleAlias.closure "y" (.inst 0) }
        = .ok (.number 6) st3 ∧
      Execute noComparators 1 (.VariableValue ["x", "f"]) st3 = .ok (.number 6) st3) ∧
    Execute noComparators 3 (.MethodCall (.VariableValue ["x"]) "put" [.Literal (.number 5)])
        exampleAlias
      = .ok (.number 5)
          { closure := [("x", .inst 0)],
            heap := [some { cls := examplePutter, fields := [("f", .number 5)] }],
            output := "" } :=
  ⟨Exists.elim
      (((field_write_visible_through_aliases noComparators 1 0 0 "x" exampleAlias
          { cls := examplePutter, fields := [] } rfl rfl).2.1
        "put" "f" (.VariableValue ["p"]) [.Literal (.number 5)]
        (.mk "put" ["p"] (.FieldAssignment ["self"] "f" (.VariableValue ["p"])))
        exampleAlias
        { exampleAlias with closure := [("self", .inst 0), ("p", .number 5)] }
        [.number 5] (.number 5)
        rfl (by simp [Method.formal_params]) rfl rfl rfl rfl rfl (fun h => by cases h)).2)
      (fun st4 h => ⟨st4, h.1, h.2.2.1⟩),
   Exists.elim
      (((field_write_visible_through_aliases noComparators 1 0 0 "x" exampleAlias
          { cls := examplePutter, fields := [] } rfl rfl).2.2
        "y" "f" (.Literal (.number 6))
        { exampleAlias with closure := Closure.set exampleAlias.closure "y" (.inst 0) }
        (.number 6) rfl (fun h => by cases h) rfl).2)
      (fun st3 h => ⟨st3, h.1, h.2.2.1⟩),
   ((field_write_visible_through_aliases noComparators 1 0 0 "x" exampleAlias
        { cls := examplePutter, fields := [] } rfl rfl).1
      "put" [.Literal (.number 5)]
      (.mk "put" ["p"] (.FieldAssignment ["self"] "f" (.VariableValue ["p"])))
      exampleAlias
      { closure := [("self", .inst 0), ("p", .number 5)],
        heap := [some { cls := examplePutter, fields := [("f", .number 5)] }],
        output := "" }
      [.number 5] (.number 5) rfl rfl rfl rfl rfl).1⟩

/-! ## Printing -/

theorem Execute_Print (cmp : Comparators) (fuel : Nat) (args : List Statement) (st : State) :
    Execute cmp (fuel + 1) (.Print args) st =
      (PrintArgs (Execute cmp fuel) fuel args true st).bind fun _ st1 =>
        .ok .None (st1.write "\n") := by
  rw [Execute]

theorem ObjectPrint_renderValue (exec : Statement → State → Result ObjectHolder) (fuel : Nat)
    (value : ObjectHolder) (text : String) (st : State)
    (hr : renderValue value = some text) (hv : value ≠ .None) :
    ObjectPrint exec fuel value st = .ok text st := by
  cases value with
  | None => exact absurd rfl hv
  | inst addr => simp [renderValue] at hr
  | string v =>
    simp only [renderValue, Option.some.injEq] at hr
    subst hr
    cases fuel <;> rfl
  | number v =>
    simp only [renderValue, Option.some.injEq] at hr
    subst hr
    cases fuel <;> rfl
  | bool v =>
    simp only [renderValue, Option.some.injEq] at hr
    subst hr
    cases fuel <;> rfl
  | cls c =>
    simp only [renderValue, Option.some.injEq] at hr
    subst hr
    cases fuel <;> rfl

theorem PrintArgs_quiet (exec : Statement → State → Result ObjectHolder) (fuel : Nat) :
    ∀ (args : List Statement) (closure : Closure) (heap : Heap) (texts : List String)
      (closure2 : Closure) (heap2 : Heap) (out : String),
      rendersQuietly exec fuel args closure heap texts closure2 heap2 →
      PrintArgs exec fuel args false { closure := closure, heap := heap, output := out }
          = .ok () { closure := closure2, heap := heap2, output := out ++ spaced texts } ∧
      PrintArgs exec fuel args true { closure := closure, heap := heap, output := out }
          = .ok ()
            { closure := closure2, heap := heap2, output := out ++ joinWithSpaces texts } := by
  intro args
  induction args with
  | nil =>
    intro closure heap texts closure2 heap2 out h
    cases texts with
    | nil =>
      simp only [rendersQuietly] at h
      obtain ⟨h1, h2⟩ := h
      subst h1 h2
      simp [PrintArgs, spaced, joinWithSpaces]
    | cons text rest => simp [rendersQuietly] at h
  | cons arg rest ih =>
    intro closure heap texts closure2 heap2 out h
    cases texts with
    | nil => simp [rendersQuietly] at h
    | cons text more =>
      simp only [rendersQuietly] at h
      obtain ⟨value, ca, ha, cb, hb, harg, hrender, hrest⟩ := h
      have hstep : ∀ o : String,
          (match value with
            | .None =>
              PrintArgs exec fuel rest false
                (State.write { closure := ca, heap := ha, output := o } "None")
            | _ =>
              (ObjectPrint exec fuel value { closure := ca, heap := ha, output := o }).bind
                fun t st2 => PrintArgs exec fuel rest false (st2.write t))
            = .ok ()
              { closure := closure2, heap := heap2, output := o ++ text ++ spaced more } := by
        intro o
        rcases hrender with ⟨hv, ht, hcb, hhb⟩ | ⟨hv, hprint⟩
        · subst hv ht hcb hhb
          exact (ih _ _ more closure2 heap2 (o ++ "None") hrest).1
        · have hp := hprint o
          have hnext := (ih cb hb more closure2 heap2 (o ++ text) hrest).1
          cases value with
          | None => exact absurd rfl hv
          | string v => simpa only [hp, Result.bind_ok, State.write] using hnext
          | number v => simpa only [hp, Result.bind_ok, State.write] using hnext
          | bool v => simpa only [hp, Result.bind_ok, State.write] using hnext
          | cls c => simpa only [hp, Result.bind_ok, State.write] using hnext
          | inst addr => simpa only [hp, Result.bind_ok, State.write] using hnext
      constructor
      · simp only [PrintArgs, Bool.false_eq_true, if_false, State.write, harg, Result.bind_ok]
        have h2 := hstep (out ++ " ")
        simp only [State.write] at h2 ⊢
        rw [h2]
        simp only [spaced, String.append_assoc]
      · simp only [PrintArgs, if_true, harg, Result.bind_ok]
        have h2 := hstep out
        simp only [State.write] at h2 ⊢
        rw [h2]
        simp only [joinWithSpaces, String.append_assoc]

/-- Claim C18 fails as stated.  `obj.show()` prints `hi` and returns 1.  `Print` of the
arguments `0` and `obj.show()` writes `0`, the separating space, then what evaluating the
second argument writes, then its rendering `1` and the newline: the text appended is not
`0 1` followed by the newline. -/
theorem print_interleaves_argument_output :
    Execute noComparators 5 (.MethodCall (.VariableValue ["obj"]) "show" []) exampleNoisy
      = .ok (.number 1) { exampleNoisy with output := "hi\n" } ∧
    Execute noComparators 6
        (.Print [.Literal (.number 0), .MethodCall (.VariableValue ["obj"]) "show" []])
        exampleNoisy
      = .ok .None { exampleNoisy with output := "0 hi\n1\n" } ∧
    ("0 hi\n1\n" : String) ≠ exampleNoisy.output ++ joinWithSpaces ["0", "1"] ++ "\n" :=
  ⟨rfl, rfl, by decide⟩

/-- Claim C18, as the code has it.  When the arguments of `Print` evaluate in order and are
rendered as `r_1 .. r_n` while no evaluation and no rendering writes to the output,
`Print` appends exactly `r_1 + " " + ... + " " + r_n` and a newline, only the newline
when there is no argument, and leaves the scope and the instances as the arguments left
them.  The rendering of the empty handle is `None`; that of a number, string, boolean or
class is its own text and never writes.  Whenever `Print` returns, it returns the empty
handle. -/
theorem print_execute (cmp : Comparators) (fuel : Nat) :
    (∀ (args : List Statement) (st : State) (texts : List String) (closure2 : Closure)
        (heap2 : Heap),
      rendersQuietly (Execute cmp fuel) fuel args st.closure st.heap texts closure2 heap2 →
      Execute cmp (fuel + 1) (.Print args) st
        = .ok .None
            { closure := closure2, heap := heap2,
              output := st.output ++ joinWithSpaces texts ++ "\n" }) ∧
    (∀ st : State, Execute cmp (fuel + 1) (.Print []) st = .ok .None (st.write "\n")) ∧
    (∀ (value : ObjectHolder) (text : String) (st : State),
      renderValue value = some text → value ≠ .None →
      ObjectPrint (Execute cmp fuel) fuel value st = .ok text st) ∧
    (∀ (args : List Statement) (st st1 : State) (value : ObjectHolder),
      Execute cmp (fuel + 1) (.Print args) st = .ok value st1 → value = .None) := by
  refine ⟨?_, ?_, ?_, ?_⟩
  · intro args st texts closure2 heap2 h
    have hq := (PrintArgs_quiet (Execute cmp fuel) fuel args st.closure st.heap texts
      closure2 heap2 st.output h).2
    rw [Execute_Print]
    have hst : st = { closure := st.closure, heap := st.heap, output := st.output } := rfl
    rw [hst, hq]
    rfl
  · intro st
    rw [Execute_Print]
    rfl
  · intro value text st hr hv
    exact ObjectPrint_renderValue _ fuel value text st hr hv
  · intro args st st1 value h
    rw [Execute_Print] at h
    cases hp : PrintArgs (Execute cmp fuel) fuel args true st with
    | ok u s =>
      rw [hp, Result.bind_ok] at h
      cases h
      rfl
    | throw e s => simp [hp] at h
    | undefined => simp [hp] at h
    | timeout => simp [hp] at h

/-- The number 1, the string `a`, the empty handle, `True` and the class `Base` are printed
as `1 a None True Base` and a newline. -/
theorem print_execute_witness :
    Execute noComparators 2
        (.Print [.Literal (.number 1), .Literal (.string "a"), .Literal .none,
          .Literal (.bool true), .VariableValue ["c"]])
        { closure := [("c", .cls exampleBase)], heap := [], output := ">" }
      = .ok .None
          { closure := [("c", .cls exampleBase)], heap := [],
            output := ">" ++ joinWithSpaces ["1", "a", "None", "True", "Base"] ++ "\n" } ∧
    (">" ++ joinWithSpaces ["1", "a", "None", "True", "Base"] ++ "\n" : String)
      = ">1 a None True Base\n" ∧
    ObjectPrint (Execute noComparators 1) 1 (.number (-12)) State.initial
      = .ok "-12" State.initial :=
  ⟨(print_execute noComparators 1).1
      [.Literal (.number 1), .Literal (.string "a"), .Literal .none, .Literal (.bool true),
        .VariableValue ["c"]]
      { closure := [("c", .cls exampleBase)], heap := [], output := ">" }
      ["1", "a", "None", "True", "Base"] [("c", .cls exampleBase)] []
      ⟨.number 1, _, _, _, _, fun _ => rfl, Or.inr ⟨fun h => (by cases h), fun _ => rfl⟩,
       .string "a", _, _, _, _, fun _ => rfl, Or.inr ⟨fun h => (by cases h), fun _ => rfl⟩,
       .None, _, _, _, _, fun _ => rfl, Or.inl ⟨rfl, rfl, rfl, rfl⟩,
       .bool true, _, _, _, _, fun _ => rfl, Or.inr ⟨fun h => (by cases h), fun _ => rfl⟩,
       .cls exampleBase, _, _, _, _, fun _ => rfl,
         Or.inr ⟨fun h => (by cases h), fun _ => rfl⟩,
       rfl, rfl⟩,
   by decide,
   (print_execute noComparators 1).2.2.1 (.number (-12)) "-12" State.initial (by decide)
     (fun h => by cases h)⟩

end LitePython
